import Mathlib

/-!
# dune-hdd: the hyperbolic example drivers

A shallow embedding of the explicit finite-volume time loop of
`examples/hyperbolic/burgers.cc` and of the step-size handling of
`examples/hyperbolic/twobeams.cc`, over exact rational arithmetic; the clock of the time
loop is embedded a second time with its additions rounded as additions of doubles.

The grid (`Dune::YaspGrid`), the tolerance comparison `Dune::FloatCmp::eq` and the
local operator of dune-gdt are libraries outside the repository.  The drivers are
embedded over an explicit grid view, the comparison and the local operator are
arguments of the embedding, and the Lax-Friedrichs flux is written down from the
specification.
-/

namespace DuneHDD

/-! ## Grid view -/

/-- An intersection (face) of an entity as the driver sees it: `outside` is the index of
the neighbouring entity when `neighbor()` holds, `boundary` is `boundary()`, `center` is
`geometry().center()[0]` and `unitOuterNormal` the outward normal (`-1` or `+1` in 1-D). -/
structure Intersection where
  outside : Option Nat
  boundary : Bool
  center : ℚ
  unitOuterNormal : ℚ
deriving DecidableEq, Repr

/-- A codim-0 entity (cell): its volume (width in 1-D) and its intersections in the
order of the intersection iterator. -/
structure Entity where
  volume : ℚ
  intersections : List Intersection
deriving DecidableEq, Repr

instance : Inhabited Entity := ⟨⟨0, []⟩⟩

/-- The entities of the leaf grid view in the order of the grid walk; the position of an
entity is its index in the finite-volume space. -/
abbrev GridView := List Entity

/-- Modelled from the spec: the Mesh collaborator (grid provider and `YaspGrid`, not part
of the sources): the left interface of cell `i` of the `N`-cell grid on `[0,1]`; the one
of cell `0` is a boundary face without a neighbour. -/
def leftFace (N i : Nat) : Intersection :=
  { outside := if i = 0 then none else some (i - 1)
    boundary := decide (i = 0)
    center := (i : ℚ) / (N : ℚ)
    unitOuterNormal := -1 }

/-- Modelled from the spec: the Mesh collaborator, the right interface of cell `i` of the
`N`-cell grid on `[0,1]`; the one of cell `N-1` is a boundary face without a neighbour. -/
def rightFace (N i : Nat) : Intersection :=
  { outside := if i + 1 = N then none else some (i + 1)
    boundary := decide (i + 1 = N)
    center := ((i : ℚ) + 1) / (N : ℚ)
    unitOuterNormal := 1 }

/-- Modelled from the spec: the Mesh collaborator: an ordered sequence of cells, each
with a scalar width and a left and a right interface.  Cell `i` of the `N`-cell grid on
`[0,1]`, of width `1/N`, the left face first in the intersection walk. -/
def cubeEntity (N i : Nat) : Entity :=
  { volume := 1 / (N : ℚ)
    intersections := [leftFace N i, rightFace N i] }

/-- Modelled from the spec: the Mesh collaborator, the uniform grid of `N` cells on
`[0,1]` in grid-walk order. -/
def cubeGrid (N : Nat) : GridView := (List.range N).map (cubeEntity N)

/-! ## Discrete functions and the local operator -/

/-- A local (discrete) function: the entity it lives on and its single finite-volume
degree of freedom. -/
structure LocalFunction where
  entity : Entity
  value : ℚ

/-- The type of `local_operator.apply(u_i, u_i, u_j, u_j, intersection, .., update, ..)`:
from the local functions on the inside and on the outside and the intersection to the
value it stores in `update[0][0]`.  The call is taken to overwrite `update[0][0]`, so the
driver's resets `update[0][0] = RangeFieldType(0)` have no further effect. -/
abbrev LocalOperator := LocalFunction → LocalFunction → Intersection → ℚ

/-- Modelled from the spec: the Lax-Friedrichs variant of NumericalFlux (dune-gdt, not
part of the sources), `flux = 0.5*(F(uL)+F(uR)) - 0.5*λ*(uR-uL)`, with the analytical
flux taken in direction `n` as the contract `evaluate(u,u,n) = F(u)·n` asks. -/
def LaxFriedrichsFlux (F : ℚ → ℚ) (lambda : ℚ) (uL uR n : ℚ) : ℚ :=
  1 / 2 * (F uL + F uR) * n - 1 / 2 * lambda * (uR - uL)

/-- Modelled from the spec: the local finite-volume operator `Codim1FV` (dune-gdt, not
part of the sources): the numerical flux through the face, from the inside state to the
outside state along the outward normal, scaled by the width of the inside cell
(`(flux_right_face − flux_left_face)/cellWidth`). -/
def Codim1FV (numerical_flux : ℚ → ℚ → ℚ → ℚ) : LocalOperator :=
  fun u_i u_j intersection =>
    numerical_flux u_i.value u_j.value intersection.unitOuterNormal / u_i.entity.volume

/-- The call `vector().add(i, x)` of a dense vector: adds `x` to entry `i`. -/
def add : List ℚ → Nat → ℚ → List ℚ
  | [], _, _ => []
  | a :: v, 0, x => (a + x) :: v
  | a :: v, i + 1, x => a :: add v i x

/-- The call `u.local_discrete_function(entity)` for the entity at position `i`. -/
def local_discrete_function (grid_view : GridView) (u : List ℚ) (i : Nat) : LocalFunction :=
  ⟨grid_view.getD i default, u.getD i 0⟩

/-! ## One pass of the body of the time loop of `burgers.cc` -/

/-- The objects the body of the time loop reads: the comparison `Dune::FloatCmp::eq`, the
local operator, the step size and the grid view. -/
structure Driver where
  eq : ℚ → ℚ → Bool
  local_operator : LocalOperator
  dt : ℚ
  grid_view : GridView

/-- The variables the grid walk writes. -/
structure WalkState where
  u_update : List ℚ
  left_boundary_entity_offset : Nat
  right_boundary_entity_offset : Nat
deriving DecidableEq, Repr

/-- The body of the intersection walk for one intersection of the entity at `offset`:
an inner intersection adds `-1.0*dt*update` to the entity's update; a boundary
intersection records the offset or throws `Dune::NotImplemented`. -/
def walkIntersection (D : Driver) (u : List ℚ) (offset : Nat) (st : WalkState)
    (intersection : Intersection) : Except String WalkState :=
  let st1 : WalkState :=
    match intersection.outside with
    | some j =>
      let update := D.local_operator (local_discrete_function D.grid_view u offset)
        (local_discrete_function D.grid_view u j) intersection
      { st with u_update := add st.u_update offset (-1 * D.dt * update) }
    | none => st
  if intersection.boundary then
    if D.eq intersection.center 1 then
      .ok { st1 with right_boundary_entity_offset := offset }
    else if D.eq intersection.center 0 then
      .ok { st1 with left_boundary_entity_offset := offset }
    else .error "Strange boundary intersection"
  else .ok st1

/-- The intersection walk of the entity at `offset`. -/
def walkIntersections (D : Driver) (u : List ℚ) (offset : Nat) :
    List Intersection → WalkState → Except String WalkState
  | [], st => .ok st
  | i :: is, st =>
    match walkIntersection D u offset st i with
    | .ok st1 => walkIntersections D u offset is st1
    | .error e => .error e

/-- The entity grid walk, over the entities from position `offset` on. -/
def walkEntities (D : Driver) (u : List ℚ) :
    List Entity → Nat → WalkState → Except String WalkState
  | [], _, st => .ok st
  | entity :: es, offset, st =>
    match walkIntersections D u offset entity.intersections st with
    | .ok st1 => walkEntities D u es (offset + 1) st1
    | .error e => .error e

/-- The loop over the intersections of a boundary entity after the grid walk: every
boundary intersection adds `-1.0*dt*update`, with the other boundary entity as outside. -/
def boundaryIntersections (D : Driver) (u_in u_out : LocalFunction) (idx : Nat) :
    List Intersection → List ℚ → List ℚ
  | [], u_update => u_update
  | i :: is, u_update =>
    boundaryIntersections D u_in u_out idx is
      (if i.boundary then add u_update idx (-1 * D.dt * D.local_operator u_in u_out i)
       else u_update)

/-- One pass of the body of `while (t<t_end)` up to `u.vector() += u_update.vector()`:
returns the new `u` and the update buffer.  Dereferencing the begin iterator of an empty
grid view is reported as an error. -/
def step (D : Driver) (u u_update : List ℚ) : Except String (List ℚ × List ℚ) :=
  let st0 : WalkState := ⟨u_update.map (fun x => x * 0), 0, 0⟩
  match walkEntities D u D.grid_view 0 st0 with
  | .error e => .error e
  | .ok st =>
    match D.grid_view.get? st.left_boundary_entity_offset,
          D.grid_view.get? st.right_boundary_entity_offset with
    | some left_boundary_entity, some right_boundary_entity =>
      let u_left_n := local_discrete_function D.grid_view u st.left_boundary_entity_offset
      let u_right_n := local_discrete_function D.grid_view u st.right_boundary_entity_offset
      let upd1 := boundaryIntersections D u_left_n u_right_n st.left_boundary_entity_offset
        left_boundary_entity.intersections st.u_update
      let upd2 := boundaryIntersections D u_right_n u_left_n st.right_boundary_entity_offset
        right_boundary_entity.intersections upd1
      .ok (List.zipWith (fun a b => a + b) u upd2, upd2)
    | _, _ => .error "dereferenced the end iterator of the grid view"

/-- The local operator of the driver: `Codim1FV` over the Lax-Friedrichs flux with the
analytical flux `F` and the constant `lambda`. -/
def laxFriedrichsOperator (F : ℚ → ℚ) (lambda : ℚ) : LocalOperator :=
  Codim1FV (LaxFriedrichsFlux F lambda)

/-- Exact comparison, the comparison `Dune::FloatCmp::eq` with tolerance zero. -/
def exactEq (a b : ℚ) : Bool := decide (a = b)

/-- The value of `dimensions.entity_width.max()`: the largest cell width of the grid
view. -/
def entity_width_max (grid_view : GridView) : ℚ :=
  (grid_view.map Entity.volume).foldl max 0

/-- The driver of `main`: `lambda = dt/dx` with `dx` the largest cell width, and
`local_operator(*analytical_flux, lambda)`. -/
def mainDriver (eq : ℚ → ℚ → Bool) (F : ℚ → ℚ) (dt : ℚ) (grid_view : GridView) : Driver :=
  { eq := eq
    local_operator := laxFriedrichsOperator F (dt / entity_width_max grid_view)
    dt := dt
    grid_view := grid_view }

/-- The sum over all cells of state times cell width. -/
def totalMass (grid_view : GridView) (u : List ℚ) : ℚ :=
  (List.zipWith (fun (e : Entity) (x : ℚ) => x * e.volume) grid_view u).sum

/-- The contribution `-1.0*dt*update` of an intersection of entity `i` with the entity
`j` on the outside. -/
def faceUpdate (D : Driver) (u : List ℚ) (i j : Nat) (intersection : Intersection) : ℚ :=
  -1 * D.dt * D.local_operator (local_discrete_function D.grid_view u i)
    (local_discrete_function D.grid_view u j) intersection

/-- The index of the cell to the left of cell `i` on the periodic chain of `N` cells. -/
def leftOf (N i : Nat) : Nat := if i = 0 then N - 1 else i - 1

/-- The index of the cell to the right of cell `i` on the periodic chain of `N` cells. -/
def rightOf (N i : Nat) : Nat := if i + 1 = N then 0 else i + 1

/-- The update of cell `i` in conservative form: the contributions of its left and of
its right face, each with the periodic neighbour on the outside. -/
def cellUpdate (D : Driver) (u : List ℚ) (N i : Nat) : ℚ :=
  faceUpdate D u i (leftOf N i) (leftFace N i) + faceUpdate D u i (rightOf N i) (rightFace N i)

/-! ## The time loop of `burgers.cc` -/

/-- A call of `u.visualize("concentration_" + toString(index), false)`: the index in the
file name, the value of `t` at the call and the written state. -/
structure Snapshot where
  index : Nat
  time : ℚ
  data : List ℚ
deriving DecidableEq, Repr

/-- The variables of `main` that the time loop changes, and the files written so far. -/
structure LoopState where
  u : List ℚ
  u_update : List ℚ
  t : ℚ
  time_step_counter : Nat
  saveStep : ℚ
  save_step_counter : Nat
  written : List Snapshot
deriving DecidableEq, Repr

/-- The state of `main` on entry to the time loop: `concentration_0` is written, `t=0`,
`saveStep` is the first save threshold and `save_step_counter = 1`. -/
def initialState (u0 : List ℚ) (saveInterval : ℚ) : LoopState :=
  { u := u0
    u_update := u0.map (fun _ => 0)
    t := 0
    time_step_counter := 0
    saveStep := saveInterval
    save_step_counter := 1
    written := [⟨0, 0, u0⟩] }

/-- The body of `while (t<t_end)`: the pass over the grid, `t += dt`, and the snapshot
policy `if (t >= saveStep)`. -/
def loopBody (D : Driver) (saveInterval : ℚ) (s : LoopState) : Except String LoopState :=
  match step D s.u s.u_update with
  | .error e => .error e
  | .ok (u, u_update) =>
    let t := s.t + D.dt
    if t ≥ s.saveStep then
      .ok { u := u
            u_update := u_update
            t := t
            time_step_counter := s.time_step_counter + 1
            saveStep := s.saveStep + saveInterval
            save_step_counter := s.save_step_counter + 1
            written := s.written ++ [⟨s.save_step_counter, t, u⟩] }
    else
      .ok { u := u
            u_update := u_update
            t := t
            time_step_counter := s.time_step_counter + 1
            saveStep := s.saveStep
            save_step_counter := s.save_step_counter
            written := s.written }

/-- The first `n` passes of the loop body, without the test of the loop. -/
def steps (D : Driver) (saveInterval : ℚ) : Nat → LoopState → Except String LoopState
  | 0, s => .ok s
  | n + 1, s =>
    match loopBody D saveInterval s with
    | .error e => .error e
    | .ok s1 => steps D saveInterval n s1

/-- The loop `while (t<t_end)`, with fuel: `none` when the fuel runs out before the loop
stops, an error when a pass throws. -/
def timeLoop (D : Driver) (saveInterval t_end : ℚ) :
    Nat → LoopState → Option (Except String LoopState)
  | 0, _ => none
  | fuel + 1, s =>
    if s.t < t_end then
      match loopBody D saveInterval s with
      | .error e => some (.error e)
      | .ok s1 => timeLoop D saveInterval t_end fuel s1
    else some (.ok s)

/-- The number of snapshots recorded in the loop: the written files without
`concentration_0`. -/
def recordedInLoop (s : LoopState) : Nat := s.written.length - 1

/-! ## Closed forms used in the proofs -/

/-- The state after the intersection walk of cell `i` of the cube grid. -/
def afterEntity (D : Driver) (u : List ℚ) (N i : Nat) (st : WalkState) : WalkState :=
  { u_update :=
      add (add st.u_update i (if i = 0 then 0 else faceUpdate D u i (i - 1) (leftFace N i))) i
        (if i + 1 = N then 0 else faceUpdate D u i (i + 1) (rightFace N i))
    left_boundary_entity_offset := if i = 0 then i else st.left_boundary_entity_offset
    right_boundary_entity_offset := if i + 1 = N then i else st.right_boundary_entity_offset }

/-- The update of cell `j` that the grid walk alone collects: its inner faces. -/
def innerUpdate (D : Driver) (u : List ℚ) (N j : Nat) : ℚ :=
  (if j = 0 then 0 else faceUpdate D u j (j - 1) (leftFace N j)) +
    (if j + 1 = N then 0 else faceUpdate D u j (j + 1) (rightFace N j))

/-- The number of snapshots the loop has recorded after `n` passes, by the comparison of
the snapshot policy alone: `t = n*dt` against the threshold `(1 + count)*saveInterval`. -/
def snapshotCount (dt saveInterval : ℚ) : Nat → Nat
  | 0 => 0
  | n + 1 =>
    if ((n : ℚ) + 1) * dt ≥ (1 + (snapshotCount dt saveInterval n : ℚ)) * saveInterval then
      snapshotCount dt saveInterval n + 1
    else snapshotCount dt saveInterval n

/-- The initial state of the single-discontinuity scenario: `1` on cells 40 to 60 of 100
cells and `0` elsewhere. -/
def stepProfile : List ℚ :=
  (List.range 100).map (fun i => if 40 ≤ i ∧ i ≤ 60 then (1 : ℚ) else 0)

/-! ## Boundary detection, counting and the written files -/

/-- The test of the grid walk that ends in `DUNE_THROW(Dune::NotImplemented, ..)`: a
boundary intersection whose centre compares equal to neither `1.0` nor `0.0`. -/
def strangeBoundary (D : Driver) (i : Intersection) : Bool :=
  i.boundary && !(D.eq i.center 1) && !(D.eq i.center 0)

/-- A local operator that stores `1` for every intersection; with `dt = -1` every
contribution `-1.0*dt*update` is `1`, so the update buffer counts the contributions. -/
def countingOperator : LocalOperator := fun _ _ _ => 1

/-- A local operator that stores `1` for the intersections with outward normal `n` and `0`
for the others. -/
def faceCountingOperator (n : ℚ) : LocalOperator :=
  fun _ _ i => if i.unitOuterNormal = n then 1 else 0

/-- The one-cell grid on `[0,2]`: its right boundary face is centred at `2`. -/
def strangeGrid : GridView :=
  [{ volume := 2
     intersections := [⟨none, true, 0, -1⟩, ⟨none, true, 2, 1⟩] }]

/-- The times of the written snapshots, in the order of writing. -/
def snapshotTimes (s : LoopState) : List ℚ := s.written.map Snapshot.time

/-- The indices in the names of the written snapshots, in the order of writing. -/
def snapshotIndices (s : LoopState) : List Nat := s.written.map Snapshot.index

/-! ## The `.csv` export of `twobeams.cc` -/

/-- What `twobeams.cc` sends to `output_file` within a row: the separator `", "` or the
text `DSC::toString(x)` of a number. -/
inductive CsvToken where
  | sep
  | text (x : ℚ)
deriving DecidableEq, Repr

/-- The first line of the file (lines 164 to 169): for every entity of the grid walk
`", "` and then its centre; `centers` are the values `entity.geometry().center()[0]` in
grid-walk order. -/
def csvFirstLine (centers : List ℚ) : List CsvToken :=
  centers.flatMap (fun c => [CsvToken.sep, CsvToken.text c])

/-- The line of one pair of `solution` (lines 170 to 178): the time, then for every entity
of the grid walk `", "` and the first component of the discrete function on that entity;
`pair.2 i` is that component on the entity at position `i`. -/
def csvLine (centers : List ℚ) (pair : ℚ × (Nat → ℚ)) : List CsvToken :=
  CsvToken.text pair.1 ::
    (List.range centers.length).flatMap (fun i => [CsvToken.sep, CsvToken.text (pair.2 i)])

/-- The lines written to the `.csv` file, each ended by `std::endl`: the first line and
one line per pair of `timestepper.solution()`, in the order of the range-for. -/
def writeCsv (centers : List ℚ) (solution : List (ℚ × (Nat → ℚ))) : List (List CsvToken) :=
  csvFirstLine centers :: solution.map (csvLine centers)

/-- The fields of a line: the numbers between consecutive separators; a line that starts
with a separator has an empty first field. -/
def fields : List CsvToken → List (List ℚ)
  | [] => [[]]
  | CsvToken.sep :: ts => [] :: fields ts
  | CsvToken.text x :: ts =>
    match fields ts with
    | [] => [[x]]
    | f :: fs => (x :: f) :: fs

/-! ## The problem `Spe10::Model1` and the test `OS2014` -/

/-- A point or corner of the two-dimensional domain (`DomainType`). -/
abbrev DomainType := ℚ × ℚ

/-- The type `Values` of `Model1`: tuples of lower corner, upper corner and value. -/
abbrev Values := List (DomainType × DomainType × ℚ)

/-- The functions of dune-stuff that `Model1` builds, by their constructor arguments. -/
inductive StuffFunction where
  | Constant (value : ℚ) (name : String)
  | Indicator (values : Values) (name : String)
  | Spe10Model1 (filename : String) (lower_left upper_right : DomainType)
      (min_value max_value : ℚ) (name : String)
  | make_sum (left right : StuffFunction) (name : Option String)
  | make_product (left right : StuffFunction) (name : Option String)
deriving DecidableEq, Repr

/-- The arguments of `Pymor::ParameterFunctional(key, size, expression)`. -/
structure ParameterFunctional where
  key : String
  size : Nat
  expression : String
deriving DecidableEq, Repr

/-- Modelled from the spec: the two wrappers of dune-pymor that `create_diffusion_factor`
returns are not part of the sources and the specification leaves them open; they are kept
by their constructor arguments: `NonparametricDefault` around a function, and
`AffinelyDecomposableDefault` with an affine part and the registered components. -/
inductive PymorFunction where
  | NonparametricDefault (function : StuffFunction)
  | AffinelyDecomposableDefault (affine_part : StuffFunction) (name : String)
      (components : List (StuffFunction × ParameterFunctional))
deriving DecidableEq, Repr

/-- Modelled from the spec: the call `ret->register_component(function, coefficient)` of
dune-pymor, not part of the sources: the component is appended to the registered ones. -/
def PymorFunction.register_component (ret : PymorFunction) (function : StuffFunction)
    (coefficient : ParameterFunctional) : PymorFunction :=
  match ret with
  | .NonparametricDefault f => .NonparametricDefault f
  | .AffinelyDecomposableDefault a n cs => .AffinelyDecomposableDefault a n (cs ++ [(function, coefficient)])

/-- A parameter type: the keys with their sizes. -/
abbrev ParameterType := List (String × Nat)

/-- Modelled from the spec: the call `parameter_type()` of a wrapped function (dune-pymor,
not part of the sources, left open by the specification): the keys and sizes of the
coefficients of its registered components; a `NonparametricDefault` has none. -/
def PymorFunction.parameter_type : PymorFunction → ParameterType
  | .NonparametricDefault _ => []
  | .AffinelyDecomposableDefault _ _ cs => (cs.map (fun c => (c.2.key, c.2.size))).dedup

/-- Modelled from the spec: the call `parametric()` (dune-pymor, not part of the sources,
left open by the specification): the parameter type is not empty. -/
def PymorFunction.parametric (f : PymorFunction) : Bool := !f.parameter_type.isEmpty

/-- The function `Model1::create_diffusion_factor`. -/
def create_diffusion_factor (values : Values) (parametric : Bool) : PymorFunction :=
  let one := StuffFunction.Constant 1 "one"
  let channel := StuffFunction.Indicator values "channel"
  if parametric then
    let ret := PymorFunction.AffinelyDecomposableDefault (StuffFunction.make_sum one channel none)
      "diffusion_factor" []
    ret.register_component channel ⟨"mu", 1, "-1.0*mu"⟩
  else
    let zero_pt_nine := StuffFunction.Constant (9 / 10) "0.9"
    PymorFunction.NonparametricDefault
      (StuffFunction.make_sum one
        (StuffFunction.make_product zero_pt_nine channel (some "scaled_channel"))
        (some "diffusion_factor"))

/-- The data functions of a linear elliptic problem (`Problems::Default`). -/
structure Problem where
  diffusion_factor : PymorFunction
  diffusion_tensor : PymorFunction
  force : PymorFunction
  dirichlet : PymorFunction
  neumann : PymorFunction
deriving DecidableEq, Repr

/-- Modelled from the spec: the constructor of `Problems::Default` that `Model1` calls
(`default.hh` is not part of the sources): the diffusion factor as given, the four
functions of dune-stuff each wrapped as `NonparametricDefault`. -/
def Problem.Default (diffusion_factor : PymorFunction)
    (diffusion_tensor force dirichlet neumann : StuffFunction) : Problem :=
  { diffusion_factor := diffusion_factor
    diffusion_tensor := .NonparametricDefault diffusion_tensor
    force := .NonparametricDefault force
    dirichlet := .NonparametricDefault dirichlet
    neumann := .NonparametricDefault neumann }

/-- Modelled from the spec: the call `parameter_type()` of a problem (`default.hh` is not
part of the sources): the parameter types its data functions bring in. -/
def Problem.parameter_type (p : Problem) : ParameterType :=
  (p.diffusion_factor.parameter_type ++ p.diffusion_tensor.parameter_type
    ++ p.force.parameter_type ++ p.dirichlet.parameter_type ++ p.neumann.parameter_type).dedup

/-- The constructor `Model1::Model1`; `model1_min_value` and `model1_max_value` are
constants of dune-stuff. -/
def Model1 (model1_min_value model1_max_value : ℚ) (filename : String)
    (lower_left upper_right : DomainType) (channel_values force_values : Values)
    (parametric_channel : Bool) : Problem :=
  Problem.Default (create_diffusion_factor channel_values parametric_channel)
    (StuffFunction.Spe10Model1 filename lower_left upper_right model1_min_value model1_max_value
      "diffusion_tensor")
    (StuffFunction.Indicator force_values "force")
    (StuffFunction.Constant 0 "dirichlet")
    (StuffFunction.Constant 0 "neumann")

/-- Modelled from the spec: a `Pymor::Parameter` (dune-pymor, not part of the sources):
keys with their values; its `type()` gives the size per key. -/
structure Parameter where
  entries : List (String × List ℚ)
deriving DecidableEq, Repr

/-- Modelled from the spec: the call `parameter.type()` (dune-pymor, not part of the
sources): the size of the values per key. -/
def Parameter.type (p : Parameter) : ParameterType := p.entries.map (fun e => (e.1, e.2.length))

/-- The expectations of `print_parameter_information` (`OS2014.cxx`, lines 51 to 65), in
the order of the source: one `EXPECT_EQ` per parameter of the test case, then the five
checks of `parametric()`; an entry is `true` when the expectation holds. -/
def print_parameter_information (parametric_problem : Problem)
    (parameters : List (String × Parameter)) : List Bool :=
  parameters.map (fun parameter =>
      decide (parameter.2.type = parametric_problem.parameter_type)) ++
    [ parametric_problem.diffusion_factor.parametric,
      !parametric_problem.diffusion_tensor.parametric,
      !parametric_problem.force.parametric,
      !parametric_problem.dirichlet.parametric,
      !parametric_problem.neumann.parametric ]

/-! ## The example `GenericLinearellipticExample` -/

/-- The exceptions of dune-stuff that the examples and problems raise, with their
message. -/
inductive StuffException where
  | wrong_input_given (what : String)
  | configuration_error (what : String)
deriving DecidableEq, Repr

/-- The method `GenericLinearellipticExample::visualize`: the files handed to
`grid_->visualize` and `problem_->visualize`, in that order, and how the call ends. -/
def visualize ( filename_prefix : String) : List String × Except StuffException Unit :=
  if String.isEmpty filename_prefix then
    ([], .error (.wrong_input_given "Given filename prefix must not be empty!"))
  else
    ([ filename_prefix ++ ".grid", filename_prefix ++ ".problem"], .ok ())

/-- Modelled from the spec: `make_discrete_function< VectorType >(ansatz_space)` and
`GDT::Operators::apply_projection` of dune-gdt are not part of the sources: the vector of
the discrete function has one entry per degree of freedom of the ansatz space, and the
projection writes entry `i` as `apply_projection expression i`.  With them the method
`GenericLinearellipticExample::project`. -/
def project (ansatz_space_size : Nat) (apply_projection : String → Nat → ℚ)
    (expression : String) : Except StuffException (List ℚ) :=
  if String.isEmpty expression then
    .error (.wrong_input_given "Given expression must not be empty!")
  else
    .ok ((List.range ansatz_space_size).map (apply_projection expression))

/-! ## The constants of `twobeams.cc` -/

/-- The step size `double dt = 0.0005` of `twobeams.cc`. -/
def twobeams_dt : ℚ := 5 / 10000

/-- The end time `const double t_end = 2` of `twobeams.cc`. -/
def twobeams_t_end : ℚ := 2

/-- The line `const double saveInterval = t_end/1000 > dt ? t_end/1000 : dt;`. -/
def twobeams_saveInterval (t_end dt : ℚ) : ℚ :=
  if t_end / 1000 > dt then t_end / 1000 else dt

/-! ## The step size of `twobeams.cc` -/

/-- What `main` of `twobeams.cc` does with the step size between line 111 and line 151:
the step sizes it has handed to `find_suitable_dt`, in order, the step size it hands to
the operator and to `solve`, and the outcome of `solve`. -/
structure StepSizeRun (α : Type) where
  probed : List ℚ
  dt : ℚ
  solved : Except String α

/-- The lines 111 to 151 of `main` in `twobeams.cc` as they are compiled.
`find_suitable_dt` and `solve` stand for the two calls of the time stepper of dune-gdt,
for the flux and the initial values of the problem.  The search for a suitable time step
length, lines 131 to 138, is a comment in the source: `find_suitable_dt` is not called,
and `dt` reaches the operator and `solve` with the value of line 111. -/
def twobeams_main {α : Type} (_find_suitable_dt : ℚ → Bool × ℚ)
    (solve : ℚ → ℚ → ℚ → Except String α) : StepSizeRun α :=
  let dt := twobeams_dt
  let t_end := twobeams_t_end
  let saveInterval := twobeams_saveInterval t_end dt
  { probed := []
    dt := dt
    solved := solve t_end dt saveInterval }

/-- A probe that reports failure at every step size and halves it. -/
def halvingProbe (dt : ℚ) : Bool × ℚ := (false, dt / 2)

/-! ## Configuration trees -/

/-- A key of a configuration tree by its components: `channel.0.domain` is
`["channel", "0", "domain"]`, the empty string is `[]`. -/
abbrev Key := List String

/-- Modelled from the spec: `Stuff::Common::Configuration` (`ConfigTree`) of dune-stuff is
not part of the sources and the specification leaves it open; a tree is kept as its
entries, every value under its full key, in the order they were set. -/
abbrev Configuration := List (Key × String)

/-- The rest of `key` behind the leading components `name`, if `key` starts with them. -/
def dropKey : Key → Key → Option Key
  | [], key => some key
  | _ :: _, [] => none
  | a :: name, b :: key => if a = b then dropKey name key else none

/-- Modelled from the spec: the call `has_key(key)` of dune-stuff. -/
def Configuration.has_key (cfg : Configuration) (key : Key) : Bool :=
  cfg.any (fun e => decide (e.1 = key))

/-- Modelled from the spec: the value under `key`, if there is one. -/
def Configuration.get? (cfg : Configuration) (key : Key) : Option String :=
  (cfg.find? (fun e => decide (e.1 = key))).map Prod.snd

/-- Modelled from the spec: the call `get(key, default)` of dune-stuff. -/
def Configuration.get (cfg : Configuration) (key : Key) (default : String) : String :=
  (cfg.get? key).getD default

/-- An entry as seen from inside the sub-tree `name`: an entry under `name` loses these
leading components; other entries, and a value stored under `name` itself, are not in the
sub-tree. -/
def subEntry (name : Key) (e : Key × String) : Option (Key × String) :=
  match dropKey name e.1 with
  | some (k :: ks) => some (k :: ks, e.2)
  | _ => none

/-- Modelled from the spec: the call `sub(name)` of dune-stuff. -/
def Configuration.sub (cfg : Configuration) (name : Key) : Configuration :=
  cfg.filterMap (subEntry name)

/-- Modelled from the spec: the call `has_sub(name)` of dune-stuff. -/
def Configuration.has_sub (cfg : Configuration) (name : Key) : Bool :=
  cfg.any (fun e => (subEntry name e).isSome)

/-- Modelled from the spec: the assignment `cfg[key] = value` of dune-stuff: an existing
value is replaced, a new one is added. -/
def Configuration.set (cfg : Configuration) (key : Key) (value : String) : Configuration :=
  if cfg.has_key key then cfg.map (fun e => if e.1 = key then (key, value) else e)
  else cfg ++ [(key, value)]

/-- Modelled from the spec: the call `cfg.add(other, sub_id, overwrite)` of dune-stuff:
every value of `other` is set under `sub_id`.  The throw for an existing key without
`overwrite` is left out: where the sources call `add` without `overwrite` the sub-tree
`sub_id` is new. -/
def Configuration.add (cfg other : Configuration) (sub_id : Key) : Configuration :=
  other.foldl (fun acc e => acc.set (sub_id ++ e.1) e.2) cfg

/-- The configuration `c` nested under `name`: every key of `c` behind `name`. -/
def nested (c : Configuration) (name : Key) : Configuration :=
  c.map (fun e => (name ++ e.1, e.2))

/-- The well-formed trees: no key twice, no empty key. -/
def WellFormed (c : Configuration) : Prop :=
  (c.map Prod.fst).Nodup ∧ ∀ e ∈ c, e.1 ≠ []

/-- The name of a key with the components joined by dots. -/
def keyName (key : Key) : String := String.intercalate "." key

/-- Modelled from the spec: `DSC::fromString` of dune-stuff is not part of the sources: the
readings of a value as a 2x2 matrix by rows (`[a b; c d]` is `((a, b), (c, d))`), as a
number, as a point and as a truth value. -/
structure FromString where
  matrix : String → (ℚ × ℚ) × (ℚ × ℚ)
  number : String → ℚ
  domain : String → DomainType
  bool : String → Bool

/-! ## `Spe10::Model1`: configuration and values -/

/-- The entries of the stream `ss` in `Model1::default_config`, in the order of the
source. -/
def Spe10.stream : Configuration :=
  [
    (["channel", "0", "domain"], "[1.95 2.00; 0.30 0.35]"),
    (["channel", "1", "domain"], "[2.00 2.05; 0.30 0.35]"),
    (["channel", "2", "domain"], "[2.05 2.10; 0.30 0.35]"),
    (["channel", "3", "domain"], "[2.10 2.15; 0.30 0.35]"),
    (["channel", "4", "domain"], "[2.15 2.20; 0.30 0.35]"),
    (["channel", "5", "domain"], "[2.20 2.25; 0.30 0.35]"),
    (["channel", "6", "domain"], "[2.25 2.30; 0.30 0.35]"),
    (["channel", "7", "domain"], "[2.30 2.35; 0.30 0.35]"),
    (["channel", "8", "domain"], "[2.35 2.40; 0.30 0.35]"),
    (["channel", "9", "domain"], "[2.40 2.45; 0.30 0.35]"),
    (["channel", "10", "domain"], "[2.45 2.50; 0.30 0.35]"),
    (["channel", "11", "domain"], "[2.50 2.55; 0.30 0.35]"),
    (["channel", "12", "domain"], "[2.55 2.60; 0.30 0.35]"),
    (["channel", "13", "domain"], "[2.60 2.65; 0.30 0.35]"),
    (["channel", "14", "domain"], "[2.65 2.70; 0.30 0.35]"),
    (["channel", "15", "domain"], "[2.70 2.75; 0.30 0.35]"),
    (["channel", "16", "domain"], "[2.75 2.80; 0.30 0.35]"),
    (["channel", "17", "domain"], "[2.80 2.85; 0.30 0.35]"),
    (["channel", "18", "domain"], "[2.85 2.90; 0.30 0.35]"),
    (["channel", "19", "domain"], "[2.90 2.95; 0.30 0.35]"),
    (["channel", "20", "domain"], "[2.95 3.00; 0.30 0.35]"),
    (["channel", "21", "domain"], "[3.00 3.05; 0.30 0.35]"),
    (["channel", "22", "domain"], "[3.05 3.10; 0.30 0.35]"),
    (["channel", "23", "domain"], "[3.10 3.15; 0.30 0.35]"),
    (["channel", "24", "domain"], "[3.15 3.20; 0.30 0.35]"),
    (["channel", "25", "domain"], "[3.20 3.25; 0.30 0.35]"),
    (["channel", "26", "domain"], "[3.25 3.30; 0.30 0.35]"),
    (["channel", "0", "value"], "8.89427093374"),
    (["channel", "1", "value"], "13.6099841033"),
    (["channel", "2", "value"], "9.3045024096"),
    (["channel", "3", "value"], "9.36541962265"),
    (["channel", "4", "value"], "15.0913820881"),
    (["channel", "5", "value"], "10.7480498312"),
    (["channel", "6", "value"], "16.5883190883"),
    (["channel", "7", "value"], "31.0861602166"),
    (["channel", "8", "value"], "54.9712243572"),
    (["channel", "9", "value"], "100.952720119"),
    (["channel", "10", "value"], "52.0524075552"),
    (["channel", "11", "value"], "50.6886980657"),
    (["channel", "12", "value"], "480.647068351"),
    (["channel", "13", "value"], "124.968722073"),
    (["channel", "14", "value"], "253.47179089"),
    (["channel", "15", "value"], "59.4846423418"),
    (["channel", "16", "value"], "45.5966339635"),
    (["channel", "17", "value"], "65.4927486582"),
    (["channel", "18", "value"], "53.1302521008"),
    (["channel", "19", "value"], "356.247915509"),
    (["channel", "20", "value"], "119.247076023"),
    (["channel", "21", "value"], "428.620844564"),
    (["channel", "22", "value"], "105.760652121"),
    (["channel", "23", "value"], "225.936826992"),
    (["channel", "24", "value"], "86.2636769918"),
    (["channel", "25", "value"], "100.853603482"),
    (["channel", "26", "value"], "48.2026659651"),
    (["channel", "27", "domain"], "[3.00 3.05; 0.25 0.30]"),
    (["channel", "28", "domain"], "[3.05 3.10; 0.25 0.30]"),
    (["channel", "29", "domain"], "[3.10 3.15; 0.25 0.30]"),
    (["channel", "30", "domain"], "[3.15 3.20; 0.25 0.30]"),
    (["channel", "31", "domain"], "[3.20 3.25; 0.25 0.30]"),
    (["channel", "32", "domain"], "[3.25 3.30; 0.25 0.30]"),
    (["channel", "27", "value"], "8.1565912417"),
    (["channel", "28", "value"], "10.1920122888"),
    (["channel", "29", "value"], "9.45165105239"),
    (["channel", "30", "value"], "10.8577735731"),
    (["channel", "31", "value"], "31.1455310916"),
    (["channel", "32", "value"], "20.1779587527"),
    (["forces", "0", "domain"], "[0.95 1.10; 0.30 0.45]"),
    (["forces", "0", "value"], "2"),
    (["forces", "1", "domain"], "[3.00 3.15; 0.75 0.90]"),
    (["forces", "1", "value"], "-1"),
    (["forces", "2", "domain"], "[4.25 4.40; 0.25 0.40]"),
    (["forces", "2", "value"], "-1") ]

/-- The function `Model1::default_config`; `model1_filename` is a constant of
dune-stuff. -/
def Spe10.default_config (model1_filename : String) (sub_name : Key) : Configuration :=
  let config := (((Spe10.stream.set ["filename"] model1_filename).set ["lower_left"]
    "[0.0 0.0]").set ["upper_right"] "[5.0 1.0]").set ["parametric"] "false"
  if sub_name.isEmpty then config
  else Configuration.add [] config sub_name

/-- The tuple that `get_values` appends for the local configuration `local_cfg`. -/
def valueTuple (P : FromString) (local_cfg : Configuration) : DomainType × DomainType × ℚ :=
  let domains := P.matrix (local_cfg.get ["domain"] "")
  let tmp_lower : DomainType := (domains.1.1, domains.2.1)
  let tmp_upper : DomainType := (domains.1.2, domains.2.2)
  let val := P.number (local_cfg.get ["value"] "")
  (tmp_lower, tmp_upper, val)

/-- The loop `while (sub_cfg.has_sub(DSC::toString(cc)))` of `Model1::get_values`, with
fuel: `none` when the fuel runs out before the loop stops. -/
def get_values_loop (P : FromString) (sub_cfg : Configuration) :
    Nat → Nat → Values → Option Values
  | 0, _, _ => none
  | fuel + 1, cc, values =>
    if sub_cfg.has_sub [toString cc] then
      let local_cfg := sub_cfg.sub [toString cc]
      if local_cfg.has_key ["domain"] && local_cfg.has_key ["value"] then
        get_values_loop P sub_cfg fuel (cc + 1) (values ++ [valueTuple P local_cfg])
      else some values
    else some values

/-- The function `Model1::get_values`, with the fuel of its loop. -/
def get_values (P : FromString) (fuel : Nat) (cfg : Configuration) (id : Key) : Option Values :=
  if cfg.has_sub id then get_values_loop P (cfg.sub id) fuel 0 []
  else some []

/-- The test of the loop of `get_values` for index `k`: the sub-tree `k` exists and has
the keys `domain` and `value`. -/
def completeEntry (sub_cfg : Configuration) (k : Nat) : Bool :=
  sub_cfg.has_sub [toString k] &&
    ((sub_cfg.sub [toString k]).has_key ["domain"] && (sub_cfg.sub [toString k]).has_key ["value"])

/-- The function `Model1::create`, with the fuel of `get_values`; `model1_min_value`,
`model1_max_value` and `model1_filename` are constants of dune-stuff. -/
def Spe10.create (model1_min_value model1_max_value : ℚ) (model1_filename : String)
    (P : FromString) (fuel : Nat) (config : Configuration) (sub_name : Key) : Option Problem :=
  let cfg := if config.has_sub sub_name then config.sub sub_name else config
  let def_cfg := Spe10.default_config model1_filename []
  match get_values P fuel cfg ["channel"], get_values P fuel cfg ["forces"] with
  | some channel_values, some force_values =>
    some (Model1 model1_min_value model1_max_value
      (cfg.get ["filename"] (def_cfg.get ["filename"] ""))
      (P.domain (cfg.get ["lower_left"] (def_cfg.get ["lower_left"] "")))
      (P.domain (cfg.get ["upper_right"] (def_cfg.get ["upper_right"] "")))
      channel_values force_values
      (P.bool (cfg.get ["parametric"] (def_cfg.get ["parametric"] ""))))
  | _, _ => none

/-! ## Evaluation of the diffusion factor -/

/-- Membership of the point `x` in the box with corners `lower` and `upper`. -/
def inDomain (x lower upper : DomainType) : Bool :=
  decide (lower.1 ≤ x.1) && decide (x.1 ≤ upper.1) && decide (lower.2 ≤ x.2) &&
    decide (x.2 ≤ upper.2)

/-- Modelled from the spec: `Stuff::Functions::Indicator` of dune-stuff is not part of the
sources and the specification leaves it open: the value of the first tuple whose box
holds the point, and `0` where no box holds it. -/
def indicator (values : Values) (x : DomainType) : ℚ :=
  match values.find? (fun t => inDomain x t.1 t.2.1) with
  | some t => t.2.2
  | none => 0

/-- Modelled from the spec: the value at a point of the functions of dune-stuff that
`Model1` builds (dune-stuff is not part of the sources); `permeability` stands for the
data of the file of `Spe10::Model1`. -/
def StuffFunction.evaluate (permeability : DomainType → ℚ) : StuffFunction → DomainType → ℚ
  | .Constant value _, _ => value
  | .Indicator values _, x => indicator values x
  | .Spe10Model1 _ _ _ _ _ _, x => permeability x
  | .make_sum left right _, x => left.evaluate permeability x + right.evaluate permeability x
  | .make_product left right _, x => left.evaluate permeability x * right.evaluate permeability x

/-- Modelled from the spec: the value of a `Pymor::ParameterFunctional` at the parameter
`mu` (dune-pymor is not part of the sources): its expression, read by
`evaluate_expression`, at the values of `mu` under its key. -/
def ParameterFunctional.evaluate (evaluate_expression : String → List ℚ → ℚ)
    (coefficient : ParameterFunctional) (mu : Parameter) : ℚ :=
  evaluate_expression coefficient.expression ((mu.entries.lookup coefficient.key).getD [])

/-- Modelled from the spec: the value of a wrapped function at the parameter `mu` and the
point `x` (dune-pymor is not part of the sources): the function itself for
`NonparametricDefault`; the affine part plus the components weighted by their
coefficients at `mu` for `AffinelyDecomposableDefault`. -/
def PymorFunction.evaluate (permeability : DomainType → ℚ)
    (evaluate_expression : String → List ℚ → ℚ) (f : PymorFunction) (mu : Parameter)
    (x : DomainType) : ℚ :=
  match f with
  | .NonparametricDefault function => function.evaluate permeability x
  | .AffinelyDecomposableDefault affine_part _ components =>
    affine_part.evaluate permeability x +
      (components.map (fun c =>
        c.2.evaluate evaluate_expression mu * c.1.evaluate permeability x)).sum

/-- An expression reader that knows the coefficient `-1.0*mu` of `Model1`. -/
def channelExpression (expression : String) (mu : List ℚ) : ℚ :=
  if expression = "-1.0*mu" then -1 * mu.headD 0 else 0

/-! ## The discrete thermalblock problem -/

/-- The constructor of `DiscreteProblems::Thermalblock`, for the loaded configuration
`config_`: what it has created, in order, and how it ends, with `filename_` on success.
`print` stands for the output operator of the configuration; failures of the calls after
line 173 are not part of the embedding. -/
def DiscreteProblems.Thermalblock (print : Configuration → String) (config_ : Configuration)
    (id : Key) (visualize : Bool) : List String × Except StuffException String :=
  if !config_.has_sub id then
    ([], .error (.configuration_error
      ("Missing sub '" ++ keyName id ++ "' in the following ConfigTree:\n\n" ++ print config_)))
  else
    let filename_ := config_.get (id ++ ["filename"]) (keyName id)
    (["Logger", "grid_provider_", "boundary_info_", "problem_"] ++
      (if visualize then [ filename_ ++ ".grid", filename_ ++ ".problem"] else []),
     .ok filename_)

/-! ## The problems `Transport` and `Thermalblock`: configuration and creation -/

/-- The function `Transport::default_grid_config`. -/
def Transport.default_grid_config : Configuration :=
  let grid_config : Configuration := []
  let grid_config := Configuration.set grid_config ["type"] "provider.cube"
  let grid_config := Configuration.set grid_config ["lower_left"] "[0.0 0.0 0.0]"
  let grid_config := Configuration.set grid_config ["upper_right"] "[1.0 1.0 1.0]"
  let grid_config := Configuration.set grid_config ["num_elements"] "[500 60 60]"
  grid_config

/-- The function `Transport::default_boundary_info_config`. -/
def Transport.default_boundary_info_config : Configuration :=
  let boundary_config : Configuration := []
  let boundary_config := Configuration.set boundary_config ["type"] "periodic"
  boundary_config

/-- The function `Transport::default_config`; `base_default_config`,
`flux_default_config`, `flux_static_id`, `function_default_config` and `static_id` stand
for `BaseType::default_config()`, `DefaultFluxType::default_config()`,
`DefaultFluxType::static_id()`, `DefaultFunctionType::default_config()` and `static_id()`,
which rest on headers that are not part of the sources. -/
def Transport.default_config (base_default_config flux_default_config
    function_default_config : Configuration) (flux_static_id static_id : String)
    (sub_name : Key) : Configuration :=
  let config := base_default_config
  let config := config.add Transport.default_grid_config ["grid"]
  let config := config.add Transport.default_boundary_info_config ["boundary_info"]
  let flux_config := flux_default_config
  let flux_config := flux_config.set ["type"] flux_static_id
  let flux_config := flux_config.set ["A", "0"] "[1]"
  let flux_config := flux_config.set ["A", "1"] "[2]"
  let flux_config := flux_config.set ["b"] "[0 0; 0 0]"
  let config := config.add flux_config ["flux"]
  let initial_value_config := function_default_config
  let initial_value_config := initial_value_config.set ["lower_left"] "[0.0 0.0 0.0]"
  let initial_value_config := initial_value_config.set ["upper_right"] "[1.0 1.0 1.0]"
  let initial_value_config := initial_value_config.set ["num_elements"] "[5 1 1]"
  let initial_value_config := initial_value_config.set ["variable"] "x"
  let initial_value_config := initial_value_config.set ["values"]
    "[0 sin(pi/2+5*pi*(x[0]-0.3))*exp(-(200*(x[0]-0.3)*(x[0]-0.3))) 0 1.0 0.0]"
  let initial_value_config := initial_value_config.set ["name"] static_id
  let config := config.add initial_value_config ["initial_values"]
  if sub_name.isEmpty then config
  else Configuration.add [] config sub_name

/-- What `Transport::create` hands to the constructor: every function by the
configuration handed to its factory (`DefaultFluxType::create` and the like are not part
of the sources), and the two configurations. -/
structure TransportProblem where
  flux : Configuration
  source : Configuration
  initial_values : Configuration
  grid_config : Configuration
  boundary_info : Configuration
  boundary_values : Configuration
deriving DecidableEq, Repr

/-- The function `Transport::create`. -/
def Transport.create (cfg : Configuration) (sub_name : Key) : TransportProblem :=
  let config := if cfg.has_sub sub_name then cfg.sub sub_name else cfg
  { flux := config.sub ["flux"]
    source := config.sub ["source"]
    initial_values := config.sub ["initial_values"]
    grid_config := config.sub ["grid"]
    boundary_info := config.sub ["boundary_info"]
    boundary_values := config.sub ["boundary_values"] }

/-- The function `Problems::Thermalblock::default_config`;
`checkerboard_defaultSettings`, `constant_default_config` and `constant_static_id` stand
for `CheckerboardFunctionType::defaultSettings()`, `ConstantFunctionType::default_config()`
and `ConstantFunctionType::static_id()`, which are not part of the sources. -/
def Thermalblock.default_config (checkerboard_defaultSettings
    constant_default_config : Configuration) (constant_static_id : String)
    (sub_name : Key) : Configuration :=
  let config : Configuration := []
  let checkerboard_config := checkerboard_defaultSettings
  let checkerboard_config := checkerboard_config.set ["name"] "checkerboard_diffusion"
  let checkerboard_config := checkerboard_config.set ["parameterName"] "diffusion_factor"
  let config := config.add checkerboard_config ["diffusion_factor"]
  let constant_config := constant_default_config
  let constant_config := constant_config.set ["type"] constant_static_id
  let constant_config := constant_config.set ["name"] "force"
  let constant_config := constant_config.set ["value"] "1.0"
  let config := config.add constant_config ["force"]
  let constant_config := constant_config.set ["name"] "dirichlet"
  let constant_config := constant_config.set ["value"] "0.0"
  let config := config.add constant_config ["dirichlet"]
  let constant_config := constant_config.set ["name"] "neumann"
  let config := config.add constant_config ["neumann"]
  if sub_name.isEmpty then config
  else Configuration.add [] config sub_name

/-- What `Problems::Thermalblock::create` hands to the constructor: the checkerboard
function by the configuration handed to `CheckerboardFunctionType::create`, and the three
functions by the arguments of `BaseType::create_function< 1 >` (neither is part of the
sources). -/
structure ThermalblockProblem where
  checkerboard_function : Configuration
  force : String × Configuration
  dirichlet : String × Configuration
  neumann : String × Configuration
deriving DecidableEq, Repr

/-- The function `Problems::Thermalblock::create`. -/
def Thermalblock.create (config : Configuration) (sub_name : Key) : ThermalblockProblem :=
  let cfg := if config.has_sub sub_name then config.sub sub_name else config
  { checkerboard_function := cfg.sub ["diffusion_factor"]
    force := ("force", cfg)
    dirichlet := ("dirichlet", cfg)
    neumann := ("neumann", cfg) }

/-- A reader of values that reads every value as zero or false. -/
def zeroReader : FromString :=
  { matrix := fun _ => ((0, 0), (0, 0))
    number := fun _ => 0
    domain := fun _ => (0, 0)
    bool := fun _ => false }

/-- A reader of values that knows the domain and the value of `channel.0` of the default
configuration of `Model1`. -/
def channelReader : FromString :=
  { matrix := fun s =>
      if s = "[1.95 2.00; 0.30 0.35]" then ((195 / 100, 2), (30 / 100, 35 / 100))
      else ((0, 0), (0, 0))
    number := fun s => if s = "8.89427093374" then 889427093374 / 100000000000 else 0
    domain := fun _ => (0, 0)
    bool := fun _ => false }

/-- A configuration with the complete entries `channel.0` and `channel.2` and no entry
`channel.1`. -/
def gappedChannel : Configuration :=
  [ (["channel", "0", "domain"], "[1.95 2.00; 0.30 0.35]"),
    (["channel", "0", "value"], "8.89427093374"),
    (["channel", "2", "domain"], "[2.05 2.10; 0.30 0.35]"),
    (["channel", "2", "value"], "9.3045024096") ]

/-! ## The clock of the time loop in doubles -/

/-- The number of binary digits of `n`, with fuel (`bitLength n n` for every `n`). -/
def bitLength : Nat → Nat → Nat
  | 0, _ => 0
  | fuel + 1, n => if n = 0 then 0 else bitLength fuel (n / 2) + 1

/-- The binary exponent `e` of the positive number `n/d` as a `double`:
`2^52 ≤ (n/d) / 2^e < 2^53`. -/
def binaryExponent (n d : Nat) : Int :=
  let e0 : Int := (bitLength n n : Int) - (bitLength d d : Int) - 52
  let scaled := (n * 2 ^ (-e0).toNat) / (d * 2 ^ e0.toNat)
  if bitLength scaled scaled = 53 then e0 else e0 - 1

/-- The value of a number as a C++ `double`, the type of `t`, `dt`, `saveInterval` and
`saveStep` in `main`: IEEE 754 binary64 with 53 binary digits, rounded to nearest, ties to
even.  Overflow and subnormal numbers are left out; the clock of the driver is far from
both. -/
def roundDouble (q : ℚ) : ℚ :=
  if q = 0 then 0
  else
    let n := q.num.natAbs
    let d := q.den
    let e := binaryExponent n d
    let N := n * 2 ^ (-e).toNat
    let D := d * 2 ^ e.toNat
    let m := N / D
    let r := N % D
    let m := if 2 * r > D ∨ (2 * r = D ∧ m % 2 = 1) then m + 1 else m
    (if q < 0 then -1 else 1) * (m : ℚ) * 2 ^ e

/-- The body of `while (t<t_end)` with the two additions on the clock, `t += dt` and
`saveStep += saveInterval`, rounded by `fl`: the additions of the program are additions of
doubles (`fl = roundDouble`); with `fl` the identity this is `loopBody`. -/
def loopBodyRounded (fl : ℚ → ℚ) (D : Driver) (saveInterval : ℚ) (s : LoopState) :
    Except String LoopState :=
  match step D s.u s.u_update with
  | .error e => .error e
  | .ok (u, u_update) =>
    let t := fl (s.t + D.dt)
    if t ≥ s.saveStep then
      .ok { u := u
            u_update := u_update
            t := t
            time_step_counter := s.time_step_counter + 1
            saveStep := fl (s.saveStep + saveInterval)
            save_step_counter := s.save_step_counter + 1
            written := s.written ++ [⟨s.save_step_counter, t, u⟩] }
    else
      .ok { u := u
            u_update := u_update
            t := t
            time_step_counter := s.time_step_counter + 1
            saveStep := s.saveStep
            save_step_counter := s.save_step_counter
            written := s.written }

/-- The first `n` passes of the loop body with the rounded clock. -/
def stepsRounded (fl : ℚ → ℚ) (D : Driver) (saveInterval : ℚ) :
    Nat → LoopState → Except String LoopState
  | 0, s => .ok s
  | n + 1, s =>
    match loopBodyRounded fl D saveInterval s with
    | .error e => .error e
    | .ok s1 => stepsRounded fl D saveInterval n s1

/-- One pass of the loop body on the clock alone: `t`, `saveStep` and the number of
written snapshots. -/
def clockRounded (fl : ℚ → ℚ) (dt saveInterval : ℚ) (c : ℚ × ℚ × Nat) : ℚ × ℚ × Nat :=
  let t := fl (c.1 + dt)
  if t ≥ c.2.1 then (t, fl (c.2.1 + saveInterval), c.2.2 + 1) else (t, c.2.1, c.2.2)

/-! ## Vectors -/

theorem length_add (v : List ℚ) (i : Nat) (x : ℚ) : (add v i x).length = v.length := by
  induction v generalizing i with
  | nil => rfl
  | cons a v ih => cases i <;> simp [add, ih]

theorem getD_add (v : List ℚ) (i j : Nat) (x : ℚ) (hi : i < v.length) :
    (add v i x).getD j 0 = v.getD j 0 + if j = i then x else 0 := by
  induction v generalizing i j with
  | nil => simp at hi
  | cons a v ih =>
    cases i with
    | zero => cases j <;> simp [add]
    | succ i =>
      cases j with
      | zero => simp [add]
      | succ j =>
        have h := ih i j (by simpa using hi)
        simpa [add] using h

theorem add_zero_right (v : List ℚ) (i : Nat) : add v i 0 = v := by
  induction v generalizing i with
  | nil => rfl
  | cons a v ih => cases i <;> simp [add, ih]

/-! ## The grid walk on the cube grid -/

theorem walkIntersections_cube (D : Driver) (u : List ℚ) (N i : Nat) (st : WalkState)
    (h00 : D.eq 0 0 = true) (h11 : D.eq 1 1 = true) (h01 : D.eq 0 1 = false) :
    walkIntersections D u i (cubeEntity N i).intersections st = .ok (afterEntity D u N i st) := by
  by_cases hi0 : i = 0
  · subst hi0
    by_cases hN : 0 + 1 = N
    · subst hN
      simp [walkIntersections, walkIntersection, cubeEntity, leftFace, rightFace, afterEntity,
        add_zero_right, h00, h11, h01]
    · have hN1 : ¬ (1 = N) := by simpa using hN
      simp [walkIntersections, walkIntersection, cubeEntity, leftFace, rightFace, afterEntity,
        add_zero_right, h00, h01, hN1, faceUpdate]
  · by_cases hN : i + 1 = N
    · have hc : ((i : ℚ) + 1) / (N : ℚ) = 1 := by
        subst hN
        have : ((i : ℚ) + 1) ≠ 0 := by positivity
        push_cast
        exact div_self this
      simp [walkIntersections, walkIntersection, cubeEntity, leftFace, rightFace, afterEntity,
        add_zero_right, h11, hi0, hN, hc, faceUpdate]
    · simp [walkIntersections, walkIntersection, cubeEntity, leftFace, rightFace, afterEntity,
        add_zero_right, hi0, hN, faceUpdate]

theorem afterEntity_length (D : Driver) (u : List ℚ) (N i : Nat) (st : WalkState) :
    (afterEntity D u N i st).u_update.length = st.u_update.length := by
  simp [afterEntity, length_add]

theorem afterEntity_getD (D : Driver) (u : List ℚ) (N i j : Nat) (st : WalkState)
    (hi : i < st.u_update.length) :
    (afterEntity D u N i st).u_update.getD j 0 =
      st.u_update.getD j 0 + if j = i then innerUpdate D u N i else 0 := by
  unfold afterEntity
  simp only
  rw [getD_add _ _ _ _ (by rw [length_add]; exact hi), getD_add _ _ _ _ hi]
  by_cases hj : j = i
  · simp [hj, innerUpdate, add_assoc]
  · simp [hj]

theorem walkEntities_cube (D : Driver) (u : List ℚ) (N : Nat)
    (h00 : D.eq 0 0 = true) (h11 : D.eq 1 1 = true) (h01 : D.eq 0 1 = false) :
    ∀ (k i : Nat) (st : WalkState), i + k ≤ N →
      ∃ st1, walkEntities D u ((List.range' i k).map (cubeEntity N)) i st = .ok st1 ∧
        st1.u_update.length = st.u_update.length ∧
        st1.left_boundary_entity_offset
          = (if i = 0 ∧ 0 < k then 0 else st.left_boundary_entity_offset) ∧
        st1.right_boundary_entity_offset
          = (if i + k = N ∧ 0 < k then N - 1 else st.right_boundary_entity_offset) ∧
        (i + k ≤ st.u_update.length → ∀ j, st1.u_update.getD j 0 =
          st.u_update.getD j 0 + if i ≤ j ∧ j < i + k then innerUpdate D u N j else 0) := by
  intro k
  induction k with
  | zero =>
    intro i st _
    exact ⟨st, by simp [walkEntities], rfl, by simp, by simp, by intro _ j; simp⟩
  | succ k ih =>
    intro i st hik
    obtain ⟨st2, hw, hlen, hl, hr, hget⟩ := ih (i + 1) (afterEntity D u N i st) (by omega)
    refine ⟨st2, ?_, ?_, ?_, ?_, ?_⟩
    · simp only [List.range'_succ, List.map_cons, walkEntities,
        walkIntersections_cube D u N i st h00 h11 h01]
      exact hw
    · rw [hlen, afterEntity_length]
    · rw [hl]
      simp only [afterEntity]
      by_cases hi0 : i = 0 <;> simp [hi0]
    · rw [hr]
      simp only [afterEntity]
      by_cases hk : 0 < k
      · have h1 : ¬ (i + 1 = N) := by omega
        have h2 : (i + 1 + k = N) ↔ (i + (k + 1) = N) := by omega
        simp [hk, h1, h2]
      · have hk0 : k = 0 := by omega
        subst hk0
        by_cases h1 : i + 1 = N
        · have : i = N - 1 := by omega
          simp [h1, this]
        · simp [h1]
    · intro hlen2 j
      rw [hget (by rw [afterEntity_length]; omega) j,
        afterEntity_getD D u N i j st (by omega)]
      by_cases hji : j = i
      · subst hji
        have : ¬ (j + 1 ≤ j) := by omega
        simp [this]
      · by_cases hlt : i + 1 ≤ j ∧ j < i + 1 + k
        · have : i ≤ j ∧ j < i + (k + 1) := by omega
          simp [hji, hlt, this]
        · have : ¬ (i ≤ j ∧ j < i + (k + 1)) := by omega
          simp [hji, hlt, this]

theorem ext_getD (l1 l2 : List ℚ) (hl : l1.length = l2.length)
    (h : ∀ j, j < l1.length → l1.getD j 0 = l2.getD j 0) : l1 = l2 := by
  apply List.ext_getElem hl
  intro n h1 h2
  have h3 := h n h1
  rwa [List.getD_eq_getElem _ _ h1, List.getD_eq_getElem _ _ h2] at h3

theorem getD_zero_map (v : List ℚ) (j : Nat) : (v.map (fun x => x * 0)).getD j 0 = 0 := by
  induction v generalizing j with
  | nil => simp
  | cons a v ih => cases j with
    | zero => simp
    | succ j => simp [ih j]

theorem cubeGrid_get? (N i : Nat) (hi : i < N) : (cubeGrid N).get? i = some (cubeEntity N i) := by
  simp [cubeGrid, List.getElem?_range hi]

theorem cubeGrid_length (N : Nat) : (cubeGrid N).length = N := by simp [cubeGrid]

/-- The update buffer after the grid walk and the two boundary blocks on the cube grid
of at least two cells. -/
theorem step_cube_update (D : Driver) (N : Nat) (u u_update : List ℚ)
    (h00 : D.eq 0 0 = true) (h11 : D.eq 1 1 = true) (h01 : D.eq 0 1 = false)
    (hN : 2 ≤ N) (hg : D.grid_view = cubeGrid N) :
    ∃ upd, step D u u_update = .ok (List.zipWith (fun a b => a + b) u upd, upd) ∧
      upd.length = u_update.length ∧
      (u_update.length = N → ∀ j, j < N → upd.getD j 0 = cellUpdate D u N j) := by
  obtain ⟨st, hw, hlen, hl, hr, hget⟩ :=
    walkEntities_cube D u N h00 h11 h01 N 0 ⟨u_update.map (fun x => x * 0), 0, 0⟩ (by omega)
  have hl0 : st.left_boundary_entity_offset = 0 := by rw [hl]; simp
  have hr0 : st.right_boundary_entity_offset = N - 1 := by
    rw [hr]; simp; omega
  have hN1 : ¬ (1 = N) := by omega
  have hN2 : ¬ (N - 1 = 0) := by omega
  have hN3 : N - 1 + 1 = N := by omega
  refine ⟨add (add st.u_update 0 (faceUpdate D u 0 (N - 1) (leftFace N 0))) (N - 1)
    (faceUpdate D u (N - 1) 0 (rightFace N (N - 1))), ?_, ?_, ?_⟩
  · unfold step
    simp only []
    rw [hg, cubeGrid, List.range_eq_range', hw]
    simp only []
    rw [hl0, hr0, ← List.range_eq_range', ← cubeGrid, cubeGrid_get? N 0 (by omega),
      cubeGrid_get? N (N - 1) (by omega)]
    simp [boundaryIntersections, cubeEntity, leftFace, rightFace, hN1, hN2, hN3, faceUpdate, hg]
  · simp [length_add, hlen]
  · intro hlu j hj
    have hlen2 : st.u_update.length = N := by rw [hlen]; simp [hlu]
    rw [getD_add _ _ _ _ (by rw [length_add]; omega), getD_add _ _ _ _ (by omega),
      hget (by simpa using hlu.ge) j, getD_zero_map]
    have hj0 : 0 ≤ j ∧ j < 0 + N := by omega
    rw [if_pos hj0, zero_add]
    unfold cellUpdate innerUpdate leftOf rightOf
    by_cases h0 : j = 0
    · subst h0
      have h3 : ¬ (0 = N - 1) := by omega
      have h4 : ¬ (0 + 1 = N) := by omega
      simp only [if_true, if_neg h3, if_neg h4, zero_add, add_zero]
      ring
    · by_cases h1 : j + 1 = N
      · have h2 : j = N - 1 := by omega
        simp only [if_neg h0, if_pos h1, if_pos h2, add_zero, if_true]
        rw [← h2]
      · have h2 : ¬ (j = N - 1) := by omega
        simp only [if_neg h0, if_neg h1, if_neg h2, add_zero]

/-- The update buffer after one pass on the grid of a single cell: both faces of the
cell are boundary faces, and both boundary blocks walk both of them. -/
theorem step_cube_one (D : Driver) (u u_update : List ℚ)
    (h00 : D.eq 0 0 = true) (h11 : D.eq 1 1 = true) (h01 : D.eq 0 1 = false)
    (hg : D.grid_view = cubeGrid 1) :
    ∃ upd, step D u u_update = .ok (List.zipWith (fun a b => a + b) u upd, upd) ∧
      upd.length = u_update.length ∧
      (u_update.length = 1 → upd.getD 0 0 = cellUpdate D u 1 0 + cellUpdate D u 1 0) := by
  obtain ⟨st, hw, hlen, hl, hr, hget⟩ :=
    walkEntities_cube D u 1 h00 h11 h01 1 0 ⟨u_update.map (fun x => x * 0), 0, 0⟩ (by omega)
  have hl0 : st.left_boundary_entity_offset = 0 := by rw [hl]; simp
  have hr0 : st.right_boundary_entity_offset = 0 := by rw [hr]; simp
  refine ⟨add (add (add (add st.u_update 0 (faceUpdate D u 0 0 (leftFace 1 0))) 0
    (faceUpdate D u 0 0 (rightFace 1 0))) 0 (faceUpdate D u 0 0 (leftFace 1 0))) 0
    (faceUpdate D u 0 0 (rightFace 1 0)), ?_, ?_, ?_⟩
  · unfold step
    simp only []
    rw [hg, cubeGrid, List.range_eq_range', hw]
    simp only []
    rw [hl0, hr0, ← List.range_eq_range', ← cubeGrid, cubeGrid_get? 1 0 (by omega)]
    simp [boundaryIntersections, cubeEntity, leftFace, rightFace, faceUpdate, hg]
  · simp [length_add, hlen]
  · intro hlu
    have hlen2 : st.u_update.length = 1 := by rw [hlen]; simp [hlu]
    rw [getD_add _ _ _ _ (by simp [length_add, hlen2]),
      getD_add _ _ _ _ (by simp [length_add, hlen2]),
      getD_add _ _ _ _ (by simp [length_add, hlen2]),
      getD_add _ _ _ _ (by simp [hlen2]),
      hget (by simp [hlu]) 0, getD_zero_map]
    simp [cellUpdate, innerUpdate, leftOf, rightOf]
    ring

/-! ## Sums -/

theorem sum_eq_sum_range_getD (v : List ℚ) :
    v.sum = ∑ j in Finset.range v.length, v.getD j 0 := by
  induction v with
  | nil => simp
  | cons a v ih =>
    rw [List.length_cons, Finset.sum_range_succ', List.sum_cons, ih, add_comm]
    simp

theorem sum_zipWith_add (u v : List ℚ) (h : u.length = v.length) :
    (List.zipWith (fun a b => a + b) u v).sum = u.sum + v.sum := by
  induction u generalizing v with
  | nil => cases v with
    | nil => simp
    | cons b v => simp at h
  | cons a u ih => cases v with
    | nil => simp at h
    | cons b v =>
      have h2 : u.length = v.length := by simpa using h
      simp [ih v h2]
      ring

theorem totalMass_uniform (g : GridView) (h : ℚ) (hg : ∀ e ∈ g, e.volume = h) (v : List ℚ)
    (hl : v.length = g.length) : totalMass g v = v.sum * h := by
  unfold totalMass
  induction g generalizing v with
  | nil => cases v with
    | nil => simp
    | cons b v => simp at hl
  | cons e g ih => cases v with
    | nil => simp at hl
    | cons b v =>
      have h2 : v.length = g.length := by simpa using hl
      have h3 := ih (fun e he => hg e (List.mem_cons_of_mem _ he)) v h2
      have h4 : e.volume = h := hg e (List.mem_cons_self _ _)
      simp [h3, h4]
      ring

theorem cubeGrid_volume (N : Nat) : ∀ e ∈ cubeGrid N, e.volume = 1 / (N : ℚ) := by
  intro e he
  simp [cubeGrid] at he
  obtain ⟨i, _, rfl⟩ := he
  simp [cubeEntity]

theorem sum_leftOf (N : Nat) (g : Nat → ℚ) :
    ∑ i in Finset.range N, g (leftOf N i) = ∑ i in Finset.range N, g i := by
  cases N with
  | zero => simp
  | succ M =>
    rw [Finset.sum_range_succ', Finset.sum_range_succ]
    simp [leftOf]

/-! ## The Lax-Friedrichs operator on the cube grid -/

theorem cubeGrid_getD (N i : Nat) (hi : i < N) : (cubeGrid N).getD i default = cubeEntity N i := by
  have h := cubeGrid_get? N i hi
  rw [List.getD_eq_getD_get?, h]
  rfl

theorem rightOf_leftOf (N i : Nat) (hi : i < N) : rightOf N (leftOf N i) = i := by
  unfold rightOf leftOf
  by_cases h0 : i = 0
  · subst h0
    have : N - 1 + 1 = N := by omega
    simp [this]
  · have h1 : ¬ (i - 1 + 1 = N) := by omega
    have h2 : i - 1 + 1 = i := by omega
    rw [if_neg h0, if_neg h1, h2]

theorem LaxFriedrichsFlux_neg (F : ℚ → ℚ) (lam a b : ℚ) :
    LaxFriedrichsFlux F lam a b (-1) = - LaxFriedrichsFlux F lam b a 1 := by
  unfold LaxFriedrichsFlux
  ring

theorem cellUpdate_laxFriedrichs (D : Driver) (N : Nat) (F : ℚ → ℚ) (lam : ℚ) (u : List ℚ)
    (hg : D.grid_view = cubeGrid N) (hop : D.local_operator = laxFriedrichsOperator F lam)
    (i : Nat) (hi : i < N) :
    cellUpdate D u N i = -1 * D.dt * (N : ℚ) *
      (LaxFriedrichsFlux F lam (u.getD i 0) (u.getD (rightOf N i) 0) 1
        - LaxFriedrichsFlux F lam (u.getD (leftOf N i) 0) (u.getD i 0) 1) := by
  unfold cellUpdate faceUpdate
  rw [hop, hg]
  simp only [laxFriedrichsOperator, Codim1FV, local_discrete_function, cubeGrid_getD N i hi,
    cubeEntity, leftFace, rightFace, LaxFriedrichsFlux_neg]
  rw [div_div_eq_mul_div, div_div_eq_mul_div]
  ring

theorem sum_cellUpdate_laxFriedrichs (D : Driver) (N : Nat) (F : ℚ → ℚ) (lam : ℚ) (u : List ℚ)
    (hg : D.grid_view = cubeGrid N) (hop : D.local_operator = laxFriedrichsOperator F lam) :
    ∑ i in Finset.range N, cellUpdate D u N i = 0 := by
  have h1 : ∀ i ∈ Finset.range N, cellUpdate D u N i = -1 * D.dt * (N : ℚ) *
      ((fun k => LaxFriedrichsFlux F lam (u.getD k 0) (u.getD (rightOf N k) 0) 1) i
        - (fun k => LaxFriedrichsFlux F lam (u.getD k 0) (u.getD (rightOf N k) 0) 1)
            (leftOf N i)) := by
    intro i hi
    have hi2 : i < N := Finset.mem_range.mp hi
    simp only [rightOf_leftOf N i hi2]
    exact cellUpdate_laxFriedrichs D N F lam u hg hop i hi2
  rw [Finset.sum_congr rfl h1, ← Finset.mul_sum, Finset.sum_sub_distrib,
    sum_leftOf N (fun k => LaxFriedrichsFlux F lam (u.getD k 0) (u.getD (rightOf N k) 0) 1)]
  ring

/-- On the cube grid the pass with the Lax-Friedrichs operator returns and keeps the total
mass. -/
theorem step_cube_mass (eq : ℚ → ℚ → Bool) (F : ℚ → ℚ) (lambda dt : ℚ) (N : Nat)
    (u u_update : List ℚ) (hN : 0 < N)
    (h00 : eq 0 0 = true) (h11 : eq 1 1 = true) (h01 : eq 0 1 = false)
    (hu : u.length = N) (hupd : u_update.length = N) :
    ∃ r, step ⟨eq, laxFriedrichsOperator F lambda, dt, cubeGrid N⟩ u u_update = .ok r ∧
      totalMass (cubeGrid N) r.1 = totalMass (cubeGrid N) u := by
  have hsum := sum_cellUpdate_laxFriedrichs ⟨eq, laxFriedrichsOperator F lambda, dt, cubeGrid N⟩
    N F lambda u rfl rfl
  have key : ∃ upd, step ⟨eq, laxFriedrichsOperator F lambda, dt, cubeGrid N⟩ u u_update
      = .ok (List.zipWith (fun a b => a + b) u upd, upd) ∧ upd.length = N ∧ upd.sum = 0 := by
    by_cases h1 : N = 1
    · subst h1
      obtain ⟨upd, hs, hl, hv⟩ := step_cube_one
        ⟨eq, laxFriedrichsOperator F lambda, dt, cubeGrid 1⟩ u u_update h00 h11 h01 rfl
      refine ⟨upd, hs, by rw [hl, hupd], ?_⟩
      rw [sum_eq_sum_range_getD, hl, hupd]
      simp only [Finset.sum_range_one] at hsum ⊢
      rw [hv hupd, hsum]
      simp
    · obtain ⟨upd, hs, hl, hv⟩ := step_cube_update
        ⟨eq, laxFriedrichsOperator F lambda, dt, cubeGrid N⟩ N u u_update h00 h11 h01
        (by omega) rfl
      refine ⟨upd, hs, by rw [hl, hupd], ?_⟩
      rw [sum_eq_sum_range_getD, hl, hupd]
      exact (Finset.sum_congr rfl (fun j hj => hv hupd j (Finset.mem_range.mp hj))).trans hsum
  obtain ⟨upd, hs, hl, h0⟩ := key
  refine ⟨_, hs, ?_⟩
  rw [totalMass_uniform _ _ (cubeGrid_volume N) _ (by simp [cubeGrid_length, hu, hl]),
    totalMass_uniform _ _ (cubeGrid_volume N) _ (by simp [cubeGrid_length, hu]),
    sum_zipWith_add u upd (by rw [hu, hl]), h0, add_zero]

theorem foldl_max_const (h : ℚ) (l : List ℚ) (hl : ∀ x ∈ l, x = h) :
    ∀ a, a ≤ h → l.foldl max a = if l = [] then a else h := by
  induction l with
  | nil => intro a _; simp
  | cons x l ih =>
    intro a ha
    have hx : x = h := hl x (List.mem_cons_self _ _)
    have h2 := ih (fun y hy => hl y (List.mem_cons_of_mem _ hy)) (max a x)
      (by rw [hx]; exact max_le ha le_rfl)
    rw [List.foldl_cons, h2, hx, max_eq_right ha]
    simp

theorem entity_width_max_cube (N : Nat) (hN : 0 < N) :
    entity_width_max (cubeGrid N) = 1 / (N : ℚ) := by
  unfold entity_width_max
  rw [foldl_max_const (1 / (N : ℚ)) _ _ 0 (by positivity)]
  · have : cubeGrid N ≠ [] := by
      intro h
      have h2 := cubeGrid_length N
      rw [h] at h2
      simp at h2
      omega
    simp [this]
  · intro x hx
    simp only [List.mem_map] at hx
    obtain ⟨e, he, rfl⟩ := hx
    exact cubeGrid_volume N e he

theorem getD_zipWith_add (u v : List ℚ) (i : Nat) (h : u.length = v.length) :
    (List.zipWith (fun a b => a + b) u v).getD i 0 = u.getD i 0 + v.getD i 0 := by
  induction u generalizing v i with
  | nil => cases v with
    | nil => simp
    | cons b v => simp at h
  | cons a u ih => cases v with
    | nil => simp at h
    | cons b v =>
      cases i with
      | zero => simp
      | succ i =>
        have h2 : u.length = v.length := by simpa using h
        simpa using ih v i h2

theorem stepProfile_getD (j : Nat) :
    stepProfile.getD j 0 = if 40 ≤ j ∧ j ≤ 60 then (1 : ℚ) else 0 := by
  unfold stepProfile
  by_cases hj : j < 100
  · rw [List.getD_eq_getElem _ _ (by simpa using hj)]
    simp
  · rw [List.getD_eq_default _ _ (by simpa using hj)]
    have : ¬ (40 ≤ j ∧ j ≤ 60) := by omega
    simp [this]

theorem stepProfile_length : stepProfile.length = 100 := by simp [stepProfile]

/-- The new value of cell `i` in the single-discontinuity scenario. -/
theorem scenario_value (eq : ℚ → ℚ → Bool) (i : Nat) (hi : i < 100) :
    stepProfile.getD i 0
        + cellUpdate (mainDriver eq (fun x => x) (1 / 200) (cubeGrid 100)) stepProfile 100 i
      = 3 / 4 * (if 40 ≤ i ∧ i ≤ 60 then (1 : ℚ) else 0)
        - 1 / 8 * (if 40 ≤ rightOf 100 i ∧ rightOf 100 i ≤ 60 then (1 : ℚ) else 0)
        + 3 / 8 * (if 40 ≤ leftOf 100 i ∧ leftOf 100 i ≤ 60 then (1 : ℚ) else 0) := by
  have hlam : (1 / 200 : ℚ) / entity_width_max (cubeGrid 100) = 1 / 2 := by
    rw [entity_width_max_cube 100 (by norm_num)]
    norm_num
  rw [cellUpdate_laxFriedrichs (mainDriver eq (fun x => x) (1 / 200) (cubeGrid 100)) 100
    (fun x => x) ((1 / 200 : ℚ) / entity_width_max (cubeGrid 100)) stepProfile rfl rfl i hi]
  rw [hlam]
  simp only [stepProfile_getD, LaxFriedrichsFlux, mainDriver]
  push_cast
  ring

theorem scenario_support (i : Nat) (hi : i < 100) :
    (3 / 4 * (if 40 ≤ i ∧ i ≤ 60 then (1 : ℚ) else 0)
        - 1 / 8 * (if 40 ≤ rightOf 100 i ∧ rightOf 100 i ≤ 60 then (1 : ℚ) else 0)
        + 3 / 8 * (if 40 ≤ leftOf 100 i ∧ leftOf 100 i ≤ 60 then (1 : ℚ) else 0) ≠ 0)
      ↔ (39 ≤ i ∧ i ≤ 61) := by
  unfold leftOf rightOf
  by_cases h : 39 ≤ i ∧ i ≤ 61
  · simp only [h, and_self, iff_true]
    split_ifs <;> first | omega | norm_num
  · simp only [h, iff_false, not_not]
    split_ifs <;> first | omega | norm_num

/-! ## A uniform state -/

theorem getD_replicate_lt (N j : Nat) (c : ℚ) (hj : j < N) : (List.replicate N c).getD j 0 = c := by
  rw [List.getD_eq_getElem _ _ (by simpa using hj)]
  simp

theorem leftOf_lt (N i : Nat) (hi : i < N) : leftOf N i < N := by
  unfold leftOf
  split_ifs <;> omega

theorem rightOf_lt (N i : Nat) (hi : i < N) : rightOf N i < N := by
  unfold rightOf
  split_ifs <;> omega

theorem cellUpdate_uniform (eq : ℚ → ℚ → Bool) (g : ℚ → ℚ → ℚ → ℚ) (dt c : ℚ) (N i : Nat)
    (hi : i < N) :
    cellUpdate ⟨eq, Codim1FV g, dt, cubeGrid N⟩ (List.replicate N c) N i
      = -1 * dt * (N : ℚ) * (g c c (-1) + g c c 1) := by
  unfold cellUpdate faceUpdate
  simp only [Codim1FV, local_discrete_function, cubeGrid_getD N i hi, cubeEntity, leftFace,
    rightFace, getD_replicate_lt N i c hi, getD_replicate_lt N _ c (leftOf_lt N i hi),
    getD_replicate_lt N _ c (rightOf_lt N i hi)]
  rw [div_div_eq_mul_div, div_div_eq_mul_div]
  ring

/-- On the cube grid a uniform state stays uniform under the pass with any two-point
numerical flux. -/
theorem step_uniform (eq : ℚ → ℚ → Bool) (g : ℚ → ℚ → ℚ → ℚ) (dt c : ℚ) (N : Nat)
    (u_update : List ℚ) (hN : 0 < N)
    (h00 : eq 0 0 = true) (h11 : eq 1 1 = true) (h01 : eq 0 1 = false)
    (hupd : u_update.length = N) :
    ∃ upd, step ⟨eq, Codim1FV g, dt, cubeGrid N⟩ (List.replicate N c) u_update
      = .ok (List.replicate N
          (c + (if N = 1 then 2 else 1) * (-1 * dt * (N : ℚ) * (g c c (-1) + g c c 1))), upd) := by
  have hval : ∃ upd, step ⟨eq, Codim1FV g, dt, cubeGrid N⟩ (List.replicate N c) u_update
      = .ok (List.zipWith (fun a b => a + b) (List.replicate N c) upd, upd) ∧ upd.length = N ∧
      ∀ j, j < N → upd.getD j 0
        = (if N = 1 then 2 else 1) * (-1 * dt * (N : ℚ) * (g c c (-1) + g c c 1)) := by
    by_cases h1 : N = 1
    · subst h1
      obtain ⟨upd, hs, hl, hv⟩ := step_cube_one ⟨eq, Codim1FV g, dt, cubeGrid 1⟩
        (List.replicate 1 c) u_update h00 h11 h01 rfl
      refine ⟨upd, hs, by rw [hl, hupd], ?_⟩
      intro j hj
      have hj0 : j = 0 := by omega
      subst hj0
      rw [hv hupd, cellUpdate_uniform eq g dt c 1 0 (by omega)]
      simp only [if_true]
      ring
    · obtain ⟨upd, hs, hl, hv⟩ := step_cube_update ⟨eq, Codim1FV g, dt, cubeGrid N⟩ N
        (List.replicate N c) u_update h00 h11 h01 (by omega) rfl
      refine ⟨upd, hs, by rw [hl, hupd], ?_⟩
      intro j hj
      rw [hv hupd j hj, cellUpdate_uniform eq g dt c N j hj, if_neg h1, one_mul]
  obtain ⟨upd, hs, hl, hv⟩ := hval
  refine ⟨upd, ?_⟩
  rw [hs]
  congr 2
  apply ext_getD
  · simp [hl]
  · intro j hj
    have hj2 : j < N := by simpa [hl] using hj
    rw [getD_zipWith_add _ _ _ (by simp [hl]), getD_replicate_lt N j c hj2, hv j hj2,
      getD_replicate_lt N j _ hj2]

theorem LaxFriedrichsFlux_self (F : ℚ → ℚ) (lam u n : ℚ) :
    LaxFriedrichsFlux F lam u u n = F u * n := by
  unfold LaxFriedrichsFlux
  ring

/-! ## A pass with `dt = 0` -/

theorem walkIntersection_dt_zero (D : Driver) (hdt : D.dt = 0) (u : List ℚ) (offset : Nat)
    (st st1 : WalkState) (i : Intersection)
    (h : walkIntersection D u offset st i = .ok st1) : st1.u_update = st.u_update := by
  unfold walkIntersection at h
  rw [hdt] at h
  cases ho : i.outside <;> simp only [ho, mul_zero, zero_mul, add_zero_right] at h
  all_goals
    split_ifs at h
    all_goals
      cases h
      rfl

theorem walkIntersections_dt_zero (D : Driver) (hdt : D.dt = 0) (u : List ℚ) (offset : Nat) :
    ∀ (is : List Intersection) (st st1 : WalkState),
      walkIntersections D u offset is st = .ok st1 → st1.u_update = st.u_update := by
  intro is
  induction is with
  | nil =>
    intro st st1 h
    simp only [walkIntersections] at h
    cases h
    rfl
  | cons i is ih =>
    intro st st1 h
    simp only [walkIntersections] at h
    cases h1 : walkIntersection D u offset st i with
    | error e => rw [h1] at h; cases h
    | ok st2 =>
      rw [h1] at h
      rw [ih st2 st1 h, walkIntersection_dt_zero D hdt u offset st st2 i h1]

theorem walkEntities_dt_zero (D : Driver) (hdt : D.dt = 0) (u : List ℚ) :
    ∀ (es : List Entity) (offset : Nat) (st st1 : WalkState),
      walkEntities D u es offset st = .ok st1 → st1.u_update = st.u_update := by
  intro es
  induction es with
  | nil =>
    intro offset st st1 h
    simp only [walkEntities] at h
    cases h
    rfl
  | cons e es ih =>
    intro offset st st1 h
    simp only [walkEntities] at h
    cases h1 : walkIntersections D u offset e.intersections st with
    | error e => rw [h1] at h; cases h
    | ok st2 =>
      rw [h1] at h
      rw [ih (offset + 1) st2 st1 h, walkIntersections_dt_zero D hdt u offset _ st st2 h1]

theorem boundaryIntersections_dt_zero (D : Driver) (hdt : D.dt = 0) (a b : LocalFunction)
    (idx : Nat) : ∀ (is : List Intersection) (v : List ℚ),
      boundaryIntersections D a b idx is v = v := by
  intro is
  induction is with
  | nil => intro v; rfl
  | cons i is ih =>
    intro v
    simp only [boundaryIntersections, hdt, mul_zero, zero_mul, add_zero_right, ite_self]
    exact ih v

theorem zipWith_add_zero_map (u v : List ℚ) (h : v.length = u.length) :
    List.zipWith (fun a b => a + b) u (v.map (fun x => x * 0)) = u := by
  apply ext_getD
  · simp [h]
  · intro j _
    rw [getD_zipWith_add _ _ _ (by simp [h]), getD_zero_map, add_zero]

/-- A pass with `dt = 0` either throws or returns the state as it was, with the update
buffer zeroed. -/
theorem step_dt_zero (D : Driver) (u u_update : List ℚ) (hdt : D.dt = 0)
    (hlen : u_update.length = u.length) :
    step D u u_update = .ok (u, u_update.map (fun x => x * 0)) ∨
      ∃ e, step D u u_update = .error e := by
  unfold step
  simp only []
  cases hw : walkEntities D u D.grid_view 0 ⟨u_update.map (fun x => x * 0), 0, 0⟩ with
  | error e => exact Or.inr ⟨e, rfl⟩
  | ok st =>
    have hu := walkEntities_dt_zero D hdt u _ _ _ _ hw
    simp only at hu
    simp only []
    cases hl : D.grid_view.get? st.left_boundary_entity_offset with
    | none => exact Or.inr ⟨_, rfl⟩
    | some el =>
      cases hr : D.grid_view.get? st.right_boundary_entity_offset with
      | none => exact Or.inr ⟨_, rfl⟩
      | some er =>
        left
        simp only [boundaryIntersections_dt_zero D hdt, hu, zipWith_add_zero_map u u_update hlen]

/-- On the cube grid a pass returns, whatever the state and the local operator. -/
theorem step_cube_ok (D : Driver) (N : Nat) (u u_update : List ℚ) (hN : 0 < N)
    (h00 : D.eq 0 0 = true) (h11 : D.eq 1 1 = true) (h01 : D.eq 0 1 = false)
    (hg : D.grid_view = cubeGrid N) :
    ∃ upd, step D u u_update = .ok (List.zipWith (fun a b => a + b) u upd, upd) ∧
      upd.length = u_update.length := by
  by_cases h1 : N = 1
  · subst h1
    obtain ⟨upd, hs, hl, _⟩ := step_cube_one D u u_update h00 h11 h01 hg
    exact ⟨upd, hs, hl⟩
  · obtain ⟨upd, hs, hl, _⟩ := step_cube_update D N u u_update h00 h11 h01 (by omega) hg
    exact ⟨upd, hs, hl⟩

/-! ## The time loop -/

theorem loopBody_ok (D : Driver) (si : ℚ) (s : LoopState)
    (hstep : ∀ u upd, ∃ r, step D u upd = .ok r) :
    ∃ s1, loopBody D si s = .ok s1 ∧ s1.t = s.t + D.dt ∧
      s1.time_step_counter = s.time_step_counter + 1 ∧
      (s.t + D.dt ≥ s.saveStep → s1.saveStep = s.saveStep + si ∧
        s1.save_step_counter = s.save_step_counter + 1 ∧
        s1.written = s.written ++ [⟨s.save_step_counter, s.t + D.dt, s1.u⟩]) ∧
      (¬ (s.t + D.dt ≥ s.saveStep) → s1.saveStep = s.saveStep ∧
        s1.save_step_counter = s.save_step_counter ∧ s1.written = s.written) := by
  obtain ⟨r, hr⟩ := hstep s.u s.u_update
  unfold loopBody
  rw [hr]
  simp only []
  by_cases h : s.t + D.dt ≥ s.saveStep
  · rw [if_pos h]
    exact ⟨_, rfl, rfl, rfl, fun _ => ⟨rfl, rfl, rfl⟩, fun h2 => absurd h h2⟩
  · rw [if_neg h]
    exact ⟨_, rfl, rfl, rfl, fun h2 => absurd h2 h, fun _ => ⟨rfl, rfl, rfl⟩⟩

theorem steps_succ_last (D : Driver) (si : ℚ) :
    ∀ (n : Nat) (s : LoopState), steps D si (n + 1) s =
      match steps D si n s with
      | .error e => .error e
      | .ok s1 => loopBody D si s1 := by
  intro n
  induction n with
  | zero =>
    intro s
    simp only [steps]
    cases loopBody D si s <;> rfl
  | succ n ih =>
    intro s
    rw [steps]
    cases h : loopBody D si s with
    | error e => simp only [steps, h]
    | ok s1 =>
      simp only []
      rw [ih s1]
      conv_rhs => rw [steps, h]

/-- The clock, the threshold and the counters after `n` passes of the loop body. -/
theorem steps_clock (D : Driver) (si : ℚ) (u0 : List ℚ)
    (hstep : ∀ u upd, ∃ r, step D u upd = .ok r) :
    ∀ n : Nat, ∃ sn, steps D si n (initialState u0 si) = .ok sn ∧
      sn.t = (n : ℚ) * D.dt ∧ sn.time_step_counter = n ∧
      sn.saveStep = (1 + (snapshotCount D.dt si n : ℚ)) * si ∧
      sn.save_step_counter = 1 + snapshotCount D.dt si n ∧
      sn.written.length = 1 + snapshotCount D.dt si n := by
  intro n
  induction n with
  | zero =>
    refine ⟨initialState u0 si, rfl, ?_, rfl, ?_, rfl, rfl⟩
    · simp [initialState]
    · simp [initialState, snapshotCount]
  | succ n ih =>
    obtain ⟨sn, hs, ht, hc, hsave, hcnt, hw⟩ := ih
    obtain ⟨s1, hb, ht1, hc1, hyes, hno⟩ := loopBody_ok D si sn hstep
    refine ⟨s1, ?_, ?_, ?_, ?_⟩
    · rw [steps_succ_last, hs]
      exact hb
    · rw [ht1, ht]
      push_cast
      ring
    · rw [hc1, hc]
    · have hcond : (sn.t + D.dt ≥ sn.saveStep) ↔
          (((n : ℚ) + 1) * D.dt ≥ (1 + (snapshotCount D.dt si n : ℚ)) * si) := by
        rw [ht, hsave]
        constructor <;> intro h <;> linarith
      by_cases h : sn.t + D.dt ≥ sn.saveStep
      · obtain ⟨h1, h2, h3⟩ := hyes h
        have h4 := hcond.mp h
        simp only [snapshotCount, if_pos h4]
        refine ⟨?_, ?_, ?_⟩
        · rw [h1, hsave]
          push_cast
          ring
        · rw [h2, hcnt]
          omega
        · rw [h3, List.length_append, hw]
          simp
          omega
      · obtain ⟨h1, h2, h3⟩ := hno h
        have h4 : ¬ (((n : ℚ) + 1) * D.dt ≥ (1 + (snapshotCount D.dt si n : ℚ)) * si) :=
          fun h5 => h (hcond.mpr h5)
        simp only [snapshotCount, if_neg h4]
        exact ⟨by rw [h1, hsave], by rw [h2, hcnt], by rw [h3, hw]⟩

theorem snapshotCount_bounds (dt si : ℚ) (hsi : 0 < si) (hdt : 0 < dt) (hle : dt ≤ si) :
    ∀ n : Nat, (snapshotCount dt si n : ℚ) * si ≤ (n : ℚ) * dt ∧
      (n : ℚ) * dt < ((snapshotCount dt si n : ℚ) + 1) * si := by
  intro n
  induction n with
  | zero => simp [snapshotCount, hsi]
  | succ n ih =>
    obtain ⟨h1, h2⟩ := ih
    by_cases h : ((n : ℚ) + 1) * dt ≥ (1 + (snapshotCount dt si n : ℚ)) * si
    · simp only [snapshotCount, if_pos h]
      push_cast
      constructor <;> nlinarith
    · simp only [snapshotCount, if_neg h]
      push_cast
      push_neg at h
      constructor <;> nlinarith

theorem snapshotCount_eq_floor (dt si : ℚ) (hsi : 0 < si) (hdt : 0 < dt) (hle : dt ≤ si)
    (n : Nat) : snapshotCount dt si n = ⌊(n : ℚ) * dt / si⌋₊ := by
  obtain ⟨h1, h2⟩ := snapshotCount_bounds dt si hsi hdt hle n
  symm
  rw [Nat.floor_eq_iff (by positivity)]
  constructor
  · rw [le_div_iff₀ hsi]
    exact h1
  · rw [div_lt_iff₀ hsi]
    exact h2

theorem steps_unique_clock (D : Driver) (si : ℚ) (u0 : List ℚ)
    (hstep : ∀ u upd, ∃ r, step D u upd = .ok r) (n : Nat) (s : LoopState)
    (h : steps D si n (initialState u0 si) = .ok s) :
    s.t = (n : ℚ) * D.dt ∧ s.time_step_counter = n ∧
      s.saveStep = (1 + (snapshotCount D.dt si n : ℚ)) * si ∧
      recordedInLoop s = snapshotCount D.dt si n := by
  obtain ⟨sn, hs, ht, hc, hsave, _, hw⟩ := steps_clock D si u0 hstep n
  rw [hs] at h
  cases h
  refine ⟨ht, hc, hsave, ?_⟩
  unfold recordedInLoop
  omega

theorem timeLoop_of_steps (D : Driver) (si t_end : ℚ) :
    ∀ (k : Nat) (s sk : LoopState) (fuel : Nat), steps D si k s = .ok sk →
      (∀ j, j < k → ∀ sj, steps D si j s = .ok sj → sj.t < t_end) →
      ¬ (sk.t < t_end) → k < fuel → timeLoop D si t_end fuel s = some (.ok sk) := by
  intro k
  induction k with
  | zero =>
    intro s sk fuel hs _ hstop hf
    simp only [steps] at hs
    cases hs
    cases fuel with
    | zero => omega
    | succ f => simp only [timeLoop, if_neg hstop]
  | succ k ih =>
    intro s sk fuel hs hrun hstop hf
    cases fuel with
    | zero => omega
    | succ f =>
      have h0 : s.t < t_end := hrun 0 (by omega) s rfl
      rw [steps] at hs
      cases hb : loopBody D si s with
      | error e => rw [hb] at hs; cases hs
      | ok s1 =>
        rw [hb] at hs
        simp only [timeLoop, if_pos h0, hb]
        apply ih s1 sk f hs _ hstop (by omega)
        intro j hj sj hsj
        apply hrun (j + 1) (by omega) sj
        rw [steps, hb]
        exact hsj

/-! ## The properties of the specification -/

/-- C1. Conservation: on the uniform periodic grid of `N ≥ 1` cells, for every state,
every analytical flux `F`, every coefficient `lambda` and every step size, one pass of the
body of the time loop of the Burgers driver with the Lax-Friedrichs local operator
returns, and the sum over all cells of state times cell width is the same before and
after the pass. -/
theorem burgers_step_conserves_mass (eq : ℚ → ℚ → Bool) (F : ℚ → ℚ) (lambda dt : ℚ) (N : Nat)
    (u u_update : List ℚ) (hN : 0 < N)
    (h00 : eq 0 0 = true) (h11 : eq 1 1 = true) (h01 : eq 0 1 = false)
    (hu : u.length = N) (hupd : u_update.length = N) :
    ∃ r, step ⟨eq, laxFriedrichsOperator F lambda, dt, cubeGrid N⟩ u u_update = .ok r ∧
      totalMass (cubeGrid N) r.1 = totalMass (cubeGrid N) u :=
  step_cube_mass eq F lambda dt N u u_update hN h00 h11 h01 hu hupd

/-- C1 at a concrete input: three cells, the Burgers flux. -/
theorem burgers_step_conserves_mass_witness :
    ∃ r, step ⟨exactEq, laxFriedrichsOperator (fun x => x * x / 2) (1 / 2), 1 / 8, cubeGrid 3⟩
        [1, 2, 5] [0, 0, 0] = .ok r ∧
      totalMass (cubeGrid 3) r.1 = totalMass (cubeGrid 3) [1, 2, 5] :=
  burgers_step_conserves_mass exactEq (fun x => x * x / 2) (1 / 2) (1 / 8) 3 [1, 2, 5] [0, 0, 0]
    (by decide) (by decide) (by decide) (by decide) rfl rfl

/-- C2. Single discontinuity: on 100 periodic cells of `[0,1]` with the state `1` on cells
40 to 60 and `0` elsewhere, flux `F(u) = u` and `dt = 1/200` (so `dt/dx = 1/2`), one pass
of the driver returns a state that is non-zero exactly on cells 39 to 61 and has the
total mass of the initial state. -/
theorem single_discontinuity_step (eq : ℚ → ℚ → Bool)
    (h00 : eq 0 0 = true) (h11 : eq 1 1 = true) (h01 : eq 0 1 = false) :
    ∃ r, step (mainDriver eq (fun x => x) (1 / 200) (cubeGrid 100)) stepProfile
        (stepProfile.map (fun _ => 0)) = .ok r ∧
      r.1.length = 100 ∧
      (∀ i, i < 100 → (r.1.getD i 0 ≠ 0 ↔ 39 ≤ i ∧ i ≤ 61)) ∧
      totalMass (cubeGrid 100) r.1 = totalMass (cubeGrid 100) stepProfile := by
  obtain ⟨upd, hs, hl, hv⟩ := step_cube_update
    (mainDriver eq (fun x => x) (1 / 200) (cubeGrid 100)) 100 stepProfile
    (stepProfile.map (fun _ => 0)) h00 h11 h01 (by norm_num) rfl
  have hl2 : upd.length = 100 := by rw [hl]; simp [stepProfile_length]
  obtain ⟨r, hr, hm⟩ := step_cube_mass eq (fun x => x)
    ((1 / 200 : ℚ) / entity_width_max (cubeGrid 100)) (1 / 200) 100 stepProfile
    (stepProfile.map (fun _ => 0)) (by norm_num) h00 h11 h01 stepProfile_length
    (by simp [stepProfile_length])
  have hr2 : step (mainDriver eq (fun x => x) (1 / 200) (cubeGrid 100)) stepProfile
      (stepProfile.map (fun _ => 0)) = .ok r := hr
  rw [hs] at hr2
  cases hr2
  refine ⟨_, hs, ?_, ?_, hm⟩
  · simp [stepProfile_length, hl2]
  · intro i hi
    simp only []
    rw [getD_zipWith_add _ _ _ (by rw [stepProfile_length, hl2]),
      hv (by simp [stepProfile_length]) i hi, scenario_value eq i hi]
    exact scenario_support i hi

/-- C2 with the exact comparison. -/
theorem single_discontinuity_step_witness :
    ∃ r, step (mainDriver exactEq (fun x => x) (1 / 200) (cubeGrid 100)) stepProfile
        (stepProfile.map (fun _ => 0)) = .ok r ∧
      r.1.length = 100 ∧
      (∀ i, i < 100 → (r.1.getD i 0 ≠ 0 ↔ 39 ≤ i ∧ i ≤ 61)) ∧
      totalMass (cubeGrid 100) r.1 = totalMass (cubeGrid 100) stepProfile :=
  single_discontinuity_step exactEq (by decide) (by decide) (by decide)

/-- C3. Boundary symmetry: on the uniform periodic grid of `N ≥ 1` cells, if all cells
hold the same state `c`, then after a pass of the driver with any two-point numerical
flux all cells hold the same state, and with the Lax-Friedrichs flux over any analytical
flux that state is `c` again. -/
theorem uniform_state_stays_uniform (eq : ℚ → ℚ → Bool) (g : ℚ → ℚ → ℚ → ℚ) (F : ℚ → ℚ)
    (lambda dt c : ℚ) (N : Nat) (u_update : List ℚ) (hN : 0 < N)
    (h00 : eq 0 0 = true) (h11 : eq 1 1 = true) (h01 : eq 0 1 = false)
    (hupd : u_update.length = N) :
    (∃ c1 upd, step ⟨eq, Codim1FV g, dt, cubeGrid N⟩ (List.replicate N c) u_update
        = .ok (List.replicate N c1, upd)) ∧
    (∃ upd, step ⟨eq, laxFriedrichsOperator F lambda, dt, cubeGrid N⟩ (List.replicate N c)
        u_update = .ok (List.replicate N c, upd)) := by
  constructor
  · obtain ⟨upd, h⟩ := step_uniform eq g dt c N u_update hN h00 h11 h01 hupd
    exact ⟨_, upd, h⟩
  · obtain ⟨upd, h⟩ := step_uniform eq (LaxFriedrichsFlux F lambda) dt c N u_update hN h00 h11
      h01 hupd
    refine ⟨upd, ?_⟩
    have hc : c + (if N = 1 then 2 else 1) *
        (-1 * dt * (N : ℚ) * (LaxFriedrichsFlux F lambda c c (-1) + LaxFriedrichsFlux F lambda c c 1))
        = c := by
      rw [LaxFriedrichsFlux_self, LaxFriedrichsFlux_self]
      ring
    rw [hc] at h
    exact h

/-- C3 at a concrete input: four cells at state `3`, an upwind flux and the Burgers flux. -/
theorem uniform_state_stays_uniform_witness :
    (∃ c1 upd, step ⟨exactEq, Codim1FV (fun a _ n => a * n), 1 / 8, cubeGrid 4⟩
        (List.replicate 4 3) [0, 0, 0, 0] = .ok (List.replicate 4 c1, upd)) ∧
    (∃ upd, step ⟨exactEq, laxFriedrichsOperator (fun x => x * x / 2) (1 / 2), 1 / 8, cubeGrid 4⟩
        (List.replicate 4 3) [0, 0, 0, 0] = .ok (List.replicate 4 3, upd)) :=
  uniform_state_stays_uniform exactEq (fun a _ n => a * n) (fun x => x * x / 2) (1 / 2) (1 / 8) 3
    4 [0, 0, 0, 0] (by decide) (by decide) (by decide) (by decide) rfl

/-- C4. Consistency: with equal left and right states the Lax-Friedrichs numerical flux
is the analytical flux times the normal, for every state, every normal (in particular
`-1` and `+1`) and every coefficient `lambda`. -/
theorem laxFriedrichs_consistent (F : ℚ → ℚ) (lambda u n : ℚ) :
    LaxFriedrichsFlux F lambda u u n = F u * n := by
  unfold LaxFriedrichsFlux
  ring

/-- C5. Flux antisymmetry: the Lax-Friedrichs flux from `uA` to `uB` along `+1` is the
negation of the flux from `uB` to `uA` along `-1`; and on the cube grid the contribution
the driver adds to cell `i` through its right face is the negation of the one it adds to
the periodic right neighbour through its left face, for inner faces and for the periodic
boundary pair. -/
theorem flux_antisymmetric (eq : ℚ → ℚ → Bool) (F : ℚ → ℚ) (lambda dt : ℚ) (N : Nat)
    (u : List ℚ) (i : Nat) (hi : i < N) :
    (∀ uA uB, LaxFriedrichsFlux F lambda uA uB 1 = - LaxFriedrichsFlux F lambda uB uA (-1)) ∧
    faceUpdate ⟨eq, laxFriedrichsOperator F lambda, dt, cubeGrid N⟩ u i (rightOf N i)
        (rightFace N i)
      = - faceUpdate ⟨eq, laxFriedrichsOperator F lambda, dt, cubeGrid N⟩ u (rightOf N i) i
          (leftFace N (rightOf N i)) := by
  constructor
  · intro uA uB
    unfold LaxFriedrichsFlux
    ring
  · unfold faceUpdate
    simp only [laxFriedrichsOperator, Codim1FV, local_discrete_function, cubeGrid_getD N i hi,
      cubeGrid_getD N _ (rightOf_lt N i hi), cubeEntity, leftFace, rightFace,
      LaxFriedrichsFlux]
    ring

/-- C5 at the periodic boundary pair of three cells. -/
theorem flux_antisymmetric_witness :
    (∀ uA uB, LaxFriedrichsFlux (fun x => x * x / 2) (1 / 2) uA uB 1
      = - LaxFriedrichsFlux (fun x => x * x / 2) (1 / 2) uB uA (-1)) ∧
    faceUpdate ⟨exactEq, laxFriedrichsOperator (fun x => x * x / 2) (1 / 2), 1 / 8, cubeGrid 3⟩
        [1, 2, 5] 2 (rightOf 3 2) (rightFace 3 2)
      = - faceUpdate ⟨exactEq, laxFriedrichsOperator (fun x => x * x / 2) (1 / 2), 1 / 8,
          cubeGrid 3⟩ [1, 2, 5] (rightOf 3 2) 2 (leftFace 3 (rightOf 3 2)) :=
  flux_antisymmetric exactEq (fun x => x * x / 2) (1 / 2) (1 / 8) 3 [1, 2, 5] 2 (by decide)

/-- C6. Zero step: with `dt = 0` a pass of the body of the time loop leaves the state of
every cell as it was, on every grid view, for every state and every local operator: it
returns the unchanged state, or it throws before `u` is touched; on the cube grid it
returns. -/
theorem zero_step_leaves_state (D : Driver) (u u_update : List ℚ) (hdt : D.dt = 0)
    (hlen : u_update.length = u.length) :
    (step D u u_update = .ok (u, u_update.map (fun x => x * 0)) ∨
      ∃ e, step D u u_update = .error e) ∧
    (∀ N, 0 < N → D.grid_view = cubeGrid N → D.eq 0 0 = true → D.eq 1 1 = true →
      D.eq 0 1 = false → step D u u_update = .ok (u, u_update.map (fun x => x * 0))) := by
  refine ⟨step_dt_zero D u u_update hdt hlen, ?_⟩
  intro N hN hg h00 h11 h01
  obtain ⟨upd, hs, _⟩ := step_cube_ok D N u u_update hN h00 h11 h01 hg
  rcases step_dt_zero D u u_update hdt hlen with h | ⟨e, he⟩
  · exact h
  · rw [hs] at he
    cases he

/-- C6 at a concrete input: three cells, the Burgers flux, a stale update buffer. -/
theorem zero_step_leaves_state_witness :
    (step (mainDriver exactEq (fun x => x * x / 2) 0 (cubeGrid 3)) [1, 2, 5] [7, 7, 7]
        = .ok ([1, 2, 5], [7, 7, 7].map (fun x => x * 0)) ∨
      ∃ e, step (mainDriver exactEq (fun x => x * x / 2) 0 (cubeGrid 3)) [1, 2, 5] [7, 7, 7]
        = .error e) ∧
    (∀ N, 0 < N → (mainDriver exactEq (fun x => x * x / 2) 0 (cubeGrid 3)).grid_view = cubeGrid N →
      (mainDriver exactEq (fun x => x * x / 2) 0 (cubeGrid 3)).eq 0 0 = true →
      (mainDriver exactEq (fun x => x * x / 2) 0 (cubeGrid 3)).eq 1 1 = true →
      (mainDriver exactEq (fun x => x * x / 2) 0 (cubeGrid 3)).eq 0 1 = false →
      step (mainDriver exactEq (fun x => x * x / 2) 0 (cubeGrid 3)) [1, 2, 5] [7, 7, 7]
        = .ok ([1, 2, 5], [7, 7, 7].map (fun x => x * 0))) :=
  zero_step_leaves_state (mainDriver exactEq (fun x => x * x / 2) 0 (cubeGrid 3)) [1, 2, 5]
    [7, 7, 7] rfl rfl

/-- C7. Snapshot boundary crossing: with save interval `0.01` and step size `0.004` the
driver loop on the cube grid has recorded no snapshot after one and after two passes, and
exactly one after three passes, at `t = 0.012`. -/
theorem snapshot_boundary_crossing (D : Driver) (N : Nat) (u0 : List ℚ) (hN : 0 < N)
    (h00 : D.eq 0 0 = true) (h11 : D.eq 1 1 = true) (h01 : D.eq 0 1 = false)
    (hg : D.grid_view = cubeGrid N) (hdt : D.dt = 4 / 1000) :
    ∃ s1 s2 s3, steps D (1 / 100) 1 (initialState u0 (1 / 100)) = .ok s1 ∧
      steps D (1 / 100) 2 (initialState u0 (1 / 100)) = .ok s2 ∧
      steps D (1 / 100) 3 (initialState u0 (1 / 100)) = .ok s3 ∧
      recordedInLoop s1 = 0 ∧ recordedInLoop s2 = 0 ∧ recordedInLoop s3 = 1 ∧
      s3.t = 12 / 1000 := by
  have hstep : ∀ u upd, ∃ r, step D u upd = .ok r := fun u upd =>
    let ⟨w, hw, _⟩ := step_cube_ok D N u upd hN h00 h11 h01 hg
    ⟨_, hw⟩
  obtain ⟨s1, hs1, _⟩ := steps_clock D (1 / 100) u0 hstep 1
  obtain ⟨s2, hs2, _⟩ := steps_clock D (1 / 100) u0 hstep 2
  obtain ⟨s3, hs3, _⟩ := steps_clock D (1 / 100) u0 hstep 3
  obtain ⟨_, _, _, hr1⟩ := steps_unique_clock D (1 / 100) u0 hstep 1 s1 hs1
  obtain ⟨_, _, _, hr2⟩ := steps_unique_clock D (1 / 100) u0 hstep 2 s2 hs2
  obtain ⟨ht3, _, _, hr3⟩ := steps_unique_clock D (1 / 100) u0 hstep 3 s3 hs3
  have c1 : snapshotCount (4 / 1000) (1 / 100) 1 = 0 := by
    norm_num [snapshotCount]
  have c2 : snapshotCount (4 / 1000) (1 / 100) 2 = 0 := by
    norm_num [snapshotCount]
  have c3 : snapshotCount (4 / 1000) (1 / 100) 3 = 1 := by
    norm_num [snapshotCount]
  rw [hdt] at hr1 hr2 hr3 ht3
  refine ⟨s1, s2, s3, hs1, hs2, hs3, by rw [hr1, c1], by rw [hr2, c2], by rw [hr3, c3], ?_⟩
  rw [ht3]
  norm_num

/-- C7 at a concrete driver: two cells, the Burgers flux. -/
theorem snapshot_boundary_crossing_witness :
    ∃ s1 s2 s3,
      steps (mainDriver exactEq (fun x => x * x / 2) (4 / 1000) (cubeGrid 2)) (1 / 100) 1
        (initialState [1, 0] (1 / 100)) = .ok s1 ∧
      steps (mainDriver exactEq (fun x => x * x / 2) (4 / 1000) (cubeGrid 2)) (1 / 100) 2
        (initialState [1, 0] (1 / 100)) = .ok s2 ∧
      steps (mainDriver exactEq (fun x => x * x / 2) (4 / 1000) (cubeGrid 2)) (1 / 100) 3
        (initialState [1, 0] (1 / 100)) = .ok s3 ∧
      recordedInLoop s1 = 0 ∧ recordedInLoop s2 = 0 ∧ recordedInLoop s3 = 1 ∧
      s3.t = 12 / 1000 :=
  snapshot_boundary_crossing (mainDriver exactEq (fun x => x * x / 2) (4 / 1000) (cubeGrid 2)) 2
    [1, 0] (by decide) (by decide) (by decide) (by decide) rfl rfl

/-- C8. One snapshot per threshold crossing: for every save interval `s > 0` and step size
`0 < dt ≤ s`, after `n` passes of the driver loop on the cube grid the time is `n*dt`, the
number of snapshots recorded in the loop is `floor(n*dt/s)`, the number of thresholds
`s, 2s, ..` that are at most `n*dt`, and the next threshold is `(1 + that number) * s`. -/
theorem one_snapshot_per_threshold (D : Driver) (N : Nat) (u0 : List ℚ) (s : ℚ) (n : Nat)
    (hN : 0 < N) (h00 : D.eq 0 0 = true) (h11 : D.eq 1 1 = true) (h01 : D.eq 0 1 = false)
    (hg : D.grid_view = cubeGrid N) (hs : 0 < s) (hdt : 0 < D.dt) (hle : D.dt ≤ s) :
    ∃ sn, steps D s n (initialState u0 s) = .ok sn ∧ sn.t = (n : ℚ) * D.dt ∧
      recordedInLoop sn = ⌊(n : ℚ) * D.dt / s⌋₊ ∧
      sn.saveStep = (1 + (recordedInLoop sn : ℚ)) * s := by
  have hstep : ∀ u upd, ∃ r, step D u upd = .ok r := fun u upd =>
    let ⟨w, hw, _⟩ := step_cube_ok D N u upd hN h00 h11 h01 hg
    ⟨_, hw⟩
  obtain ⟨sn, hsn, _⟩ := steps_clock D s u0 hstep n
  obtain ⟨ht, _, hsave, hr⟩ := steps_unique_clock D s u0 hstep n sn hsn
  refine ⟨sn, hsn, ht, ?_, ?_⟩
  · rw [hr, snapshotCount_eq_floor D.dt s hs hdt hle n]
  · rw [hr, hsave]

/-- C8 at a concrete input: seven passes with `dt = 0.004` and save interval `0.01`. -/
theorem one_snapshot_per_threshold_witness :
    ∃ sn, steps (mainDriver exactEq (fun x => x * x / 2) (4 / 1000) (cubeGrid 2)) (1 / 100) 7
        (initialState [1, 0] (1 / 100)) = .ok sn ∧
      sn.t = ((7 : Nat) : ℚ) * (mainDriver exactEq (fun x => x * x / 2) (4 / 1000) (cubeGrid 2)).dt ∧
      recordedInLoop sn = ⌊((7 : Nat) : ℚ) *
        (mainDriver exactEq (fun x => x * x / 2) (4 / 1000) (cubeGrid 2)).dt / (1 / 100)⌋₊ ∧
      sn.saveStep = (1 + (recordedInLoop sn : ℚ)) * (1 / 100) :=
  one_snapshot_per_threshold (mainDriver exactEq (fun x => x * x / 2) (4 / 1000) (cubeGrid 2)) 2
    [1, 0] (1 / 100) 7 (by decide) (by decide) (by decide) (by decide) rfl (by simp)
    (by simp [mainDriver]) (by simp [mainDriver]; norm_num)

/-- C9, as stated, fails for an end time at or below `-dt`: with `dt = 1/2` and
`t_end = -1` the loop stops at once with `t = 0`, no pass executed, and
`t - dt = -1/2` is not below `t_end`. -/
theorem time_loop_negative_end_time :
    ∃ s, timeLoop (mainDriver exactEq (fun x => x * x / 2) (1 / 2) (cubeGrid 2)) (1 / 100) (-1) 1
        (initialState [1, 0] (1 / 100)) = some (.ok s) ∧
      s.time_step_counter = 0 ∧ s.t = 0 ∧
      ¬ (s.t - (mainDriver exactEq (fun x => x * x / 2) (1 / 2) (cubeGrid 2)).dt < -1) := by
  refine ⟨initialState [1, 0] (1 / 100), ?_, rfl, rfl, ?_⟩
  · have h : ¬ ((initialState [1, 0] (1 / 100)).t < (-1 : ℚ)) := by
      norm_num [initialState]
    simp only [timeLoop, if_neg h]
  · norm_num [initialState, mainDriver]

/-- C9, amended. Termination: for every step size `dt > 0` and every end time the time
loop of the driver on the cube grid stops, with any fuel above `k`, after exactly `k`
passes, where `k` is the smallest natural number with `k*dt ≥ t_end`; it stops with
`t = k*dt ≥ t_end`, and with `t - dt < t_end` whenever `t_end > -dt`. -/
theorem time_loop_terminates (D : Driver) (N : Nat) (u0 : List ℚ) (s t_end : ℚ)
    (hN : 0 < N) (h00 : D.eq 0 0 = true) (h11 : D.eq 1 1 = true) (h01 : D.eq 0 1 = false)
    (hg : D.grid_view = cubeGrid N) (hdt : 0 < D.dt) :
    ∃ (k : Nat) (sk : LoopState),
      (t_end ≤ (k : ℚ) * D.dt ∧ ∀ j : Nat, j < k → (j : ℚ) * D.dt < t_end) ∧
      (∀ fuel, k < fuel → timeLoop D s t_end fuel (initialState u0 s) = some (.ok sk)) ∧
      sk.time_step_counter = k ∧ sk.t = (k : ℚ) * D.dt ∧ t_end ≤ sk.t ∧
      (-D.dt < t_end → sk.t - D.dt < t_end) := by
  have hstep : ∀ u upd, ∃ r, step D u upd = .ok r := fun u upd =>
    let ⟨w, hw, _⟩ := step_cube_ok D N u upd hN h00 h11 h01 hg
    ⟨_, hw⟩
  have hk1 : t_end ≤ (⌈t_end / D.dt⌉₊ : ℚ) * D.dt := by
    have h := Nat.le_ceil (t_end / D.dt)
    rwa [div_le_iff₀ hdt] at h
  have hk2 : ∀ j : Nat, j < ⌈t_end / D.dt⌉₊ → (j : ℚ) * D.dt < t_end := by
    intro j hj
    have h := Nat.lt_ceil.mp hj
    rwa [lt_div_iff₀ hdt] at h
  obtain ⟨sk, hsk, _⟩ := steps_clock D s u0 hstep ⌈t_end / D.dt⌉₊
  obtain ⟨ht, hc, _, _⟩ := steps_unique_clock D s u0 hstep _ sk hsk
  refine ⟨⌈t_end / D.dt⌉₊, sk, ⟨hk1, hk2⟩, ?_, hc, ht, by rw [ht]; exact hk1, ?_⟩
  · intro fuel hf
    apply timeLoop_of_steps D s t_end _ _ sk fuel hsk _ _ hf
    · intro j hj sj hsj
      obtain ⟨htj, _⟩ := steps_unique_clock D s u0 hstep j sj hsj
      rw [htj]
      exact hk2 j hj
    · rw [ht]
      exact not_lt.mpr hk1
  · intro hneg
    rw [ht]
    cases hk : ⌈t_end / D.dt⌉₊ with
    | zero =>
      push_cast
      linarith
    | succ m =>
      have h := hk2 m (by omega)
      push_cast
      linarith

/-- C9, amended, at a concrete input: `dt = 1/2`, `t_end = 1`, two cells. -/
theorem time_loop_terminates_witness :
    ∃ (k : Nat) (sk : LoopState),
      ((1 : ℚ) ≤ (k : ℚ) * (mainDriver exactEq (fun x => x * x / 2) (1 / 2) (cubeGrid 2)).dt ∧
        ∀ j : Nat, j < k →
          (j : ℚ) * (mainDriver exactEq (fun x => x * x / 2) (1 / 2) (cubeGrid 2)).dt < 1) ∧
      (∀ fuel, k < fuel →
        timeLoop (mainDriver exactEq (fun x => x * x / 2) (1 / 2) (cubeGrid 2)) (1 / 100) 1 fuel
          (initialState [1, 0] (1 / 100)) = some (.ok sk)) ∧
      sk.time_step_counter = k ∧
      sk.t = (k : ℚ) * (mainDriver exactEq (fun x => x * x / 2) (1 / 2) (cubeGrid 2)).dt ∧
      (1 : ℚ) ≤ sk.t ∧
      (-(mainDriver exactEq (fun x => x * x / 2) (1 / 2) (cubeGrid 2)).dt < 1 →
        sk.t - (mainDriver exactEq (fun x => x * x / 2) (1 / 2) (cubeGrid 2)).dt < 1) :=
  time_loop_terminates (mainDriver exactEq (fun x => x * x / 2) (1 / 2) (cubeGrid 2)) 2 [1, 0]
    (1 / 100) 1 (by decide) (by decide) (by decide) (by decide) rfl (by simp [mainDriver])

/-- C10, as stated, fails on the driver: with a probe that fails at every step size and
halves it, and a `solve` that succeeds, `main` of `twobeams.cc` hands no step size to
`find_suitable_dt`, so it makes none of the ten attempts; it hands `dt = 0.0005`, not
`0.1/2^10`, to `solve` and ends with the success of `solve`, with no error. -/
theorem no_step_size_search :
    (twobeams_main halvingProbe (fun _ _ _ => Except.ok ())).probed = [] ∧
    (twobeams_main halvingProbe (fun _ _ _ => Except.ok ())).probed.length ≠ 10 ∧
    (twobeams_main halvingProbe (fun _ _ _ => Except.ok ())).dt = 5 / 10000 ∧
    (twobeams_main halvingProbe (fun _ _ _ => Except.ok ())).dt ≠ 1 / 10 / 2 ^ 10 ∧
    (twobeams_main halvingProbe (fun _ _ _ => Except.ok ())).solved = Except.ok () := by
  refine ⟨rfl, by simp [twobeams_main], ?_, ?_, rfl⟩
  · norm_num [twobeams_main, twobeams_dt]
  · norm_num [twobeams_main, twobeams_dt]

/-- C10, amended. The driver `twobeams.cc` runs no step-size search: whatever
`find_suitable_dt` and `solve` do for the flux and the initial values, `main` hands no
step size to `find_suitable_dt`, keeps `dt = 0.0005`, and ends as
`solve(2, 0.0005, 0.002)` ends; the run is the same for every `find_suitable_dt`, so no
failure of a probe is reported and none is turned into an error. -/
theorem fixed_step_size {α : Type} (find_suitable_dt : ℚ → Bool × ℚ)
    (solve : ℚ → ℚ → ℚ → Except String α) :
    (twobeams_main find_suitable_dt solve).probed = [] ∧
    (twobeams_main find_suitable_dt solve).dt = 5 / 10000 ∧
    (twobeams_main find_suitable_dt solve).solved = solve 2 (5 / 10000) (2 / 1000) ∧
    ∀ other : ℚ → Bool × ℚ, twobeams_main find_suitable_dt solve = twobeams_main other solve := by
  have hdt : twobeams_dt = 5 / 10000 := rfl
  have hi : twobeams_saveInterval twobeams_t_end twobeams_dt = 2 / 1000 := by
    norm_num [twobeams_saveInterval, twobeams_t_end, twobeams_dt]
  refine ⟨rfl, ?_, ?_, fun _ => rfl⟩
  · simp only [twobeams_main, hdt]
  · simp only [twobeams_main, hi]
    rfl

/-! ## The boundary blocks on the cube grid -/

theorem faceUpdate_cube (D : Driver) (N : Nat) (u : List ℚ) (hg : D.grid_view = cubeGrid N)
    (i j : Nat) (hi : i < N) (hj : j < N) (f : Intersection) :
    faceUpdate D u i j f = -1 * D.dt * D.local_operator ⟨cubeEntity N i, u.getD i 0⟩
      ⟨cubeEntity N j, u.getD j 0⟩ f := by
  unfold faceUpdate local_discrete_function
  rw [hg, cubeGrid_getD N i hi, cubeGrid_getD N j hj]

/-- The grid walk and the two boundary blocks on the cube grid of at least two cells: the
walk leaves the offsets `0` and `N - 1`, and the blocks add one contribution each. -/
theorem step_cube_boundary (D : Driver) (N : Nat) (u u_update : List ℚ)
    (h00 : D.eq 0 0 = true) (h11 : D.eq 1 1 = true) (h01 : D.eq 0 1 = false)
    (hN : 2 ≤ N) (hg : D.grid_view = cubeGrid N) :
    ∃ st, walkEntities D u D.grid_view 0 ⟨u_update.map (fun x => x * 0), 0, 0⟩ = .ok st ∧
      st.left_boundary_entity_offset = 0 ∧ st.right_boundary_entity_offset = N - 1 ∧
      step D u u_update = .ok
        (List.zipWith (fun a b => a + b) u
          (add (add st.u_update 0 (faceUpdate D u 0 (N - 1) (leftFace N 0))) (N - 1)
            (faceUpdate D u (N - 1) 0 (rightFace N (N - 1)))),
         add (add st.u_update 0 (faceUpdate D u 0 (N - 1) (leftFace N 0))) (N - 1)
            (faceUpdate D u (N - 1) 0 (rightFace N (N - 1)))) := by
  obtain ⟨st, hw, _, hl, hr, _⟩ :=
    walkEntities_cube D u N h00 h11 h01 N 0 ⟨u_update.map (fun x => x * 0), 0, 0⟩ (by omega)
  have hl0 : st.left_boundary_entity_offset = 0 := by rw [hl]; simp
  have hr0 : st.right_boundary_entity_offset = N - 1 := by
    rw [hr]; simp; omega
  have hN1 : ¬ (1 = N) := by omega
  have hN2 : ¬ (N - 1 = 0) := by omega
  have hN3 : N - 1 + 1 = N := by omega
  have hw2 : walkEntities D u D.grid_view 0 ⟨u_update.map (fun x => x * 0), 0, 0⟩ = .ok st := by
    rw [hg, cubeGrid, List.range_eq_range']
    exact hw
  refine ⟨st, hw2, hl0, hr0, ?_⟩
  unfold step
  simp only []
  rw [hw2]
  simp only []
  rw [hl0, hr0, hg, cubeGrid_get? N 0 (by omega), cubeGrid_get? N (N - 1) (by omega)]
  simp [boundaryIntersections, cubeEntity, leftFace, rightFace, hN1, hN2, hN3, faceUpdate, hg]

/-! ## Strange boundary intersections -/

theorem walkIntersection_strange (D : Driver) (u : List ℚ) (offset : Nat) (st : WalkState)
    (i : Intersection) (h : strangeBoundary D i = true) :
    walkIntersection D u offset st i = .error "Strange boundary intersection" := by
  unfold strangeBoundary at h
  simp only [Bool.and_eq_true, Bool.not_eq_true'] at h
  obtain ⟨⟨hb, h1⟩, h0⟩ := h
  unfold walkIntersection
  simp [hb, h1, h0]

theorem walkIntersection_regular (D : Driver) (u : List ℚ) (offset : Nat) (st : WalkState)
    (i : Intersection) (h : strangeBoundary D i = false) :
    ∃ st1, walkIntersection D u offset st i = .ok st1 := by
  unfold walkIntersection
  by_cases hb : i.boundary = true
  · by_cases h1 : D.eq i.center 1 = true
    · simp only [hb, h1, if_true]
      exact ⟨_, rfl⟩
    · by_cases h0 : D.eq i.center 0 = true
      · simp only [hb, h1, h0, if_true, if_false]
        exact ⟨_, rfl⟩
      · exfalso
        simp [strangeBoundary, hb, h1, h0] at h
  · simp only [hb, if_false]
    exact ⟨_, rfl⟩

theorem walkIntersections_cases (D : Driver) (u : List ℚ) (offset : Nat) :
    ∀ (is : List Intersection) (st : WalkState),
      ((∀ i ∈ is, strangeBoundary D i = false) ∧
          ∃ st1, walkIntersections D u offset is st = .ok st1) ∨
        ((∃ i ∈ is, strangeBoundary D i = true) ∧
          walkIntersections D u offset is st = .error "Strange boundary intersection") := by
  intro is
  induction is with
  | nil =>
    intro st
    exact Or.inl ⟨by simp, st, rfl⟩
  | cons i is ih =>
    intro st
    by_cases hi : strangeBoundary D i = true
    · right
      refine ⟨⟨i, List.mem_cons_self _ _, hi⟩, ?_⟩
      simp only [walkIntersections, walkIntersection_strange D u offset st i hi]
    · have hi2 : strangeBoundary D i = false := by simpa using hi
      obtain ⟨st1, h1⟩ := walkIntersection_regular D u offset st i hi2
      rcases ih st1 with ⟨hall, st2, h2⟩ | ⟨⟨j, hj, hjs⟩, h2⟩
      · left
        refine ⟨?_, st2, ?_⟩
        · intro k hk
          rcases List.mem_cons.mp hk with rfl | hk2
          · exact hi2
          · exact hall k hk2
        · simp only [walkIntersections, h1]
          exact h2
      · right
        refine ⟨⟨j, List.mem_cons_of_mem _ hj, hjs⟩, ?_⟩
        simp only [walkIntersections, h1]
        exact h2

theorem walkEntities_cases (D : Driver) (u : List ℚ) :
    ∀ (es : List Entity) (offset : Nat) (st : WalkState),
      ((∀ e ∈ es, ∀ i ∈ e.intersections, strangeBoundary D i = false) ∧
          ∃ st1, walkEntities D u es offset st = .ok st1) ∨
        ((∃ e ∈ es, ∃ i ∈ e.intersections, strangeBoundary D i = true) ∧
          walkEntities D u es offset st = .error "Strange boundary intersection") := by
  intro es
  induction es with
  | nil =>
    intro offset st
    exact Or.inl ⟨by simp, st, rfl⟩
  | cons e es ih =>
    intro offset st
    rcases walkIntersections_cases D u offset e.intersections st with
      ⟨hall, st1, h1⟩ | ⟨⟨i, hi, his⟩, h1⟩
    · rcases ih (offset + 1) st1 with ⟨hall2, st2, h2⟩ | ⟨⟨e2, he2, i, hi, his⟩, h2⟩
      · left
        refine ⟨?_, st2, ?_⟩
        · intro e3 he3
          rcases List.mem_cons.mp he3 with rfl | he4
          · exact hall
          · exact hall2 e3 he4
        · simp only [walkEntities, h1]
          exact h2
      · right
        refine ⟨⟨e2, List.mem_cons_of_mem _ he2, i, hi, his⟩, ?_⟩
        simp only [walkEntities, h1]
        exact h2
    · right
      refine ⟨⟨e, List.mem_cons_self _ _, i, hi, his⟩, ?_⟩
      simp only [walkEntities, h1]

/-- A pass throws `Strange boundary intersection` exactly when the grid view has a strange
boundary intersection, and then it is the grid walk that throws. -/
theorem step_strange_iff (D : Driver) (u u_update : List ℚ) :
    (step D u u_update = .error "Strange boundary intersection" ↔
      ∃ e ∈ D.grid_view, ∃ i ∈ e.intersections, strangeBoundary D i = true) ∧
    (step D u u_update = .error "Strange boundary intersection" →
      walkEntities D u D.grid_view 0 ⟨u_update.map (fun x => x * 0), 0, 0⟩
        = .error "Strange boundary intersection") := by
  rcases walkEntities_cases D u D.grid_view 0 ⟨u_update.map (fun x => x * 0), 0, 0⟩ with
    ⟨hall, st, hw⟩ | ⟨hex, hw⟩
  · have hne : step D u u_update ≠ .error "Strange boundary intersection" := by
      unfold step
      simp only []
      rw [hw]
      simp only []
      cases D.grid_view.get? st.left_boundary_entity_offset with
      | none =>
        intro h
        injection h with h
        exact absurd h (by decide)
      | some el =>
        cases D.grid_view.get? st.right_boundary_entity_offset with
        | none =>
          intro h
          injection h with h
          exact absurd h (by decide)
        | some er =>
          intro h
          cases h
    refine ⟨⟨fun h => absurd h hne, ?_⟩, fun h => absurd h hne⟩
    rintro ⟨e, he, i, hi, his⟩
    rw [hall e he i hi] at his
    cases his
  · have hs : step D u u_update = .error "Strange boundary intersection" := by
      unfold step
      simp only []
      rw [hw]
    exact ⟨⟨fun _ => hex, fun _ => hs⟩, fun _ => hw⟩

/-! ## The written snapshots -/

theorem loopBody_error (D : Driver) (si : ℚ) (s : LoopState) (e : String)
    (h : step D s.u s.u_update = .error e) : loopBody D si s = .error e := by
  unfold loopBody
  rw [h]

theorem loopBody_u (D : Driver) (si : ℚ) (s s1 : LoopState) (h : loopBody D si s = .ok s1) :
    step D s.u s.u_update = .ok (s1.u, s1.u_update) := by
  unfold loopBody at h
  cases hs : step D s.u s.u_update with
  | error e => rw [hs] at h; cases h
  | ok r =>
    obtain ⟨a, b⟩ := r
    rw [hs] at h
    simp only [] at h
    split_ifs at h <;> cases h <;> rfl

/-- The indices and the counter of the written snapshots after `n` passes. -/
theorem steps_indices (D : Driver) (si : ℚ) (u0 : List ℚ)
    (hstep : ∀ u upd, ∃ r, step D u upd = .ok r) :
    ∀ n : Nat, ∃ sn, steps D si n (initialState u0 si) = .ok sn ∧
      sn.save_step_counter = sn.written.length ∧
      snapshotIndices sn = List.range sn.written.length ∧
      sn.written.head? = some ⟨0, 0, u0⟩ := by
  intro n
  induction n with
  | zero => exact ⟨initialState u0 si, rfl, rfl, rfl, rfl⟩
  | succ n ih =>
    obtain ⟨sn, hs, hc, hi, hh⟩ := ih
    obtain ⟨s1, hb, _, _, hyes, hno⟩ := loopBody_ok D si sn hstep
    refine ⟨s1, by rw [steps_succ_last, hs]; exact hb, ?_⟩
    by_cases h : sn.t + D.dt ≥ sn.saveStep
    · obtain ⟨_, h2, h3⟩ := hyes h
      refine ⟨?_, ?_, ?_⟩
      · rw [h2, h3, hc]
        simp
      · unfold snapshotIndices at hi ⊢
        rw [h3, List.map_append, hi, List.length_append, List.length_singleton,
          List.range_succ, hc]
        rfl
      · rw [h3]
        cases hw : sn.written with
        | nil => rw [hw] at hh; cases hh
        | cons a l => rw [hw] at hh; simpa using hh
    · obtain ⟨_, h2, h3⟩ := hno h
      exact ⟨by rw [h2, h3, hc], by unfold snapshotIndices at hi ⊢; rw [h3, hi], by rw [h3, hh]⟩

/-- The times and the states of the written snapshots after `n` passes. -/
theorem steps_times (D : Driver) (si : ℚ) (u0 : List ℚ)
    (hstep : ∀ u upd, ∃ r, step D u upd = .ok r) (hdt : 0 < D.dt) :
    ∀ n : Nat, ∃ sn, steps D si n (initialState u0 si) = .ok sn ∧
      (snapshotTimes sn).Pairwise (fun a b => a < b) ∧
      (∀ x ∈ snapshotTimes sn, x ≤ sn.t) ∧
      (∀ snap ∈ sn.written, snap = ⟨0, 0, u0⟩ ∨
        ∃ m sm, 1 ≤ m ∧ m ≤ n ∧ steps D si m (initialState u0 si) = .ok sm ∧
          snap.time = sm.t ∧ snap.data = sm.u) := by
  intro n
  induction n with
  | zero =>
    refine ⟨initialState u0 si, rfl, ?_, ?_, ?_⟩
    · simp [snapshotTimes, initialState]
    · simp [snapshotTimes, initialState]
    · intro snap hsnap
      left
      simpa [initialState] using hsnap
  | succ n ih =>
    obtain ⟨sn, hs, hp, hle, hall⟩ := ih
    obtain ⟨s1, hb, ht1, _, hyes, hno⟩ := loopBody_ok D si sn hstep
    have hs1 : steps D si (n + 1) (initialState u0 si) = .ok s1 := by
      rw [steps_succ_last, hs]
      exact hb
    have hold : ∀ snap ∈ sn.written, snap = ⟨0, 0, u0⟩ ∨
        ∃ m sm, 1 ≤ m ∧ m ≤ n + 1 ∧ steps D si m (initialState u0 si) = .ok sm ∧
          snap.time = sm.t ∧ snap.data = sm.u := by
      intro snap hsnap
      rcases hall snap hsnap with h | ⟨m, sm, h1, h2, h3⟩
      · exact Or.inl h
      · exact Or.inr ⟨m, sm, h1, by omega, h3⟩
    refine ⟨s1, hs1, ?_⟩
    by_cases h : sn.t + D.dt ≥ sn.saveStep
    · obtain ⟨_, _, h3⟩ := hyes h
      refine ⟨?_, ?_, ?_⟩
      · unfold snapshotTimes at hp hle ⊢
        rw [h3, List.map_append, List.pairwise_append]
        refine ⟨hp, by simp, ?_⟩
        intro a ha b hb2
        simp only [List.map_cons, List.map_nil, List.mem_singleton] at hb2
        rw [hb2]
        have := hle a ha
        linarith
      · unfold snapshotTimes at hle ⊢
        rw [h3, List.map_append]
        intro x hx
        rcases List.mem_append.mp hx with hx1 | hx2
        · have := hle x hx1
          rw [ht1]
          linarith
        · simp only [List.map_cons, List.map_nil, List.mem_singleton] at hx2
          rw [hx2, ht1]
      · rw [h3]
        intro snap hsnap
        rcases List.mem_append.mp hsnap with h4 | h4
        · exact hold snap h4
        · right
          simp only [List.mem_singleton] at h4
          refine ⟨n + 1, s1, by omega, le_rfl, hs1, ?_, ?_⟩
          · rw [h4, ht1]
          · rw [h4]
    · obtain ⟨_, _, h3⟩ := hno h
      refine ⟨?_, ?_, ?_⟩
      · unfold snapshotTimes at hp ⊢
        rw [h3]
        exact hp
      · unfold snapshotTimes at hle ⊢
        rw [h3]
        intro x hx
        have := hle x hx
        rw [ht1]
        linarith
      · rw [h3]
        exact hold

/-- C11. Periodic pairing: on the cube grid of `N ≥ 2` cells on `[0,1]` the grid walk
finds the cell with the boundary face centred at `0` at offset `0` and the one with the
boundary face centred at `1` at offset `N - 1`; the boundary block then applies the local
operator at the boundary face of the left cell with the left cell's state inside and the
right cell's state outside, and at the boundary face of the right cell with the right
cell's state inside and the left cell's state outside, and adds `-1.0*dt*update` to the
respective cell. -/
theorem periodic_pairing (D : Driver) (N : Nat) (u u_update : List ℚ)
    (h00 : D.eq 0 0 = true) (h11 : D.eq 1 1 = true) (h01 : D.eq 0 1 = false)
    (hN : 2 ≤ N) (hg : D.grid_view = cubeGrid N) :
    ∃ st, walkEntities D u D.grid_view 0 ⟨u_update.map (fun x => x * 0), 0, 0⟩ = .ok st ∧
      st.left_boundary_entity_offset = 0 ∧ st.right_boundary_entity_offset = N - 1 ∧
      (leftFace N 0).boundary = true ∧ (leftFace N 0).center = 0 ∧
      (rightFace N (N - 1)).boundary = true ∧ (rightFace N (N - 1)).center = 1 ∧
      step D u u_update = .ok
        (List.zipWith (fun a b => a + b) u
          (add (add st.u_update 0
              (-1 * D.dt * D.local_operator ⟨cubeEntity N 0, u.getD 0 0⟩
                ⟨cubeEntity N (N - 1), u.getD (N - 1) 0⟩ (leftFace N 0)))
            (N - 1)
              (-1 * D.dt * D.local_operator ⟨cubeEntity N (N - 1), u.getD (N - 1) 0⟩
                ⟨cubeEntity N 0, u.getD 0 0⟩ (rightFace N (N - 1)))),
         add (add st.u_update 0
              (-1 * D.dt * D.local_operator ⟨cubeEntity N 0, u.getD 0 0⟩
                ⟨cubeEntity N (N - 1), u.getD (N - 1) 0⟩ (leftFace N 0)))
            (N - 1)
              (-1 * D.dt * D.local_operator ⟨cubeEntity N (N - 1), u.getD (N - 1) 0⟩
                ⟨cubeEntity N 0, u.getD 0 0⟩ (rightFace N (N - 1)))) := by
  obtain ⟨st, hw, hl, hr, hs⟩ := step_cube_boundary D N u u_update h00 h11 h01 hN hg
  have hc : (rightFace N (N - 1)).center = 1 := by
    have h1 : ((N - 1 : Nat) : ℚ) + 1 = (N : ℚ) := by
      have : N - 1 + 1 = N := by omega
      exact_mod_cast this
    have h2 : (N : ℚ) ≠ 0 := by
      have : 0 < N := by omega
      positivity
    simp only [rightFace, h1]
    exact div_self h2
  refine ⟨st, hw, hl, hr, by simp [leftFace], by simp [leftFace], ?_, hc, ?_⟩
  · have : N - 1 + 1 = N := by omega
    simp [rightFace, this]
  · rw [hs, faceUpdate_cube D N u hg 0 (N - 1) (by omega) (by omega),
      faceUpdate_cube D N u hg (N - 1) 0 (by omega) (by omega)]

/-- C11 at a concrete input: three cells, the Burgers flux. -/
theorem periodic_pairing_witness :
    ∃ st, walkEntities (mainDriver exactEq (fun x => x * x / 2) (1 / 8) (cubeGrid 3)) [1, 2, 5]
        (mainDriver exactEq (fun x => x * x / 2) (1 / 8) (cubeGrid 3)).grid_view 0
        ⟨[7, 7, 7].map (fun x => x * 0), 0, 0⟩ = .ok st ∧
      st.left_boundary_entity_offset = 0 ∧ st.right_boundary_entity_offset = 3 - 1 ∧
      (leftFace 3 0).boundary = true ∧ (leftFace 3 0).center = 0 ∧
      (rightFace 3 (3 - 1)).boundary = true ∧ (rightFace 3 (3 - 1)).center = 1 ∧
      step (mainDriver exactEq (fun x => x * x / 2) (1 / 8) (cubeGrid 3)) [1, 2, 5] [7, 7, 7] = .ok
        (List.zipWith (fun a b => a + b) [1, 2, 5]
          (add (add st.u_update 0
              (-1 * (mainDriver exactEq (fun x => x * x / 2) (1 / 8) (cubeGrid 3)).dt *
                (mainDriver exactEq (fun x => x * x / 2) (1 / 8) (cubeGrid 3)).local_operator
                  ⟨cubeEntity 3 0, [1, 2, 5].getD 0 0⟩
                  ⟨cubeEntity 3 (3 - 1), [1, 2, 5].getD (3 - 1) 0⟩ (leftFace 3 0)))
            (3 - 1)
              (-1 * (mainDriver exactEq (fun x => x * x / 2) (1 / 8) (cubeGrid 3)).dt *
                (mainDriver exactEq (fun x => x * x / 2) (1 / 8) (cubeGrid 3)).local_operator
                  ⟨cubeEntity 3 (3 - 1), [1, 2, 5].getD (3 - 1) 0⟩
                  ⟨cubeEntity 3 0, [1, 2, 5].getD 0 0⟩ (rightFace 3 (3 - 1)))),
         add (add st.u_update 0
              (-1 * (mainDriver exactEq (fun x => x * x / 2) (1 / 8) (cubeGrid 3)).dt *
                (mainDriver exactEq (fun x => x * x / 2) (1 / 8) (cubeGrid 3)).local_operator
                  ⟨cubeEntity 3 0, [1, 2, 5].getD 0 0⟩
                  ⟨cubeEntity 3 (3 - 1), [1, 2, 5].getD (3 - 1) 0⟩ (leftFace 3 0)))
            (3 - 1)
              (-1 * (mainDriver exactEq (fun x => x * x / 2) (1 / 8) (cubeGrid 3)).dt *
                (mainDriver exactEq (fun x => x * x / 2) (1 / 8) (cubeGrid 3)).local_operator
                  ⟨cubeEntity 3 (3 - 1), [1, 2, 5].getD (3 - 1) 0⟩
                  ⟨cubeEntity 3 0, [1, 2, 5].getD 0 0⟩ (rightFace 3 (3 - 1)))) :=
  periodic_pairing (mainDriver exactEq (fun x => x * x / 2) (1 / 8) (cubeGrid 3)) 3 [1, 2, 5]
    [7, 7, 7] (by decide) (by decide) (by decide) (by decide) rfl

/-- C12. Unmatched boundary is fatal: a pass of the body of the time loop throws
`Strange boundary intersection` exactly when the grid view has a boundary intersection
whose centre compares equal to neither `1.0` nor `0.0`; the throw comes from the grid
walk, before the boundary blocks and `u += u_update`, and it ends the loop body and the
time loop with that error. -/
theorem strange_boundary_is_fatal (D : Driver) (s : LoopState) (si t_end : ℚ) (fuel : Nat)
    (ht : s.t < t_end) :
    (step D s.u s.u_update = .error "Strange boundary intersection" ↔
      ∃ e ∈ D.grid_view, ∃ i ∈ e.intersections,
        i.boundary = true ∧ D.eq i.center 1 = false ∧ D.eq i.center 0 = false) ∧
    (step D s.u s.u_update = .error "Strange boundary intersection" →
      walkEntities D s.u D.grid_view 0 ⟨s.u_update.map (fun x => x * 0), 0, 0⟩
          = .error "Strange boundary intersection" ∧
        loopBody D si s = .error "Strange boundary intersection" ∧
        timeLoop D si t_end (fuel + 1) s = some (.error "Strange boundary intersection")) := by
  obtain ⟨hiff, hwalk⟩ := step_strange_iff D s.u s.u_update
  constructor
  · rw [hiff]
    constructor
    · rintro ⟨e, he, i, hi, his⟩
      refine ⟨e, he, i, hi, ?_⟩
      simpa [strangeBoundary, and_assoc] using his
    · rintro ⟨e, he, i, hi, hb, h1, h0⟩
      exact ⟨e, he, i, hi, by simp [strangeBoundary, hb, h1, h0]⟩
  · intro h
    have hb := loopBody_error D si s _ h
    refine ⟨hwalk h, hb, ?_⟩
    simp only [timeLoop, if_pos ht, hb]

/-- C12 at a concrete input: the one-cell grid on `[0,2]` at the start of the loop. -/
theorem strange_boundary_is_fatal_witness :
    (step (mainDriver exactEq (fun x => x * x / 2) (1 / 8) strangeGrid)
          (initialState [1] (1 / 100)).u (initialState [1] (1 / 100)).u_update
        = .error "Strange boundary intersection" ↔
      ∃ e ∈ (mainDriver exactEq (fun x => x * x / 2) (1 / 8) strangeGrid).grid_view,
        ∃ i ∈ e.intersections, i.boundary = true ∧
          (mainDriver exactEq (fun x => x * x / 2) (1 / 8) strangeGrid).eq i.center 1 = false ∧
          (mainDriver exactEq (fun x => x * x / 2) (1 / 8) strangeGrid).eq i.center 0 = false) ∧
    (step (mainDriver exactEq (fun x => x * x / 2) (1 / 8) strangeGrid)
          (initialState [1] (1 / 100)).u (initialState [1] (1 / 100)).u_update
        = .error "Strange boundary intersection" →
      walkEntities (mainDriver exactEq (fun x => x * x / 2) (1 / 8) strangeGrid)
          (initialState [1] (1 / 100)).u
          (mainDriver exactEq (fun x => x * x / 2) (1 / 8) strangeGrid).grid_view 0
          ⟨(initialState [1] (1 / 100)).u_update.map (fun x => x * 0), 0, 0⟩
          = .error "Strange boundary intersection" ∧
        loopBody (mainDriver exactEq (fun x => x * x / 2) (1 / 8) strangeGrid) (1 / 100)
          (initialState [1] (1 / 100)) = .error "Strange boundary intersection" ∧
        timeLoop (mainDriver exactEq (fun x => x * x / 2) (1 / 8) strangeGrid) (1 / 100) 10
          (0 + 1) (initialState [1] (1 / 100))
          = some (.error "Strange boundary intersection")) :=
  strange_boundary_is_fatal (mainDriver exactEq (fun x => x * x / 2) (1 / 8) strangeGrid)
    (initialState [1] (1 / 100)) (1 / 100) 10 0 (by decide)

/-- C13 on the one-cell grid: with the counting operator and `dt = -1` the update of the
single cell is `4`, four contributions for its two faces; the contributions of its right
face alone add up to `2`, and so do those of its left face.  On two cells every cell
collects `2`, one per face. -/
theorem face_visits_one_cell :
    step ⟨exactEq, countingOperator, -1, cubeGrid 1⟩ [0] [0] = .ok ([4], [4]) ∧
    step ⟨exactEq, faceCountingOperator 1, -1, cubeGrid 1⟩ [0] [0] = .ok ([2], [2]) ∧
    step ⟨exactEq, faceCountingOperator (-1), -1, cubeGrid 1⟩ [0] [0] = .ok ([2], [2]) ∧
    step ⟨exactEq, countingOperator, -1, cubeGrid 2⟩ [0, 0] [0, 0] = .ok ([2, 2], [2, 2]) ∧
    step ⟨exactEq, faceCountingOperator 1, -1, cubeGrid 2⟩ [0, 0] [0, 0]
      = .ok ([1, 1], [1, 1]) := by
  refine ⟨?_, ?_, ?_, ?_, ?_⟩ <;>
    norm_num [step, walkEntities, walkIntersections, walkIntersection, boundaryIntersections,
      cubeGrid, cubeEntity, leftFace, rightFace, countingOperator, faceCountingOperator,
      exactEq, add, local_discrete_function, List.range, List.range.loop]

/-! ## The update of every cell -/

/-- The update buffer after a pass on the cube grid: the conservative update of every
cell, computed from the state at the start of the pass; twice that on the grid of one
cell. -/
theorem step_cube_values (D : Driver) (N : Nat) (u u_update : List ℚ) (hN : 0 < N)
    (h00 : D.eq 0 0 = true) (h11 : D.eq 1 1 = true) (h01 : D.eq 0 1 = false)
    (hg : D.grid_view = cubeGrid N) :
    ∃ upd, step D u u_update = .ok (List.zipWith (fun a b => a + b) u upd, upd) ∧
      upd.length = u_update.length ∧
      (u_update.length = N → ∀ j, j < N →
        upd.getD j 0 = (if N = 1 then 2 else 1) * cellUpdate D u N j) := by
  by_cases h1 : N = 1
  · subst h1
    obtain ⟨upd, hs, hl, hv⟩ := step_cube_one D u u_update h00 h11 h01 hg
    refine ⟨upd, hs, hl, ?_⟩
    intro hlen j hj
    have hj0 : j = 0 := by omega
    subst hj0
    rw [hv hlen]
    simp only [if_true]
    ring
  · obtain ⟨upd, hs, hl, hv⟩ := step_cube_update D N u u_update h00 h11 h01 (by omega) hg
    refine ⟨upd, hs, hl, ?_⟩
    intro hlen j hj
    rw [hv hlen j hj, if_neg h1, one_mul]

theorem step_ok_zipWith (D : Driver) (u u_update : List ℚ) (r : List ℚ × List ℚ)
    (h : step D u u_update = .ok r) : r.1 = List.zipWith (fun a b => a + b) u r.2 := by
  unfold step at h
  simp only [] at h
  cases hw : walkEntities D u D.grid_view 0 ⟨u_update.map (fun x => x * 0), 0, 0⟩ with
  | error e => rw [hw] at h; cases h
  | ok st =>
    rw [hw] at h
    simp only [] at h
    cases hl : D.grid_view.get? st.left_boundary_entity_offset with
    | none => rw [hl] at h; cases h
    | some el =>
      cases hr : D.grid_view.get? st.right_boundary_entity_offset with
      | none => rw [hl, hr] at h; cases h
      | some er =>
        rw [hl, hr] at h
        cases h
        rfl

theorem cellUpdate_cube (D : Driver) (N : Nat) (u : List ℚ) (hg : D.grid_view = cubeGrid N)
    (j : Nat) (hj : j < N) :
    cellUpdate D u N j =
      -1 * D.dt * D.local_operator ⟨cubeEntity N j, u.getD j 0⟩
          ⟨cubeEntity N (leftOf N j), u.getD (leftOf N j) 0⟩ (leftFace N j) +
        -1 * D.dt * D.local_operator ⟨cubeEntity N j, u.getD j 0⟩
          ⟨cubeEntity N (rightOf N j), u.getD (rightOf N j) 0⟩ (rightFace N j) := by
  unfold cellUpdate
  rw [faceUpdate_cube D N u hg j _ hj (leftOf_lt N j hj),
    faceUpdate_cube D N u hg j _ hj (rightOf_lt N j hj)]

/-- C14. The state is not written during the evaluation: the new state of a pass is the
state at its start plus the final update buffer, one `u += u_update`, on every grid view;
and on the cube grid every entry of that buffer is made of applications of the local
operator to values of the state at the start of the pass (each face once, on the grid
of one cell twice). -/
theorem state_read_only_during_pass (D : Driver) (N : Nat) (u u_update : List ℚ) (hN : 0 < N)
    (h00 : D.eq 0 0 = true) (h11 : D.eq 1 1 = true) (h01 : D.eq 0 1 = false)
    (hg : D.grid_view = cubeGrid N) (hlen : u_update.length = N) :
    (∀ (D1 : Driver) (v w : List ℚ) (r : List ℚ × List ℚ),
      step D1 v w = .ok r → r.1 = List.zipWith (fun a b => a + b) v r.2) ∧
    ∃ upd, step D u u_update = .ok (List.zipWith (fun a b => a + b) u upd, upd) ∧
      ∀ j, j < N → upd.getD j 0 = (if N = 1 then 2 else 1) *
        (-1 * D.dt * D.local_operator ⟨cubeEntity N j, u.getD j 0⟩
            ⟨cubeEntity N (leftOf N j), u.getD (leftOf N j) 0⟩ (leftFace N j) +
          -1 * D.dt * D.local_operator ⟨cubeEntity N j, u.getD j 0⟩
            ⟨cubeEntity N (rightOf N j), u.getD (rightOf N j) 0⟩ (rightFace N j)) := by
  refine ⟨fun D1 v w r h => step_ok_zipWith D1 v w r h, ?_⟩
  obtain ⟨upd, hs, _, hv⟩ := step_cube_values D N u u_update hN h00 h11 h01 hg
  refine ⟨upd, hs, ?_⟩
  intro j hj
  rw [hv hlen j hj, cellUpdate_cube D N u hg j hj]

/-- C14 at a concrete input: three cells, the Burgers flux, a stale update buffer. -/
theorem state_read_only_during_pass_witness :
    (∀ (D1 : Driver) (v w : List ℚ) (r : List ℚ × List ℚ),
      step D1 v w = .ok r → r.1 = List.zipWith (fun a b => a + b) v r.2) ∧
    ∃ upd, step (mainDriver exactEq (fun x => x * x / 2) (1 / 8) (cubeGrid 3)) [1, 2, 5] [7, 7, 7]
        = .ok (List.zipWith (fun a b => a + b) [1, 2, 5] upd, upd) ∧
      ∀ j, j < 3 → upd.getD j 0 = (if 3 = 1 then 2 else 1) *
        (-1 * (mainDriver exactEq (fun x => x * x / 2) (1 / 8) (cubeGrid 3)).dt *
            (mainDriver exactEq (fun x => x * x / 2) (1 / 8) (cubeGrid 3)).local_operator
              ⟨cubeEntity 3 j, [1, 2, 5].getD j 0⟩
              ⟨cubeEntity 3 (leftOf 3 j), [1, 2, 5].getD (leftOf 3 j) 0⟩ (leftFace 3 j) +
          -1 * (mainDriver exactEq (fun x => x * x / 2) (1 / 8) (cubeGrid 3)).dt *
            (mainDriver exactEq (fun x => x * x / 2) (1 / 8) (cubeGrid 3)).local_operator
              ⟨cubeEntity 3 j, [1, 2, 5].getD j 0⟩
              ⟨cubeEntity 3 (rightOf 3 j), [1, 2, 5].getD (rightOf 3 j) 0⟩ (rightFace 3 j)) :=
  state_read_only_during_pass (mainDriver exactEq (fun x => x * x / 2) (1 / 8) (cubeGrid 3)) 3
    [1, 2, 5] [7, 7, 7] (by decide) (by decide) (by decide) (by decide) rfl rfl

/-- C15. Conservative divergence form: after a pass of the driver on the cube grid, for
whatever the update buffer held before, the new value of every cell is its old value
minus `dt` times the sum of the local operator over its left and its right face (any
local operator, `N ≥ 2`); with the Lax-Friedrichs operator and `N ≥ 1` that is the old
value minus `dt` times the flux through the right face minus the flux through the left
face, divided by the cell width. -/
theorem conservative_divergence_form (D : Driver) (N : Nat) (u u_update : List ℚ) (hN : 0 < N)
    (h00 : D.eq 0 0 = true) (h11 : D.eq 1 1 = true) (h01 : D.eq 0 1 = false)
    (hg : D.grid_view = cubeGrid N) (hu : u.length = N) (hlen : u_update.length = N) :
    (2 ≤ N → ∃ r, step D u u_update = .ok r ∧ ∀ j, j < N →
      r.1.getD j 0 = u.getD j 0 - D.dt *
        (D.local_operator ⟨cubeEntity N j, u.getD j 0⟩
            ⟨cubeEntity N (leftOf N j), u.getD (leftOf N j) 0⟩ (leftFace N j) +
          D.local_operator ⟨cubeEntity N j, u.getD j 0⟩
            ⟨cubeEntity N (rightOf N j), u.getD (rightOf N j) 0⟩ (rightFace N j))) ∧
    (∀ (F : ℚ → ℚ) (lambda : ℚ), D.local_operator = laxFriedrichsOperator F lambda →
      ∃ r, step D u u_update = .ok r ∧ ∀ j, j < N →
        r.1.getD j 0 = u.getD j 0 - D.dt *
          ((LaxFriedrichsFlux F lambda (u.getD j 0) (u.getD (rightOf N j) 0) 1
            - LaxFriedrichsFlux F lambda (u.getD (leftOf N j) 0) (u.getD j 0) 1)
              / (cubeEntity N j).volume)) := by
  obtain ⟨upd, hs, hl, hv⟩ := step_cube_values D N u u_update hN h00 h11 h01 hg
  have hzip : ∀ j, (List.zipWith (fun a b => a + b) u upd).getD j 0
      = u.getD j 0 + upd.getD j 0 :=
    fun j => getD_zipWith_add u upd j (by rw [hu, hl, hlen])
  constructor
  · intro h2
    refine ⟨_, hs, ?_⟩
    intro j hj
    have h1 : ¬ (N = 1) := by omega
    simp only []
    rw [hzip j, hv hlen j hj, if_neg h1, cellUpdate_cube D N u hg j hj]
    ring
  · intro F lambda hop
    refine ⟨_, hs, ?_⟩
    intro j hj
    simp only []
    rw [hzip j, hv hlen j hj, cellUpdate_laxFriedrichs D N F lambda u hg hop j hj]
    by_cases h1 : N = 1
    · subst h1
      have hj0 : j = 0 := by omega
      subst hj0
      simp [leftOf, rightOf]
    · rw [if_neg h1]
      simp only [cubeEntity]
      rw [div_div_eq_mul_div]
      ring

/-- C15 at a concrete input: three cells, the Burgers flux, a stale update buffer. -/
theorem conservative_divergence_form_witness :
    (2 ≤ 3 → ∃ r, step (mainDriver exactEq (fun x => x * x / 2) (1 / 8) (cubeGrid 3)) [1, 2, 5] [7, 7, 7] = .ok r ∧ ∀ j, j < 3 →
      r.1.getD j 0 = [1, 2, 5].getD j 0 - (mainDriver exactEq (fun x => x * x / 2) (1 / 8) (cubeGrid 3)).dt *
        ((mainDriver exactEq (fun x => x * x / 2) (1 / 8) (cubeGrid 3)).local_operator ⟨cubeEntity 3 j, [1, 2, 5].getD j 0⟩
            ⟨cubeEntity 3 (leftOf 3 j), [1, 2, 5].getD (leftOf 3 j) 0⟩ (leftFace 3 j) +
          (mainDriver exactEq (fun x => x * x / 2) (1 / 8) (cubeGrid 3)).local_operator ⟨cubeEntity 3 j, [1, 2, 5].getD j 0⟩
            ⟨cubeEntity 3 (rightOf 3 j), [1, 2, 5].getD (rightOf 3 j) 0⟩ (rightFace 3 j))) ∧
    (∀ (F : ℚ → ℚ) (lambda : ℚ), (mainDriver exactEq (fun x => x * x / 2) (1 / 8) (cubeGrid 3)).local_operator = laxFriedrichsOperator F lambda →
      ∃ r, step (mainDriver exactEq (fun x => x * x / 2) (1 / 8) (cubeGrid 3)) [1, 2, 5] [7, 7, 7] = .ok r ∧ ∀ j, j < 3 →
        r.1.getD j 0 = [1, 2, 5].getD j 0 - (mainDriver exactEq (fun x => x * x / 2) (1 / 8) (cubeGrid 3)).dt *
          ((LaxFriedrichsFlux F lambda ([1, 2, 5].getD j 0) ([1, 2, 5].getD (rightOf 3 j) 0) 1
            - LaxFriedrichsFlux F lambda ([1, 2, 5].getD (leftOf 3 j) 0) ([1, 2, 5].getD j 0) 1)
              / (cubeEntity 3 j).volume)) :=
  conservative_divergence_form (mainDriver exactEq (fun x => x * x / 2) (1 / 8) (cubeGrid 3)) 3 [1, 2, 5] [7, 7, 7] (by decide) (by decide) (by decide)
    (by decide) rfl rfl rfl

/-- C16. Time-ordered trajectory: for every `dt > 0` and every number of passes of the
driver loop on the cube grid, the times of the written snapshots, `concentration_0` at
`t = 0` first, are strictly increasing in the order of writing, and every snapshot written
in the loop carries the time and the state reached after some pass `m`, `t = m*dt` and `u`
as updated by that pass. -/
theorem snapshots_time_ordered (D : Driver) (N : Nat) (u0 : List ℚ) (si : ℚ) (n : Nat)
    (hN : 0 < N) (h00 : D.eq 0 0 = true) (h11 : D.eq 1 1 = true) (h01 : D.eq 0 1 = false)
    (hg : D.grid_view = cubeGrid N) (hdt : 0 < D.dt) :
    ∃ sn, steps D si n (initialState u0 si) = .ok sn ∧
      sn.written.head? = some ⟨0, 0, u0⟩ ∧
      (snapshotTimes sn).Pairwise (fun a b => a < b) ∧
      ∀ snap ∈ sn.written, snap = ⟨0, 0, u0⟩ ∨
        ∃ m sm, 1 ≤ m ∧ m ≤ n ∧ steps D si m (initialState u0 si) = .ok sm ∧
          snap.time = sm.t ∧ sm.t = (m : ℚ) * D.dt ∧ snap.data = sm.u := by
  have hstep : ∀ u upd, ∃ r, step D u upd = .ok r := fun u upd =>
    let ⟨w, hw, _⟩ := step_cube_ok D N u upd hN h00 h11 h01 hg
    ⟨_, hw⟩
  obtain ⟨sn, hs, hp, _, hall⟩ := steps_times D si u0 hstep hdt n
  obtain ⟨sn2, hs2, _, _, hh⟩ := steps_indices D si u0 hstep n
  rw [hs] at hs2
  cases hs2
  refine ⟨sn, hs, hh, hp, ?_⟩
  intro snap hsnap
  rcases hall snap hsnap with h | ⟨m, sm, h1, h2, h3, h4, h5⟩
  · exact Or.inl h
  · exact Or.inr ⟨m, sm, h1, h2, h3, h4, (steps_unique_clock D si u0 hstep m sm h3).1, h5⟩

/-- C16 at a concrete input: seven passes with `dt = 0.004` and save interval `0.01`. -/
theorem snapshots_time_ordered_witness :
    ∃ sn, steps (mainDriver exactEq (fun x => x * x / 2) (4 / 1000) (cubeGrid 2)) (1 / 100) 7 (initialState [1, 0] (1 / 100)) = .ok sn ∧
      sn.written.head? = some ⟨0, 0, [1, 0]⟩ ∧
      (snapshotTimes sn).Pairwise (fun a b => a < b) ∧
      ∀ snap ∈ sn.written, snap = ⟨0, 0, [1, 0]⟩ ∨
        ∃ m sm, 1 ≤ m ∧ m ≤ 7 ∧
          steps (mainDriver exactEq (fun x => x * x / 2) (4 / 1000) (cubeGrid 2)) (1 / 100) m (initialState [1, 0] (1 / 100)) = .ok sm ∧
          snap.time = sm.t ∧ sm.t = (m : ℚ) * (mainDriver exactEq (fun x => x * x / 2) (4 / 1000) (cubeGrid 2)).dt ∧ snap.data = sm.u :=
  snapshots_time_ordered (mainDriver exactEq (fun x => x * x / 2) (4 / 1000) (cubeGrid 2)) 2 [1, 0] (1 / 100) 7 (by decide) (by decide) (by decide)
    (by decide) rfl (by simp [mainDriver])

/-! ## The `.csv` export -/

theorem fields_flatMap {α : Type} (f : α → ℚ) (l : List α) :
    fields (l.flatMap (fun c => [CsvToken.sep, CsvToken.text (f c)]))
      = [] :: l.map (fun c => [f c]) := by
  induction l with
  | nil => rfl
  | cons a l ih =>
    have h : (a :: l).flatMap (fun c => [CsvToken.sep, CsvToken.text (f c)])
        = CsvToken.sep :: CsvToken.text (f a)
          :: l.flatMap (fun c => [CsvToken.sep, CsvToken.text (f c)]) := by
      simp [List.flatMap_cons]
    rw [h]
    simp only [fields, ih, List.map_cons]

/-- C17. Cell ordering of the exported snapshots: the first line of the `.csv` file has an
empty first field and then one cell centre per entity in grid-walk order; the lines after
it are the lines of the pairs of `solution` in their order; the fields of each such line
are the time and then one value per entity in grid-walk order, as many fields as the first
line has. -/
theorem csv_rows_follow_grid_walk (centers : List ℚ) (solution : List (ℚ × (Nat → ℚ))) :
    (writeCsv centers solution).head? = some (csvFirstLine centers) ∧
    (writeCsv centers solution).tail = solution.map (csvLine centers) ∧
    fields (csvFirstLine centers) = [] :: centers.map (fun c => [c]) ∧
    ∀ pair ∈ solution,
      fields (csvLine centers pair)
          = [pair.1] :: (List.range centers.length).map (fun i => [pair.2 i]) ∧
        (fields (csvLine centers pair)).length = (fields (csvFirstLine centers)).length ∧
        (fields (csvLine centers pair)).length = centers.length + 1 := by
  have hfirst : fields (csvFirstLine centers) = [] :: centers.map (fun c => [c]) :=
    fields_flatMap (fun c => c) centers
  have hline : ∀ pair : ℚ × (Nat → ℚ), fields (csvLine centers pair)
      = [pair.1] :: (List.range centers.length).map (fun i => [pair.2 i]) := by
    intro pair
    simp only [csvLine, fields, fields_flatMap (fun i => pair.2 i)]
  refine ⟨rfl, rfl, hfirst, ?_⟩
  intro pair _
  refine ⟨hline pair, ?_, ?_⟩
  · rw [hline pair, hfirst]
    simp
  · rw [hline pair]
    simp

/-- C18. Append-only snapshots: after every number of passes of the driver loop on the
cube grid the first written snapshot is `concentration_0` with the initial state, the
indices of the written snapshots are `0, 1, 2, ..` in the order of writing, without gap or
repetition, `save_step_counter` is the next unused index, and the next pass leaves the
written snapshots as they are and appends at most one. -/
theorem snapshot_indices_consecutive (D : Driver) (N : Nat) (u0 : List ℚ) (si : ℚ) (n : Nat)
    (hN : 0 < N) (h00 : D.eq 0 0 = true) (h11 : D.eq 1 1 = true) (h01 : D.eq 0 1 = false)
    (hg : D.grid_view = cubeGrid N) :
    ∃ sn sn1, steps D si n (initialState u0 si) = .ok sn ∧
      steps D si (n + 1) (initialState u0 si) = .ok sn1 ∧
      sn.written.head? = some ⟨0, 0, u0⟩ ∧
      snapshotIndices sn = List.range sn.written.length ∧
      (snapshotIndices sn).Nodup ∧
      sn.save_step_counter = sn.written.length ∧
      sn.written.length = 1 + recordedInLoop sn ∧
      ∃ l, sn1.written = sn.written ++ l ∧ l.length ≤ 1 ∧
        ∀ snap ∈ l, snap.index = sn.save_step_counter := by
  have hstep : ∀ u upd, ∃ r, step D u upd = .ok r := fun u upd =>
    let ⟨w, hw, _⟩ := step_cube_ok D N u upd hN h00 h11 h01 hg
    ⟨_, hw⟩
  obtain ⟨sn, hs, hc, hi, hh⟩ := steps_indices D si u0 hstep n
  obtain ⟨s1, hb, _, _, hyes, hno⟩ := loopBody_ok D si sn hstep
  have hs1 : steps D si (n + 1) (initialState u0 si) = .ok s1 := by
    rw [steps_succ_last, hs]
    exact hb
  have hpos : 0 < sn.written.length := by
    cases hw : sn.written with
    | nil => rw [hw] at hh; cases hh
    | cons a l => simp
  refine ⟨sn, s1, hs, hs1, hh, hi, by rw [hi]; exact List.nodup_range _, hc, ?_, ?_⟩
  · unfold recordedInLoop
    omega
  · by_cases h : sn.t + D.dt ≥ sn.saveStep
    · obtain ⟨_, _, h3⟩ := hyes h
      refine ⟨_, h3, by simp, ?_⟩
      intro snap hsnap
      simp only [List.mem_singleton] at hsnap
      rw [hsnap]
    · obtain ⟨_, _, h3⟩ := hno h
      exact ⟨[], by rw [h3, List.append_nil], by simp, by simp⟩

/-- C18 at a concrete input: seven passes with `dt = 0.004` and save interval `0.01`. -/
theorem snapshot_indices_consecutive_witness :
    ∃ sn sn1, steps (mainDriver exactEq (fun x => x * x / 2) (4 / 1000) (cubeGrid 2)) (1 / 100) 7 (initialState [1, 0] (1 / 100)) = .ok sn ∧
      steps (mainDriver exactEq (fun x => x * x / 2) (4 / 1000) (cubeGrid 2)) (1 / 100) (7 + 1) (initialState [1, 0] (1 / 100)) = .ok sn1 ∧
      sn.written.head? = some ⟨0, 0, [1, 0]⟩ ∧
      snapshotIndices sn = List.range sn.written.length ∧
      (snapshotIndices sn).Nodup ∧
      sn.save_step_counter = sn.written.length ∧
      sn.written.length = 1 + recordedInLoop sn ∧
      ∃ l, sn1.written = sn.written ++ l ∧ l.length ≤ 1 ∧
        ∀ snap ∈ l, snap.index = sn.save_step_counter :=
  snapshot_indices_consecutive (mainDriver exactEq (fun x => x * x / 2) (4 / 1000) (cubeGrid 2)) 2 [1, 0] (1 / 100) 7 (by decide) (by decide) (by decide)
    (by decide) rfl

/-! ## The problem `Spe10::Model1` and the example -/

theorem all_true_append (l1 l2 : List Bool) :
    (∀ b ∈ l1 ++ l2, b = true) ↔ (∀ b ∈ l1, b = true) ∧ ∀ b ∈ l2, b = true := by
  constructor
  · intro h
    exact ⟨fun b hb => h b (List.mem_append_left _ hb), fun b hb => h b (List.mem_append_right _ hb)⟩
  · rintro ⟨h1, h2⟩ b hb
    rcases List.mem_append.mp hb with h | h
    · exact h1 b h
    · exact h2 b h

/-- C19. Parametric problem structure: the expectations of `print_parameter_information`
all hold exactly when every parameter of the test case has the parameter type of the
problem, the diffusion factor is parametric and the diffusion tensor, the force, the
Dirichlet and the Neumann data are not.  `Spe10::Model1` built with `parametric = true`
has that structure, its diffusion factor and the problem depend on `mu` of size `1`, and
the expectations hold for it when every parameter has that type; built with
`parametric = false` its diffusion factor is not parametric either. -/
theorem parametric_problem_structure (model1_min_value model1_max_value : ℚ) (filename : String)
    (lower_left upper_right : DomainType) (channel_values force_values : Values)
    (problem : Problem) (parameters : List (String × Parameter)) :
    ((∀ b ∈ print_parameter_information problem parameters, b = true) ↔
      (∀ p ∈ parameters, p.2.type = problem.parameter_type) ∧
        problem.diffusion_factor.parametric = true ∧
        problem.diffusion_tensor.parametric = false ∧ problem.force.parametric = false ∧
        problem.dirichlet.parametric = false ∧ problem.neumann.parametric = false) ∧
    ((Model1 model1_min_value model1_max_value filename lower_left upper_right channel_values
          force_values true).diffusion_factor.parametric = true ∧
      (Model1 model1_min_value model1_max_value filename lower_left upper_right channel_values
          force_values true).diffusion_factor.parameter_type = [("mu", 1)] ∧
      (Model1 model1_min_value model1_max_value filename lower_left upper_right channel_values
          force_values true).parameter_type = [("mu", 1)] ∧
      (Model1 model1_min_value model1_max_value filename lower_left upper_right channel_values
          force_values true).diffusion_tensor.parametric = false ∧
      (Model1 model1_min_value model1_max_value filename lower_left upper_right channel_values
          force_values true).force.parametric = false ∧
      (Model1 model1_min_value model1_max_value filename lower_left upper_right channel_values
          force_values true).dirichlet.parametric = false ∧
      (Model1 model1_min_value model1_max_value filename lower_left upper_right channel_values
          force_values true).neumann.parametric = false ∧
      ((∀ p ∈ parameters, p.2.type = [("mu", 1)]) →
        ∀ b ∈ print_parameter_information
          (Model1 model1_min_value model1_max_value filename lower_left upper_right
            channel_values force_values true) parameters, b = true)) ∧
    ((Model1 model1_min_value model1_max_value filename lower_left upper_right channel_values
          force_values false).diffusion_factor.parametric = false ∧
      (Model1 model1_min_value model1_max_value filename lower_left upper_right channel_values
          force_values false).parameter_type = [] ∧
      (Model1 model1_min_value model1_max_value filename lower_left upper_right channel_values
          force_values false).diffusion_tensor.parametric = false ∧
      (Model1 model1_min_value model1_max_value filename lower_left upper_right channel_values
          force_values false).force.parametric = false ∧
      (Model1 model1_min_value model1_max_value filename lower_left upper_right channel_values
          force_values false).dirichlet.parametric = false ∧
      (Model1 model1_min_value model1_max_value filename lower_left upper_right channel_values
          force_values false).neumann.parametric = false) := by
  have hexp : ∀ (q : Problem) (ps : List (String × Parameter)),
      ((∀ b ∈ print_parameter_information q ps, b = true) ↔
        (∀ p ∈ ps, p.2.type = q.parameter_type) ∧
          q.diffusion_factor.parametric = true ∧
          q.diffusion_tensor.parametric = false ∧ q.force.parametric = false ∧
          q.dirichlet.parametric = false ∧ q.neumann.parametric = false) := by
    intro q ps
    unfold print_parameter_information
    rw [all_true_append]
    simp
  have hmu : (Model1 model1_min_value model1_max_value filename lower_left upper_right
      channel_values force_values true).parameter_type = [("mu", 1)] := by
    simp [Model1, Problem.Default, Problem.parameter_type, create_diffusion_factor,
      PymorFunction.register_component, PymorFunction.parameter_type]
  refine ⟨hexp problem parameters, ⟨?_, ?_, hmu, rfl, rfl, rfl, rfl, ?_⟩, ⟨?_, ?_, rfl, rfl, rfl, rfl⟩⟩
  · simp [Model1, Problem.Default, create_diffusion_factor, PymorFunction.register_component,
      PymorFunction.parameter_type, PymorFunction.parametric]
  · simp [Model1, Problem.Default, create_diffusion_factor, PymorFunction.register_component,
      PymorFunction.parameter_type]
  · intro hall
    rw [hexp, hmu]
    refine ⟨hall, ?_, rfl, rfl, rfl, rfl⟩
    simp [Model1, Problem.Default, create_diffusion_factor, PymorFunction.register_component,
      PymorFunction.parameter_type, PymorFunction.parametric]
  · simp [Model1, Problem.Default, create_diffusion_factor, PymorFunction.parameter_type,
      PymorFunction.parametric]
  · simp [Model1, Problem.Default, Problem.parameter_type, create_diffusion_factor,
      PymorFunction.parameter_type]

/-- C20. The method `visualize` of the generic example ends with `wrong_input_given`
(`Given filename prefix must not be empty!`) exactly when the given filename prefix is the
empty string, and then nothing has been handed to the two `visualize` calls; for every
other prefix it writes `.grid` and then `.problem` under that prefix. -/
theorem visualize_empty_prefix ( filename_prefix : String) :
    ((∃ e, (visualize filename_prefix).2 = .error e) ↔ filename_prefix = "") ∧
    ((visualize filename_prefix).2
        = .error (.wrong_input_given "Given filename prefix must not be empty!")
      ↔ filename_prefix = "") ∧
    ( filename_prefix = "" → (visualize filename_prefix).1 = []) ∧
    ( filename_prefix ≠ "" → visualize filename_prefix
        = ([ filename_prefix ++ ".grid", filename_prefix ++ ".problem"], .ok ())) := by
  by_cases h : filename_prefix = ""
  · subst h
    refine ⟨⟨fun _ => rfl, fun _ => ⟨_, rfl⟩⟩, ⟨fun _ => rfl, fun _ => rfl⟩, fun _ => rfl,
      fun h2 => absurd rfl h2⟩
  · have h2 : String.isEmpty filename_prefix = false := by
      cases h3 : String.isEmpty filename_prefix with
      | false => rfl
      | true => exact absurd ((String.isEmpty_iff _).mp h3) h
    have hv : visualize filename_prefix
        = ([ filename_prefix ++ ".grid", filename_prefix ++ ".problem"], .ok ()) := by
      unfold visualize
      rw [h2]
      rfl
    refine ⟨⟨?_, fun h3 => absurd h3 h⟩, ⟨?_, fun h3 => absurd h3 h⟩, fun h3 => absurd h3 h,
      fun _ => hv⟩
    · rintro ⟨e, he⟩
      rw [hv] at he
      cases he
    · intro he
      rw [hv] at he
      cases he

/-- C21. The method `project` of the generic example ends with `wrong_input_given`
(`Given expression must not be empty!`) exactly when the given expression is the empty
string; for every other expression it returns a vector with one entry per degree of
freedom of the ansatz space. -/
theorem project_empty_expression (ansatz_space_size : Nat) (apply_projection : String → Nat → ℚ)
    (expression : String) :
    ((∃ e, project ansatz_space_size apply_projection expression = .error e) ↔ expression = "") ∧
    (project ansatz_space_size apply_projection expression
        = .error (.wrong_input_given "Given expression must not be empty!")
      ↔ expression = "") ∧
    (expression ≠ "" → ∃ v, project ansatz_space_size apply_projection expression = .ok v ∧
      v.length = ansatz_space_size) := by
  by_cases h : expression = ""
  · subst h
    exact ⟨⟨fun _ => rfl, fun _ => ⟨_, rfl⟩⟩, ⟨fun _ => rfl, fun _ => rfl⟩, fun h2 => absurd rfl h2⟩
  · have h2 : String.isEmpty expression = false := by
      cases h3 : String.isEmpty expression with
      | false => rfl
      | true => exact absurd ((String.isEmpty_iff _).mp h3) h
    have hv : project ansatz_space_size apply_projection expression
        = .ok ((List.range ansatz_space_size).map (apply_projection expression)) := by
      unfold project
      rw [h2]
      rfl
    refine ⟨⟨?_, fun h3 => absurd h3 h⟩, ⟨?_, fun h3 => absurd h3 h⟩, fun _ => ⟨_, hv, by simp⟩⟩
    · rintro ⟨e, he⟩
      rw [hv] at he
      cases he
    · intro he
      rw [hv] at he
      cases he

/-! ## The snapshot policy for any step size -/

theorem loopBodyRounded_exact (fl : ℚ → ℚ) (hfl : ∀ x, fl x = x) (D : Driver) (si : ℚ)
    (s : LoopState) : loopBodyRounded fl D si s = loopBody D si s := by
  unfold loopBodyRounded loopBody
  cases step D s.u s.u_update with
  | error e => rfl
  | ok r => simp only [hfl]

theorem stepsRounded_exact (fl : ℚ → ℚ) (hfl : ∀ x, fl x = x) (D : Driver) (si : ℚ) :
    ∀ (n : Nat) (s : LoopState), stepsRounded fl D si n s = steps D si n s := by
  intro n
  induction n with
  | zero => intro s; rfl
  | succ n ih =>
    intro s
    simp only [stepsRounded, steps, loopBodyRounded_exact fl hfl]
    cases loopBody D si s with
    | error e => rfl
    | ok s1 => exact ih s1

theorem loopBodyRounded_ok (fl : ℚ → ℚ) (D : Driver) (si : ℚ) (s : LoopState)
    (hstep : ∀ u upd, ∃ r, step D u upd = .ok r) :
    ∃ s1, loopBodyRounded fl D si s = .ok s1 ∧
      (s1.t, s1.saveStep, s1.written.length)
        = clockRounded fl D.dt si (s.t, s.saveStep, s.written.length) ∧
      ((s1.written.length = s.written.length ∧ s1.saveStep = s.saveStep) ∨
        (s1.written.length = s.written.length + 1 ∧ s1.saveStep = fl (s.saveStep + si))) := by
  obtain ⟨r, hr⟩ := hstep s.u s.u_update
  unfold loopBodyRounded clockRounded
  rw [hr]
  by_cases h : fl (s.t + D.dt) ≥ s.saveStep
  · simp [h]
  · simp [h]

theorem stepsRounded_succ_last (fl : ℚ → ℚ) (D : Driver) (si : ℚ) :
    ∀ (n : Nat) (s : LoopState), stepsRounded fl D si (n + 1) s
      = match stepsRounded fl D si n s with
        | .error e => .error e
        | .ok s1 => loopBodyRounded fl D si s1 := by
  intro n
  induction n with
  | zero =>
    intro s
    simp only [stepsRounded]
    cases loopBodyRounded fl D si s <;> rfl
  | succ n ih =>
    intro s
    rw [stepsRounded]
    cases h : loopBodyRounded fl D si s with
    | error e => simp [stepsRounded, h]
    | ok s1 =>
      simp only []
      rw [ih s1]
      simp [stepsRounded, h]

theorem stepsRounded_clock (fl : ℚ → ℚ) (D : Driver) (si : ℚ)
    (hstep : ∀ u upd, ∃ r, step D u upd = .ok r) :
    ∀ (n : Nat) (s : LoopState), ∃ sn, stepsRounded fl D si n s = .ok sn ∧
      (sn.t, sn.saveStep, sn.written.length)
        = (clockRounded fl D.dt si)^[n] (s.t, s.saveStep, s.written.length) := by
  intro n
  induction n with
  | zero => intro s; exact ⟨s, rfl, rfl⟩
  | succ n ih =>
    intro s
    obtain ⟨s1, h1, hc, _⟩ := loopBodyRounded_ok fl D si s hstep
    obtain ⟨sn, hsn, hcn⟩ := ih s1
    refine ⟨sn, ?_, ?_⟩
    · simp only [stepsRounded, h1, hsn]
    · rw [hcn, hc, Function.iterate_succ_apply]

theorem stepsRounded_invariant (fl : ℚ → ℚ) (D : Driver) (si : ℚ) (u0 : List ℚ)
    (hstep : ∀ u upd, ∃ r, step D u upd = .ok r) :
    ∀ n : Nat, ∃ sn, stepsRounded fl D si n (initialState u0 si) = .ok sn ∧
      1 ≤ sn.written.length ∧ sn.written.length ≤ n + 1 ∧
      sn.saveStep = (fun x => fl (x + si))^[sn.written.length - 1] si := by
  intro n
  induction n with
  | zero => exact ⟨initialState u0 si, rfl, by simp [initialState], by simp [initialState], rfl⟩
  | succ n ih =>
    obtain ⟨sn, hsn, h1, h2, h3⟩ := ih
    obtain ⟨s1, hs1, _, hcase⟩ := loopBodyRounded_ok fl D si sn hstep
    refine ⟨s1, ?_, ?_, ?_, ?_⟩
    · rw [stepsRounded_succ_last, hsn]
      exact hs1
    · rcases hcase with ⟨hl, _⟩ | ⟨hl, _⟩ <;> omega
    · rcases hcase with ⟨hl, _⟩ | ⟨hl, _⟩ <;> omega
    · rcases hcase with ⟨hl, hs⟩ | ⟨hl, hs⟩
      · rw [hl, hs, h3]
      · rw [hl, hs, h3]
        have : sn.written.length + 1 - 1 = (sn.written.length - 1) + 1 := by omega
        rw [this, Function.iterate_succ_apply']

theorem iterate_add_exact (fl : ℚ → ℚ) (hfl : ∀ x, fl x = x) (si : ℚ) :
    ∀ k : Nat, (fun x => fl (x + si))^[k] si = (1 + (k : ℚ)) * si := by
  intro k
  induction k with
  | zero => simp
  | succ k ih =>
    rw [Function.iterate_succ_apply', ih, hfl]
    push_cast
    ring

/-- C23, as stated, fails on the doubles of the program: with `dt = 0.005` and
`saveInterval = 0.01` as doubles, after 11 passes of the loop 5 snapshots are recorded and
`saveStep`, `0.01` with `0.01` added five times, is the double `0.060000000000000005`; it
is neither `6 * saveInterval`, exactly or as a product of doubles, nor `6 * 0.01`. -/
theorem threshold_invariant_fails_in_doubles :
    ∃ sn, stepsRounded roundDouble
        (mainDriver exactEq (fun x => x * x / 2) (roundDouble (5 / 1000)) (cubeGrid 2))
        (roundDouble (1 / 100)) 11 (initialState [1, 0] (roundDouble (1 / 100))) = .ok sn ∧
      recordedInLoop sn = 5 ∧
      sn.saveStep = 8646911284551353 / 144115188075855872 ∧
      sn.saveStep ≠ (1 + (recordedInLoop sn : ℚ)) * roundDouble (1 / 100) ∧
      sn.saveStep ≠ roundDouble ((1 + (recordedInLoop sn : ℚ)) * roundDouble (1 / 100)) ∧
      sn.saveStep ≠ (1 + (recordedInLoop sn : ℚ)) * (1 / 100) := by
  have hstep : ∀ u upd, ∃ r, step (mainDriver exactEq (fun x => x * x / 2)
      (roundDouble (5 / 1000)) (cubeGrid 2)) u upd = .ok r := fun u upd =>
    let ⟨w, hw, _⟩ := step_cube_ok _ 2 u upd (by decide) (by decide) (by decide) (by decide) rfl
    ⟨_, hw⟩
  obtain ⟨sn, hsn, hc⟩ := stepsRounded_clock roundDouble _ (roundDouble (1 / 100)) hstep 11
    (initialState [1, 0] (roundDouble (1 / 100)))
  have hval : (clockRounded roundDouble (roundDouble (5 / 1000)) (roundDouble (1 / 100)))^[11]
      (0, roundDouble (1 / 100), 1)
      = (990791918021509 / 18014398509481984, 8646911284551353 / 144115188075855872, 6) := by
    decide!
  have hc2 : (sn.t, sn.saveStep, sn.written.length)
      = (990791918021509 / 18014398509481984, 8646911284551353 / 144115188075855872, 6) :=
    hc.trans hval
  have hsave : sn.saveStep = 8646911284551353 / 144115188075855872 :=
    congrArg (fun c => c.2.1) hc2
  have hlen : sn.written.length = 6 := congrArg (fun c => c.2.2) hc2
  have hrec : recordedInLoop sn = 5 := by
    unfold recordedInLoop
    rw [hlen]
  refine ⟨sn, hsn, hrec, hsave, ?_, ?_, ?_⟩
  · rw [hsave, hrec]
    decide!
  · rw [hsave, hrec]
    decide!
  · rw [hsave, hrec]
    decide!

/-- C23, amended. At most one snapshot per step, with the clock of the program: for every
rounding `fl` of the two additions on the clock (`roundDouble` for the doubles of the
program, the identity for exact arithmetic), every step size and every save interval `s`,
pass `n + 1` of the driver loop on the cube grid either records nothing and leaves
`saveStep` as it is, or records one snapshot and sets `saveStep` to the rounded sum
`fl (saveStep + s)`; after `n` passes at most `n` snapshots are recorded in the loop, and
`saveStep` is `s` with `s` added, and the sum rounded, once per recorded snapshot.  In
exact arithmetic, after the `n` passes of `loopBody`, at most `n` snapshots are recorded
and `saveStep = (1 + number of snapshots recorded in the loop) * s`. -/
theorem at_most_one_snapshot_per_step (fl : ℚ → ℚ) (D : Driver) (N : Nat) (u0 : List ℚ)
    (s : ℚ) (n : Nat)
    (hN : 0 < N) (h00 : D.eq 0 0 = true) (h11 : D.eq 1 1 = true) (h01 : D.eq 0 1 = false)
    (hg : D.grid_view = cubeGrid N) :
    ∃ sn sn1, stepsRounded fl D s n (initialState u0 s) = .ok sn ∧
      stepsRounded fl D s (n + 1) (initialState u0 s) = .ok sn1 ∧
      ((recordedInLoop sn1 = recordedInLoop sn ∧ sn1.saveStep = sn.saveStep) ∨
        (recordedInLoop sn1 = recordedInLoop sn + 1 ∧ sn1.saveStep = fl (sn.saveStep + s))) ∧
      recordedInLoop sn ≤ n ∧
      sn.saveStep = (fun x => fl (x + s))^[recordedInLoop sn] s ∧
      sn1.saveStep = (fun x => fl (x + s))^[recordedInLoop sn1] s ∧
      ∃ en, steps D s n (initialState u0 s) = .ok en ∧ recordedInLoop en ≤ n ∧
        en.saveStep = (1 + (recordedInLoop en : ℚ)) * s := by
  have hstep : ∀ u upd, ∃ r, step D u upd = .ok r := fun u upd =>
    let ⟨w, hw, _⟩ := step_cube_ok D N u upd hN h00 h11 h01 hg
    ⟨_, hw⟩
  obtain ⟨sn, hsn, h1, h2, h3⟩ := stepsRounded_invariant fl D s u0 hstep n
  obtain ⟨sn1, hsn1, h11, _, h13⟩ := stepsRounded_invariant fl D s u0 hstep (n + 1)
  obtain ⟨s1, hs1, _, hcase⟩ := loopBodyRounded_ok fl D s sn hstep
  have heq : s1 = sn1 := by
    have h := stepsRounded_succ_last fl D s n (initialState u0 s)
    rw [hsn, hsn1] at h
    have h4 : Except.ok sn1 = (Except.ok s1 : Except String LoopState) := h.trans hs1
    injection h4 with h5
    exact h5.symm
  subst heq
  refine ⟨sn, s1, hsn, hsn1, ?_, ?_, h3, h13, ?_⟩
  · unfold recordedInLoop
    rcases hcase with ⟨hl, hs⟩ | ⟨hl, hs⟩
    · left
      exact ⟨by rw [hl], hs⟩
    · right
      exact ⟨by omega, hs⟩
  · unfold recordedInLoop
    omega
  · obtain ⟨en, hen, _, he2, he3⟩ := stepsRounded_invariant (fun x => x) D s u0 hstep n
    refine ⟨en, ?_, ?_, ?_⟩
    · rw [← stepsRounded_exact (fun x => x) (fun _ => rfl)]
      exact hen
    · unfold recordedInLoop
      omega
    · rw [he3]
      exact iterate_add_exact (fun x => x) (fun _ => rfl) s _

/-- C23, amended, at the doubles of the program: `dt = 0.005`, `saveInterval = 0.01`,
two cells, passes 3 and 4. -/
theorem at_most_one_snapshot_per_step_witness :
    ∃ sn sn1, stepsRounded roundDouble
        (mainDriver exactEq (fun x => x * x / 2) (roundDouble (5 / 1000)) (cubeGrid 2))
        (roundDouble (1 / 100)) 3 (initialState [1, 0] (roundDouble (1 / 100))) = .ok sn ∧
      stepsRounded roundDouble
        (mainDriver exactEq (fun x => x * x / 2) (roundDouble (5 / 1000)) (cubeGrid 2))
        (roundDouble (1 / 100)) (3 + 1) (initialState [1, 0] (roundDouble (1 / 100)))
          = .ok sn1 ∧
      ((recordedInLoop sn1 = recordedInLoop sn ∧ sn1.saveStep = sn.saveStep) ∨
        (recordedInLoop sn1 = recordedInLoop sn + 1 ∧
          sn1.saveStep = roundDouble (sn.saveStep + roundDouble (1 / 100)))) ∧
      recordedInLoop sn ≤ 3 ∧
      sn.saveStep
        = (fun x => roundDouble (x + roundDouble (1 / 100)))^[recordedInLoop sn]
            (roundDouble (1 / 100)) ∧
      sn1.saveStep
        = (fun x => roundDouble (x + roundDouble (1 / 100)))^[recordedInLoop sn1]
            (roundDouble (1 / 100)) ∧
      ∃ en, steps
          (mainDriver exactEq (fun x => x * x / 2) (roundDouble (5 / 1000)) (cubeGrid 2))
          (roundDouble (1 / 100)) 3 (initialState [1, 0] (roundDouble (1 / 100))) = .ok en ∧
        recordedInLoop en ≤ 3 ∧
        en.saveStep = (1 + (recordedInLoop en : ℚ)) * roundDouble (1 / 100) :=
  at_most_one_snapshot_per_step roundDouble
    (mainDriver exactEq (fun x => x * x / 2) (roundDouble (5 / 1000)) (cubeGrid 2)) 2 [1, 0]
    (roundDouble (1 / 100)) 3 (by decide) (by decide) (by decide) (by decide) rfl

/-! ## The Lax-Friedrichs coefficient and the save interval -/

theorem foldl_max_ge (l : List ℚ) : ∀ a, a ≤ l.foldl max a ∧ ∀ x ∈ l, x ≤ l.foldl max a := by
  induction l with
  | nil => intro a; simp
  | cons y l ih =>
    intro a
    obtain ⟨h1, h2⟩ := ih (max a y)
    rw [List.foldl_cons]
    refine ⟨le_trans (le_max_left a y) h1, ?_⟩
    intro x hx
    rcases List.mem_cons.mp hx with rfl | hx2
    · exact le_trans (le_max_right a x) h1
    · exact h2 x hx2

theorem foldl_max_mem (l : List ℚ) : ∀ a, l.foldl max a = a ∨ l.foldl max a ∈ l := by
  induction l with
  | nil => intro a; simp
  | cons y l ih =>
    intro a
    rw [List.foldl_cons]
    rcases ih (max a y) with h | h
    · rcases max_choice a y with h2 | h2
      · left; rw [h, h2]
      · right; rw [h, h2]; exact List.mem_cons_self _ _
    · right
      exact List.mem_cons_of_mem _ h

/-- C24. Lax-Friedrichs coefficient: the local operator of the driver of `main` is the
Lax-Friedrichs operator with the one coefficient `dt/dx` for every pair of local functions
and every intersection, where `dx = entity_width_max` is at least every cell width of the
grid view and is the width of one of its cells when these are positive; the driver, and
with it the coefficient, is the same in every pass of the loop body; on the `N`-cell cube
grid `dx = 1/N`. -/
theorem laxFriedrichs_coefficient (eq : ℚ → ℚ → Bool) (F : ℚ → ℚ) (dt : ℚ) (grid_view : GridView) :
    (∀ (u_i u_j : LocalFunction) (i : Intersection),
      (mainDriver eq F dt grid_view).local_operator u_i u_j i
        = LaxFriedrichsFlux F (dt / entity_width_max grid_view) u_i.value u_j.value
            i.unitOuterNormal / u_i.entity.volume) ∧
    (∀ e ∈ grid_view, e.volume ≤ entity_width_max grid_view) ∧
    ((∃ e ∈ grid_view, 0 < e.volume) → ∃ e ∈ grid_view, e.volume = entity_width_max grid_view) ∧
    (∀ (si : ℚ) (n : Nat) (s0 : LoopState),
      steps (mainDriver eq F dt grid_view) si (n + 1) s0
        = match steps (mainDriver eq F dt grid_view) si n s0 with
          | .error e => .error e
          | .ok s1 => loopBody (mainDriver eq F dt grid_view) si s1) ∧
    (∀ N, 0 < N → entity_width_max (cubeGrid N) = 1 / (N : ℚ)) := by
  refine ⟨fun _ _ _ => rfl, ?_, ?_, fun si n s0 => steps_succ_last _ si n s0,
    fun N hN => entity_width_max_cube N hN⟩
  · intro e he
    exact (foldl_max_ge (grid_view.map Entity.volume) 0).2 e.volume (List.mem_map_of_mem _ he)
  · rintro ⟨e, he, hpos⟩
    rcases foldl_max_mem (grid_view.map Entity.volume) 0 with h | h
    · exfalso
      have h2 := (foldl_max_ge (grid_view.map Entity.volume) 0).2 e.volume
        (List.mem_map_of_mem _ he)
      rw [h] at h2
      linarith
    · obtain ⟨e2, he2, h3⟩ := List.mem_map.mp h
      exact ⟨e2, he2, h3⟩

/-- C25. Save interval of the two-beams driver: the interval handed to the time stepper is
`max(t_end/1000, dt)`, at least `dt` and at least `t_end/1000`; for `t_end = 2` and
`dt = 0.0005` it is `0.002`. -/
theorem twobeams_save_interval (t_end dt : ℚ) :
    twobeams_saveInterval t_end dt = max (t_end / 1000) dt ∧
    dt ≤ twobeams_saveInterval t_end dt ∧
    t_end / 1000 ≤ twobeams_saveInterval t_end dt ∧
    twobeams_saveInterval twobeams_t_end twobeams_dt = 2 / 1000 := by
  have h : twobeams_saveInterval t_end dt = max (t_end / 1000) dt := by
    unfold twobeams_saveInterval
    by_cases h1 : t_end / 1000 > dt
    · rw [if_pos h1, max_eq_left (le_of_lt h1)]
    · rw [if_neg h1, max_eq_right (not_lt.mp h1)]
  refine ⟨h, ?_, ?_, ?_⟩
  · rw [h]; exact le_max_right _ _
  · rw [h]; exact le_max_left _ _
  · norm_num [twobeams_saveInterval, twobeams_t_end, twobeams_dt]

/-! ## Configuration trees -/

theorem dropKey_append (name k : Key) : dropKey name (name ++ k) = some k := by
  induction name with
  | nil => rfl
  | cons a name ih => simp [dropKey, ih]

theorem subEntry_nested (name k : Key) (v : String) (hk : k ≠ []) :
    subEntry name (name ++ k, v) = some (k, v) := by
  unfold subEntry
  simp only [dropKey_append]
  cases k with
  | nil => exact absurd rfl hk
  | cons a k => rfl

theorem sub_nested (c : Configuration) (name : Key) (hc : ∀ e ∈ c, e.1 ≠ []) :
    (nested c name).sub name = c := by
  unfold Configuration.sub nested
  induction c with
  | nil => rfl
  | cons e c ih =>
    have he : e.1 ≠ [] := hc e (List.mem_cons_self _ _)
    have ih2 := ih (fun x hx => hc x (List.mem_cons_of_mem _ hx))
    simp only [List.map_cons, List.filterMap_cons, subEntry_nested name e.1 e.2 he, ih2]

theorem has_sub_false (cfg : Configuration) (name : Key) (h : cfg.has_sub name = false) :
    cfg.sub name = [] := by
  unfold Configuration.has_sub at h
  unfold Configuration.sub
  induction cfg with
  | nil => rfl
  | cons e cfg ih =>
    simp only [List.any_cons, Bool.or_eq_false_iff] at h
    obtain ⟨h1, h2⟩ := h
    have h3 : subEntry name e = none := by
      cases hs : subEntry name e with
      | none => rfl
      | some x => rw [hs] at h1; cases h1
    simp only [List.filterMap_cons, h3, ih h2]

/-- Descending into the sub-tree `name` of a configuration nested under `name` gives the
configuration back. -/
theorem descend_nested (c : Configuration) (name : Key) (hc : ∀ e ∈ c, e.1 ≠ []) :
    (if (nested c name).has_sub name then (nested c name).sub name else nested c name) = c := by
  by_cases h : (nested c name).has_sub name = true
  · rw [if_pos h, sub_nested c name hc]
  · have h2 : (nested c name).has_sub name = false := by simpa using h
    have h3 := has_sub_false _ _ h2
    rw [sub_nested c name hc] at h3
    subst h3
    rw [if_neg h]
    rfl

theorem has_key_false_iff (cfg : Configuration) (key : Key) :
    cfg.has_key key = false ↔ key ∉ cfg.map Prod.fst := by
  unfold Configuration.has_key
  induction cfg with
  | nil => simp
  | cons e cfg ih =>
    simp only [List.any_cons, Bool.or_eq_false_iff, ih, List.map_cons, List.mem_cons, not_or,
      decide_eq_false_iff_not]
    constructor
    · rintro ⟨h1, h2⟩
      exact ⟨fun h => h1 h.symm, h2⟩
    · rintro ⟨h1, h2⟩
      exact ⟨fun h => h1 h.symm, h2⟩

theorem set_keys (cfg : Configuration) (key : Key) (value : String) :
    (cfg.set key value).map Prod.fst =
      if cfg.has_key key then cfg.map Prod.fst else cfg.map Prod.fst ++ [key] := by
  unfold Configuration.set
  by_cases h : cfg.has_key key = true
  · rw [if_pos h, if_pos h, List.map_map]
    apply List.map_congr_left
    intro e _
    simp only [Function.comp]
    split_ifs with h2
    · exact h2.symm
    · rfl
  · rw [if_neg h, if_neg h]
    simp

theorem wellFormed_set (cfg : Configuration) (key : Key) (value : String)
    (h : WellFormed cfg) (hk : key ≠ []) : WellFormed (cfg.set key value) := by
  obtain ⟨h1, h2⟩ := h
  constructor
  · rw [set_keys]
    by_cases h3 : cfg.has_key key = true
    · rw [if_pos h3]
      exact h1
    · rw [if_neg h3]
      have h4 : cfg.has_key key = false := by simpa using h3
      rw [has_key_false_iff] at h4
      rw [List.nodup_append]
      refine ⟨h1, by simp, ?_⟩
      intro a ha hb
      simp only [List.mem_singleton] at hb
      subst hb
      exact h4 ha
  · intro e he
    unfold Configuration.set at he
    split_ifs at he
    · obtain ⟨x, hx, rfl⟩ := List.mem_map.mp he
      split_ifs
      · exact hk
      · exact h2 x hx
    · rcases List.mem_append.mp he with h5 | h5
      · exact h2 e h5
      · simp only [List.mem_singleton] at h5
        rw [h5]
        exact hk

theorem wellFormed_add (other : Configuration) (sub_id : Key) (hs : sub_id ≠ []) :
    ∀ cfg : Configuration, WellFormed cfg → WellFormed (cfg.add other sub_id) := by
  unfold Configuration.add
  induction other with
  | nil => intro cfg h; exact h
  | cons e other ih =>
    intro cfg h
    rw [List.foldl_cons]
    apply ih
    apply wellFormed_set _ _ _ h
    intro h2
    exact hs (List.append_eq_nil.mp h2).1

theorem add_fresh (name : Key) : ∀ (l acc : Configuration),
    (acc.map Prod.fst ++ (nested l name).map Prod.fst).Nodup →
      Configuration.add acc l name = acc ++ nested l name := by
  unfold Configuration.add
  intro l
  induction l with
  | nil => intro acc _; simp [nested]
  | cons e l ih =>
    intro acc h
    have hfresh : acc.has_key (name ++ e.1) = false := by
      rw [has_key_false_iff]
      intro hmem
      rw [List.nodup_append] at h
      exact h.2.2 hmem (by simp [nested])
    have hset : acc.set (name ++ e.1) e.2 = acc ++ [(name ++ e.1, e.2)] := by
      unfold Configuration.set
      rw [hfresh]
      rfl
    rw [List.foldl_cons, hset, ih (acc ++ [(name ++ e.1, e.2)])]
    · simp [nested]
    · simpa [nested] using h

/-- Adding a well-formed configuration under `name` to an empty tree nests it. -/
theorem add_nil (c : Configuration) (name : Key) (h : WellFormed c) :
    Configuration.add [] c name = nested c name := by
  rw [add_fresh name c []]
  · rfl
  · simp only [List.map_nil, List.nil_append, nested, List.map_map]
    have : (Prod.fst ∘ fun e : Key × String => (name ++ e.1, e.2))
        = (fun k => name ++ k) ∘ Prod.fst := by
      funext e
      rfl
    rw [this, ← List.map_map]
    exact h.1.map (fun a b hab => List.append_cancel_left hab)

/-! ## The loop of `get_values` -/

theorem get_values_loop_spec (P : FromString) (sub_cfg : Configuration) :
    ∀ (m cc : Nat) (values : Values) (fuel : Nat),
      (∀ k, cc ≤ k → k < cc + m → completeEntry sub_cfg k = true) →
      completeEntry sub_cfg (cc + m) = false → m < fuel →
      get_values_loop P sub_cfg fuel cc values
        = some (values ++ (List.range' cc m).map
            (fun k => valueTuple P (sub_cfg.sub [toString k]))) := by
  intro m
  induction m with
  | zero =>
    intro cc values fuel _ hstop hf
    cases fuel with
    | zero => omega
    | succ f =>
      simp only [completeEntry, Nat.add_zero] at hstop
      unfold get_values_loop
      by_cases h1 : sub_cfg.has_sub [toString cc] = true
      · rw [h1] at hstop
        simp only [Bool.true_and] at hstop
        simp [h1, hstop]
      · simp [h1]
  | succ m ih =>
    intro cc values fuel hall hstop hf
    cases fuel with
    | zero => omega
    | succ f =>
      have hc := hall cc le_rfl (by omega)
      simp only [completeEntry, Bool.and_eq_true] at hc
      obtain ⟨h1, h2, h3⟩ := hc
      unfold get_values_loop
      simp only [h1, h2, h3, Bool.and_self, if_true]
      rw [ih (cc + 1) _ f (fun k hk1 hk2 => hall k (by omega) (by omega))
        (by rw [show cc + 1 + m = cc + (m + 1) by omega]; exact hstop) (by omega)]
      simp [List.range'_succ]

/-- The values `get_values` returns: the tuples of the entries `0` to `m - 1`, where `m`
is the first index that is not a complete entry. -/
theorem get_values_spec (P : FromString) (cfg : Configuration) (id : Key) (m fuel : Nat)
    (hall : ∀ k, k < m → completeEntry (cfg.sub id) k = true)
    (hstop : completeEntry (cfg.sub id) m = false) (hf : m < fuel) :
    get_values P fuel cfg id
      = some ((List.range m).map (fun k => valueTuple P ((cfg.sub id).sub [toString k]))) := by
  unfold get_values
  by_cases h : cfg.has_sub id = true
  · rw [if_pos h, get_values_loop_spec P (cfg.sub id) m 0 [] fuel
      (fun k _ hk => hall k (by omega)) (by rw [Nat.zero_add]; exact hstop) hf,
      List.range_eq_range']
    rfl
  · rw [if_neg h]
    have h2 : cfg.has_sub id = false := by simpa using h
    have h3 := has_sub_false cfg id h2
    have hm : m = 0 := by
      by_contra hne
      have h4 := hall 0 (by omega)
      rw [h3] at h4
      simp [completeEntry, Configuration.has_sub] at h4
    subst hm
    rfl

theorem get_values_loop_appends (P : FromString) (sub_cfg : Configuration) :
    ∀ (fuel cc : Nat) (values r : Values),
      get_values_loop P sub_cfg fuel cc values = some r → ∃ l, r = values ++ l := by
  intro fuel
  induction fuel with
  | zero =>
    intro cc values r h
    simp [get_values_loop] at h
  | succ fuel ih =>
    intro cc values r h
    unfold get_values_loop at h
    simp only [] at h
    split_ifs at h
    · obtain ⟨l, hl⟩ := ih _ _ _ h
      exact ⟨valueTuple P (sub_cfg.sub [toString cc]) :: l, by rw [hl]; simp⟩
    · cases h
      exact ⟨[], by simp⟩
    · cases h
      exact ⟨[], by simp⟩

theorem default_sub_channel (model1_filename : String) :
    (Spe10.default_config model1_filename []).sub ["channel"] = Spe10.stream.sub ["channel"] := by
  rfl

theorem default_sub_forces (model1_filename : String) :
    (Spe10.default_config model1_filename []).sub ["forces"] = Spe10.stream.sub ["forces"] := by
  rfl

theorem stream_channel_complete :
    (∀ k, k < 33 → completeEntry (Spe10.stream.sub ["channel"]) k = true) ∧
      completeEntry (Spe10.stream.sub ["channel"]) 33 = false := by
  decide

theorem stream_forces_complete :
    (∀ k, k < 3 → completeEntry (Spe10.stream.sub ["forces"]) k = true) ∧
      completeEntry (Spe10.stream.sub ["forces"]) 3 = false := by
  decide

/-- C22. The constructor of `DiscreteProblems::Thermalblock` ends with
`configuration_error` (`Missing sub ..`) exactly when the loaded configuration has no
sub-tree `id`, and then nothing has been created; when the sub-tree exists `filename_` is
the value under `<id>.filename` if there is one and the name `id` otherwise. -/
theorem thermalblock_missing_sub (print : Configuration → String) (config_ : Configuration)
    (id : Key) (visualize : Bool) :
    ((∃ what, (DiscreteProblems.Thermalblock print config_ id visualize).2
        = .error (.configuration_error what)) ↔ config_.has_sub id = false) ∧
    ((∃ e, (DiscreteProblems.Thermalblock print config_ id visualize).2 = .error e)
      ↔ config_.has_sub id = false) ∧
    (config_.has_sub id = false →
      DiscreteProblems.Thermalblock print config_ id visualize
        = ([], .error (.configuration_error
            ("Missing sub '" ++ keyName id ++ "' in the following ConfigTree:\n\n"
              ++ print config_)))) ∧
    (config_.has_sub id = true →
      (∀ value, config_.get? (id ++ ["filename"]) = some value →
        (DiscreteProblems.Thermalblock print config_ id visualize).2 = .ok value) ∧
      (config_.get? (id ++ ["filename"]) = none →
        (DiscreteProblems.Thermalblock print config_ id visualize).2 = .ok (keyName id))) := by
  by_cases h : config_.has_sub id = true
  · have hv : (DiscreteProblems.Thermalblock print config_ id visualize).2
        = .ok (config_.get (id ++ ["filename"]) (keyName id)) := by
      simp [DiscreteProblems.Thermalblock, h]
    refine ⟨⟨?_, fun h2 => ?_⟩, ⟨?_, fun h2 => ?_⟩, fun h2 => ?_, fun _ => ⟨?_, ?_⟩⟩
    · rintro ⟨w, hw⟩
      rw [hv] at hw
      cases hw
    · rw [h] at h2
      cases h2
    · rintro ⟨e, he⟩
      rw [hv] at he
      cases he
    · rw [h] at h2
      cases h2
    · rw [h] at h2
      cases h2
    · intro value hval
      rw [hv]
      simp [Configuration.get, hval]
    · intro hnone
      rw [hv]
      simp [Configuration.get, hnone]
  · have h2 : config_.has_sub id = false := by simpa using h
    have hv : DiscreteProblems.Thermalblock print config_ id visualize
        = ([], .error (.configuration_error
            ("Missing sub '" ++ keyName id ++ "' in the following ConfigTree:\n\n"
              ++ print config_))) := by
      simp [DiscreteProblems.Thermalblock, h2]
    refine ⟨⟨fun _ => h2, fun _ => ⟨_, by rw [hv]⟩⟩, ⟨fun _ => h2, fun _ => ⟨_, by rw [hv]⟩⟩,
      fun _ => hv, fun h3 => absurd h3 h⟩

/-! ## The diffusion factor of `Model1` at a parameter -/

theorem indicator_outside (values : Values) (x : DomainType)
    (h : ∀ t ∈ values, inDomain x t.1 t.2.1 = false) : indicator values x = 0 := by
  unfold indicator
  have : values.find? (fun t => inDomain x t.1 t.2.1) = none := by
    rw [List.find?_eq_none]
    intro t ht
    simp [h t ht]
  rw [this]

/-- C26. Diffusion factor of `Model1`, parametric versus fixed: for every list of channel
values, every point `x` and every reader of expressions that reads `-1.0*mu` at
`mu = 1/10` as `-1/10`, the parametric diffusion factor at `mu = 1/10` has the value of
the non-parametric one, `1 + 0.9 * channel(x)`; both are `1` where no channel domain holds
`x`. -/
theorem diffusion_factor_parametric_vs_fixed (permeability : DomainType → ℚ)
    (evaluate_expression : String → List ℚ → ℚ) (values : Values) (x : DomainType)
    (mu0 : Parameter)
    (hexpr : evaluate_expression "-1.0*mu" [1 / 10] = -1 * (1 / 10)) :
    (create_diffusion_factor values true).evaluate permeability evaluate_expression
        ⟨[("mu", [1 / 10])]⟩ x
      = (create_diffusion_factor values false).evaluate permeability evaluate_expression mu0 x ∧
    (create_diffusion_factor values false).evaluate permeability evaluate_expression mu0 x
      = 1 + 9 / 10 * indicator values x ∧
    ((∀ t ∈ values, inDomain x t.1 t.2.1 = false) →
      (create_diffusion_factor values true).evaluate permeability evaluate_expression
          ⟨[("mu", [1 / 10])]⟩ x = 1 ∧
      (create_diffusion_factor values false).evaluate permeability evaluate_expression mu0 x
        = 1) := by
  have h1 : (create_diffusion_factor values true).evaluate permeability evaluate_expression
      ⟨[("mu", [1 / 10])]⟩ x = 1 + indicator values x + -1 * (1 / 10) * indicator values x := by
    simp only [create_diffusion_factor, PymorFunction.register_component, PymorFunction.evaluate,
      StuffFunction.evaluate, ParameterFunctional.evaluate, List.lookup, if_true,
      List.nil_append, List.map_cons, List.map_nil, List.sum_cons, List.sum_nil, add_zero,
      Option.getD_some, beq_self_eq_true, hexpr]
  have h2 : (create_diffusion_factor values false).evaluate permeability evaluate_expression
      mu0 x = 1 + 9 / 10 * indicator values x := by
    simp [create_diffusion_factor, PymorFunction.evaluate, StuffFunction.evaluate]
  refine ⟨?_, h2, ?_⟩
  · rw [h1, h2]
    ring
  · intro hout
    rw [h1, h2, indicator_outside values x hout]
    constructor <;> norm_num

/-- C26 at a concrete input: one channel box, a point inside it. -/
theorem diffusion_factor_parametric_vs_fixed_witness :
    (create_diffusion_factor [((0, 0), (1, 1), 5)] true).evaluate (fun _ => 0) channelExpression
        ⟨[("mu", [1 / 10])]⟩ (1 / 2, 1 / 2)
      = (create_diffusion_factor [((0, 0), (1, 1), 5)] false).evaluate (fun _ => 0)
          channelExpression ⟨[]⟩ (1 / 2, 1 / 2) ∧
    (create_diffusion_factor [((0, 0), (1, 1), 5)] false).evaluate (fun _ => 0)
        channelExpression ⟨[]⟩ (1 / 2, 1 / 2)
      = 1 + 9 / 10 * indicator [((0, 0), (1, 1), 5)] (1 / 2, 1 / 2) ∧
    ((∀ t ∈ [(((0 : ℚ), (0 : ℚ)), ((1 : ℚ), (1 : ℚ)), (5 : ℚ))],
        inDomain (1 / 2, 1 / 2) t.1 t.2.1 = false) →
      (create_diffusion_factor [((0, 0), (1, 1), 5)] true).evaluate (fun _ => 0)
          channelExpression ⟨[("mu", [1 / 10])]⟩ (1 / 2, 1 / 2) = 1 ∧
      (create_diffusion_factor [((0, 0), (1, 1), 5)] false).evaluate (fun _ => 0)
          channelExpression ⟨[]⟩ (1 / 2, 1 / 2) = 1) :=
  diffusion_factor_parametric_vs_fixed (fun _ => 0) channelExpression [((0, 0), (1, 1), 5)]
    (1 / 2, 1 / 2) ⟨[]⟩ (by simp [channelExpression])

/-! ## The values of the default configuration of `Model1` -/

theorem default_channel_values (P : FromString) (model1_filename : String) :
    get_values P 34 (Spe10.default_config model1_filename []) ["channel"]
      = some ((List.range 33).map
          (fun k => valueTuple P ((Spe10.stream.sub ["channel"]).sub [toString k]))) := by
  have h := get_values_spec P (Spe10.default_config model1_filename []) ["channel"] 33 34
    (by rw [default_sub_channel]; exact stream_channel_complete.1)
    (by rw [default_sub_channel]; exact stream_channel_complete.2) (by omega)
  rw [default_sub_channel] at h
  exact h

theorem default_forces_values (P : FromString) (model1_filename : String) :
    get_values P 4 (Spe10.default_config model1_filename []) ["forces"]
      = some ((List.range 3).map
          (fun k => valueTuple P ((Spe10.stream.sub ["forces"]).sub [toString k]))) := by
  have h := get_values_spec P (Spe10.default_config model1_filename []) ["forces"] 3 4
    (by rw [default_sub_forces]; exact stream_forces_complete.1)
    (by rw [default_sub_forces]; exact stream_forces_complete.2) (by omega)
  rw [default_sub_forces] at h
  exact h

theorem get?_of_has_key (cfg : Configuration) (key : Key) (h : cfg.has_key key = true) :
    ∃ v, cfg.get? key = some v := by
  unfold Configuration.has_key at h
  unfold Configuration.get?
  cases hfind : cfg.find? (fun e => decide (e.1 = key)) with
  | none =>
    rw [List.find?_eq_none] at hfind
    obtain ⟨e, he, hp⟩ := List.any_eq_true.mp h
    exact absurd hp (hfind e he)
  | some e => exact ⟨e.2, rfl⟩

theorem valueTuple_of_get? (P : FromString) (local_cfg : Configuration) (dom val : String)
    (hd : local_cfg.get? ["domain"] = some dom) (hv : local_cfg.get? ["value"] = some val) :
    valueTuple P local_cfg
      = (((P.matrix dom).1.1, (P.matrix dom).2.1), ((P.matrix dom).1.2, (P.matrix dom).2.2),
          P.number val) := by
  unfold valueTuple Configuration.get
  rw [hd, hv]
  rfl

theorem complete_entry_keys (sub_cfg : Configuration) (k : Nat)
    (h : completeEntry sub_cfg k = true) :
    ∃ dom val, (sub_cfg.sub [toString k]).get? ["domain"] = some dom ∧
      (sub_cfg.sub [toString k]).get? ["value"] = some val := by
  unfold completeEntry at h
  simp only [Bool.and_eq_true] at h
  obtain ⟨dom, hd⟩ := get?_of_has_key _ _ h.2.1
  obtain ⟨val, hv⟩ := get?_of_has_key _ _ h.2.2
  exact ⟨dom, val, hd, hv⟩

/-- C27. The function `get_values` reads a longest complete leading run: if the entries
`0` to `m - 1` of the sub-tree `id` are there with the keys `domain` and `value` and entry
`m` is missing or lacks one of the keys, then with any fuel above `m` it returns exactly
`m` tuples, and tuple `k` is read from entry `k`: with `dom` and `val` the values stored
under `<id>.<k>.domain` and `<id>.<k>.value`, it is the tuple of the corners and the
number read from them.  The entries from `m` on have no part in the result.  It returns
the empty list when the sub-tree `id` is absent.  For the default configuration it returns
33 channel tuples and the 3 force tuples of `forces.0`, `forces.1` and `forces.2`. -/
theorem get_values_longest_complete (P : FromString) (cfg : Configuration) (id : Key)
    (m fuel : Nat) (hall : ∀ k, k < m → completeEntry (cfg.sub id) k = true)
    (hstop : completeEntry (cfg.sub id) m = false) (hf : m < fuel) :
    (∃ vs, get_values P fuel cfg id = some vs ∧ vs.length = m ∧
      ∀ k, k < m → ∃ dom val,
        ((cfg.sub id).sub [toString k]).get? ["domain"] = some dom ∧
        ((cfg.sub id).sub [toString k]).get? ["value"] = some val ∧
        vs[k]? = some (((P.matrix dom).1.1, (P.matrix dom).2.1),
          ((P.matrix dom).1.2, (P.matrix dom).2.2), P.number val)) ∧
    (∀ cfg2 : Configuration, cfg2.has_sub id = false → get_values P fuel cfg2 id = some []) ∧
    (∀ model1_filename : String,
      (get_values P 34 (Spe10.default_config model1_filename []) ["channel"]).map List.length
          = some 33 ∧
        get_values P 4 (Spe10.default_config model1_filename []) ["forces"]
          = some [
            (((P.matrix "[0.95 1.10; 0.30 0.45]").1.1, (P.matrix "[0.95 1.10; 0.30 0.45]").2.1),
              ((P.matrix "[0.95 1.10; 0.30 0.45]").1.2, (P.matrix "[0.95 1.10; 0.30 0.45]").2.2),
              P.number "2"),
            (((P.matrix "[3.00 3.15; 0.75 0.90]").1.1, (P.matrix "[3.00 3.15; 0.75 0.90]").2.1),
              ((P.matrix "[3.00 3.15; 0.75 0.90]").1.2, (P.matrix "[3.00 3.15; 0.75 0.90]").2.2),
              P.number "-1"),
            (((P.matrix "[4.25 4.40; 0.25 0.40]").1.1, (P.matrix "[4.25 4.40; 0.25 0.40]").2.1),
              ((P.matrix "[4.25 4.40; 0.25 0.40]").1.2, (P.matrix "[4.25 4.40; 0.25 0.40]").2.2),
              P.number "-1")]) := by
  refine ⟨⟨_, get_values_spec P cfg id m fuel hall hstop hf, by simp, ?_⟩, ?_, ?_⟩
  · intro k hk
    obtain ⟨dom, val, hd, hv⟩ := complete_entry_keys (cfg.sub id) k (hall k hk)
    refine ⟨dom, val, hd, hv, ?_⟩
    rw [List.getElem?_map, List.getElem?_range hk]
    simp only [Option.map_some', valueTuple_of_get? P _ dom val hd hv]
  · intro cfg2 h2
    unfold get_values
    rw [h2]
    rfl
  · intro fn
    rw [default_channel_values, default_forces_values]
    refine ⟨by simp, ?_⟩
    have h0 := valueTuple_of_get? P ((Spe10.stream.sub ["forces"]).sub [toString 0])
      "[0.95 1.10; 0.30 0.45]" "2" (by decide) (by decide)
    have h1 := valueTuple_of_get? P ((Spe10.stream.sub ["forces"]).sub [toString 1])
      "[3.00 3.15; 0.75 0.90]" "-1" (by decide) (by decide)
    have h2 := valueTuple_of_get? P ((Spe10.stream.sub ["forces"]).sub [toString 2])
      "[4.25 4.40; 0.25 0.40]" "-1" (by decide) (by decide)
    simp only [List.range, List.range.loop, List.map_cons, List.map_nil, h0, h1, h2]

/-- C27 at a concrete input: entry `1` is missing, so the complete entry `2` is ignored
and the one tuple returned is that of entry `0`. -/
theorem get_values_longest_complete_witness :
    ((∃ vs, get_values channelReader 5 gappedChannel ["channel"] = some vs ∧ vs.length = 1 ∧
      ∀ k, k < 1 → ∃ dom val,
        ((gappedChannel.sub ["channel"]).sub [toString k]).get? ["domain"] = some dom ∧
        ((gappedChannel.sub ["channel"]).sub [toString k]).get? ["value"] = some val ∧
        vs[k]? = some (((channelReader.matrix dom).1.1, (channelReader.matrix dom).2.1),
          ((channelReader.matrix dom).1.2, (channelReader.matrix dom).2.2),
          channelReader.number val)) ∧
    (∀ cfg2 : Configuration, cfg2.has_sub ["channel"] = false →
      get_values channelReader 5 cfg2 ["channel"] = some []) ∧
    (∀ model1_filename : String,
      (get_values channelReader 34 (Spe10.default_config model1_filename [])
          ["channel"]).map List.length = some 33 ∧
        get_values channelReader 4 (Spe10.default_config model1_filename []) ["forces"]
          = some [
            (((channelReader.matrix "[0.95 1.10; 0.30 0.45]").1.1,
                (channelReader.matrix "[0.95 1.10; 0.30 0.45]").2.1),
              ((channelReader.matrix "[0.95 1.10; 0.30 0.45]").1.2,
                (channelReader.matrix "[0.95 1.10; 0.30 0.45]").2.2),
              channelReader.number "2"),
            (((channelReader.matrix "[3.00 3.15; 0.75 0.90]").1.1,
                (channelReader.matrix "[3.00 3.15; 0.75 0.90]").2.1),
              ((channelReader.matrix "[3.00 3.15; 0.75 0.90]").1.2,
                (channelReader.matrix "[3.00 3.15; 0.75 0.90]").2.2),
              channelReader.number "-1"),
            (((channelReader.matrix "[4.25 4.40; 0.25 0.40]").1.1,
                (channelReader.matrix "[4.25 4.40; 0.25 0.40]").2.1),
              ((channelReader.matrix "[4.25 4.40; 0.25 0.40]").1.2,
                (channelReader.matrix "[4.25 4.40; 0.25 0.40]").2.2),
              channelReader.number "-1")])) ∧
    get_values channelReader 5 gappedChannel ["channel"]
      = some [((195 / 100, 30 / 100), (2, 35 / 100), 889427093374 / 100000000000)] :=
  ⟨get_values_longest_complete channelReader gappedChannel ["channel"] 1 5 (by decide)
    (by decide) (by decide), by decide!⟩

/-- C28. Domain layout of `get_values`: for the entry `k` with domain matrix `[a b; c d]`
and value `v` the returned tuple number `k` is `((a, c), (b, d), v)`, so every row of the
matrix is the interval of one coordinate; the loop only appends to the tuples it has; and
with `channel.0.domain = [1.95 2.00; 0.30 0.35]` of the default configuration the first
tuple has the lower corner `(1.95, 0.30)` and the upper corner `(2.00, 0.35)`. -/
theorem get_values_domain_layout (P : FromString) (cfg : Configuration) (id : Key)
    (m fuel : Nat) (hall : ∀ k, k < m → completeEntry (cfg.sub id) k = true)
    (hstop : completeEntry (cfg.sub id) m = false) (hf : m < fuel) :
    (∃ vs, get_values P fuel cfg id = some vs ∧ vs.length = m ∧
      ∀ (k : Nat) (a b c d v : ℚ), k < m →
        P.matrix (((cfg.sub id).sub [toString k]).get ["domain"] "") = ((a, b), (c, d)) →
        P.number (((cfg.sub id).sub [toString k]).get ["value"] "") = v →
        vs[k]? = some ((a, c), (b, d), v)) ∧
    (∀ (sub_cfg : Configuration) (fuel2 cc : Nat) (values r : Values),
      get_values_loop P sub_cfg fuel2 cc values = some r → ∃ l, r = values ++ l) ∧
    (∀ model1_filename : String,
      P.matrix "[1.95 2.00; 0.30 0.35]" = ((195 / 100, 2), (30 / 100, 35 / 100)) →
      ∃ vs2 v, get_values P 34 (Spe10.default_config model1_filename []) ["channel"] = some vs2 ∧
        vs2[0]? = some ((195 / 100, 30 / 100), (2, 35 / 100), v)) := by
  refine ⟨⟨_, get_values_spec P cfg id m fuel hall hstop hf, by simp, ?_⟩,
    fun sub_cfg fuel2 cc values r h => get_values_loop_appends P sub_cfg fuel2 cc values r h, ?_⟩
  · intro k a b c d v hk hm hv
    rw [List.getElem?_map, List.getElem?_range hk]
    simp only [Option.map_some', valueTuple, hm, hv]
  · intro fn hm
    refine ⟨_, P.number "8.89427093374", default_channel_values P fn, ?_⟩
    rw [List.getElem?_map, List.getElem?_range (by omega)]
    have hd : ((Spe10.stream.sub ["channel"]).sub [toString 0]).get ["domain"] ""
        = "[1.95 2.00; 0.30 0.35]" := by decide
    have hval : ((Spe10.stream.sub ["channel"]).sub [toString 0]).get ["value"] ""
        = "8.89427093374" := by decide
    simp only [Option.map_some', valueTuple, hd, hval, hm]

/-- C28 at a concrete input: the default configuration with a reader that knows
`channel.0`. -/
theorem get_values_domain_layout_witness :
    (∃ vs, get_values channelReader 34 (Spe10.default_config "perm_case1.dat" []) ["channel"]
        = some vs ∧ vs.length = 33 ∧
      ∀ (k : Nat) (a b c d v : ℚ), k < 33 →
        channelReader.matrix ((((Spe10.default_config "perm_case1.dat" []).sub ["channel"]).sub
          [toString k]).get ["domain"] "") = ((a, b), (c, d)) →
        channelReader.number ((((Spe10.default_config "perm_case1.dat" []).sub ["channel"]).sub
          [toString k]).get ["value"] "") = v →
        vs[k]? = some ((a, c), (b, d), v)) ∧
    (∀ (sub_cfg : Configuration) (fuel2 cc : Nat) (values r : Values),
      get_values_loop channelReader sub_cfg fuel2 cc values = some r → ∃ l, r = values ++ l) ∧
    (∀ model1_filename : String,
      channelReader.matrix "[1.95 2.00; 0.30 0.35]" = ((195 / 100, 2), (30 / 100, 35 / 100)) →
      ∃ vs2 v, get_values channelReader 34 (Spe10.default_config model1_filename []) ["channel"]
          = some vs2 ∧
        vs2[0]? = some ((195 / 100, 30 / 100), (2, 35 / 100), v)) :=
  get_values_domain_layout channelReader (Spe10.default_config "perm_case1.dat" []) ["channel"]
    33 34 (by decide) (by decide) (by decide)

/-! ## The round trip through a sub-tree name -/

theorem wellFormed_nil : WellFormed [] := by
  unfold WellFormed
  simp

theorem wellFormed_stream : WellFormed Spe10.stream := by
  unfold WellFormed
  decide

theorem wellFormed_spe10 (model1_filename : String) :
    WellFormed (Spe10.default_config model1_filename []) := by
  have h : Spe10.default_config model1_filename []
      = (((Spe10.stream.set ["filename"] model1_filename).set ["lower_left"]
        "[0.0 0.0]").set ["upper_right"] "[5.0 1.0]").set ["parametric"] "false" := rfl
  rw [h]
  exact wellFormed_set _ _ _ (wellFormed_set _ _ _ (wellFormed_set _ _ _
    (wellFormed_set _ _ _ wellFormed_stream (by simp)) (by simp)) (by simp)) (by simp)

theorem wellFormed_transport (base_default_config flux_default_config
    function_default_config : Configuration) (flux_static_id static_id : String)
    (hbase : WellFormed base_default_config) :
    WellFormed (Transport.default_config base_default_config flux_default_config
      function_default_config flux_static_id static_id []) := by
  unfold Transport.default_config
  simp only [List.isEmpty_nil, if_true]
  exact wellFormed_add _ _ (by simp) _ (wellFormed_add _ _ (by simp) _
    (wellFormed_add _ _ (by simp) _ (wellFormed_add _ _ (by simp) _ hbase)))

theorem wellFormed_thermalblock (checkerboard_defaultSettings
    constant_default_config : Configuration) (constant_static_id : String) :
    WellFormed (Thermalblock.default_config checkerboard_defaultSettings
      constant_default_config constant_static_id []) := by
  unfold Thermalblock.default_config
  simp only [List.isEmpty_nil, if_true]
  exact wellFormed_add _ _ (by simp) _ (wellFormed_add _ _ (by simp) _
    (wellFormed_add _ _ (by simp) _ (wellFormed_add _ _ (by simp) _ wellFormed_nil)))

theorem isEmpty_false (sub_name : Key) (hne : sub_name ≠ []) : sub_name.isEmpty = false := by
  cases sub_name with
  | nil => exact absurd rfl hne
  | cons a k => rfl

theorem spe10_nested (model1_filename : String) (sub_name : Key) (hne : sub_name ≠ []) :
    Spe10.default_config model1_filename sub_name
      = nested (Spe10.default_config model1_filename []) sub_name := by
  rw [← add_nil _ _ (wellFormed_spe10 model1_filename)]
  unfold Spe10.default_config
  simp only [isEmpty_false sub_name hne, List.isEmpty_nil, if_true, Bool.false_eq_true, if_false]

theorem transport_nested (base_default_config flux_default_config
    function_default_config : Configuration) (flux_static_id static_id : String)
    (hbase : WellFormed base_default_config) (sub_name : Key) (hne : sub_name ≠ []) :
    Transport.default_config base_default_config flux_default_config
        function_default_config flux_static_id static_id sub_name
      = nested (Transport.default_config base_default_config flux_default_config
        function_default_config flux_static_id static_id []) sub_name := by
  rw [← add_nil _ _ (wellFormed_transport _ _ _ _ _ hbase)]
  unfold Transport.default_config
  simp only [isEmpty_false sub_name hne, List.isEmpty_nil, if_true, Bool.false_eq_true, if_false]

theorem thermalblock_nested (checkerboard_defaultSettings
    constant_default_config : Configuration) (constant_static_id : String)
    (sub_name : Key) (hne : sub_name ≠ []) :
    Thermalblock.default_config checkerboard_defaultSettings constant_default_config
        constant_static_id sub_name
      = nested (Thermalblock.default_config checkerboard_defaultSettings
        constant_default_config constant_static_id []) sub_name := by
  rw [← add_nil _ _ (wellFormed_thermalblock _ _ _)]
  unfold Thermalblock.default_config
  simp only [isEmpty_false sub_name hne, List.isEmpty_nil, if_true, Bool.false_eq_true, if_false]

theorem spe10_create_congr (model1_min_value model1_max_value : ℚ) (model1_filename : String)
    (P : FromString) (fuel : Nat) (c1 c2 : Configuration) (n1 n2 : Key)
    (h : (if c1.has_sub n1 then c1.sub n1 else c1) = (if c2.has_sub n2 then c2.sub n2 else c2)) :
    Spe10.create model1_min_value model1_max_value model1_filename P fuel c1 n1
      = Spe10.create model1_min_value model1_max_value model1_filename P fuel c2 n2 := by
  unfold Spe10.create
  simp only [h]

theorem transport_create_congr (c1 c2 : Configuration) (n1 n2 : Key)
    (h : (if c1.has_sub n1 then c1.sub n1 else c1) = (if c2.has_sub n2 then c2.sub n2 else c2)) :
    Transport.create c1 n1 = Transport.create c2 n2 := by
  unfold Transport.create
  simp only [h]

theorem thermalblock_create_congr (c1 c2 : Configuration) (n1 n2 : Key)
    (h : (if c1.has_sub n1 then c1.sub n1 else c1) = (if c2.has_sub n2 then c2.sub n2 else c2)) :
    Thermalblock.create c1 n1 = Thermalblock.create c2 n2 := by
  unfold Thermalblock.create
  simp only [h]

theorem descend_absent (c : Configuration) (name : Key) (h : c.has_sub name = false) :
    (if c.has_sub name then c.sub name else c) = c := by
  rw [h]
  rfl

/-- C29, as stated, fails: for `Model1` and the sub-tree name `forces`, which names a
sub-tree of `default_config()` itself, `create(default_config("forces"), "forces")` reads
the whole default configuration, 33 channel and 3 force tuples, while
`create(default_config(), "forces")` descends into the forces and finds no tuple. -/
theorem sub_name_round_trip_fails :
    Spe10.create 0 1 "perm_case1.dat" zeroReader 34
        (Spe10.default_config "perm_case1.dat" ["forces"]) ["forces"]
      ≠ Spe10.create 0 1 "perm_case1.dat" zeroReader 34
        (Spe10.default_config "perm_case1.dat" []) ["forces"] := by
  have hl : (if (Spe10.default_config "perm_case1.dat" ["forces"]).has_sub ["forces"]
      then (Spe10.default_config "perm_case1.dat" ["forces"]).sub ["forces"]
      else Spe10.default_config "perm_case1.dat" ["forces"])
      = Spe10.default_config "perm_case1.dat" [] := by
    rw [spe10_nested "perm_case1.dat" ["forces"] (by simp)]
    exact descend_nested _ _ (wellFormed_spe10 "perm_case1.dat").2
  have hr : (if (Spe10.default_config "perm_case1.dat" []).has_sub ["forces"]
      then (Spe10.default_config "perm_case1.dat" []).sub ["forces"]
      else Spe10.default_config "perm_case1.dat" [])
      = Spe10.stream.sub ["forces"] := by
    have h1 : (Spe10.default_config "perm_case1.dat" []).has_sub ["forces"] = true := by decide
    rw [h1, if_pos rfl, default_sub_forces]
  have hc := get_values_spec zeroReader (Spe10.default_config "perm_case1.dat" []) ["channel"]
    33 34 (by rw [default_sub_channel]; exact stream_channel_complete.1)
    (by rw [default_sub_channel]; exact stream_channel_complete.2) (by omega)
  have hf := get_values_spec zeroReader (Spe10.default_config "perm_case1.dat" []) ["forces"]
    3 34 (by rw [default_sub_forces]; exact stream_forces_complete.1)
    (by rw [default_sub_forces]; exact stream_forces_complete.2) (by omega)
  have hc2 : get_values zeroReader 34 (Spe10.stream.sub ["forces"]) ["channel"] = some [] := by
    decide
  have hf2 : get_values zeroReader 34 (Spe10.stream.sub ["forces"]) ["forces"] = some [] := by
    decide
  unfold Spe10.create
  simp only [hl, hr, hc, hf, hc2, hf2]
  intro h
  have h2 := congrArg (Option.map (fun p => p.force)) h
  simp [Model1, Problem.Default, List.range, List.range.loop] at h2

/-- C29, amended. For `Transport` (over a well-formed `BaseType::default_config()`),
`Model1` and `Thermalblock` and every non-empty `sub_name`, `default_config(sub_name)` is
`default_config()` nested under `sub_name`; and when `sub_name` is not the name of a
sub-tree of `default_config()` itself, `create(default_config(sub_name), sub_name)` builds
the same problem as `create(default_config(), sub_name)`. -/
theorem sub_name_round_trip (base_default_config flux_default_config
    function_default_config : Configuration) (flux_static_id static_id : String)
    (model1_min_value model1_max_value : ℚ) (model1_filename : String) (P : FromString)
    (fuel : Nat) (checkerboard_defaultSettings constant_default_config : Configuration)
    (constant_static_id : String) (sub_name : Key)
    (hbase : WellFormed base_default_config) (hne : sub_name ≠ []) :
    (Transport.default_config base_default_config flux_default_config
          function_default_config flux_static_id static_id sub_name
        = nested (Transport.default_config base_default_config flux_default_config
          function_default_config flux_static_id static_id []) sub_name ∧
      ((Transport.default_config base_default_config flux_default_config
          function_default_config flux_static_id static_id []).has_sub sub_name = false →
        Transport.create (Transport.default_config base_default_config flux_default_config
            function_default_config flux_static_id static_id sub_name) sub_name
          = Transport.create (Transport.default_config base_default_config flux_default_config
            function_default_config flux_static_id static_id []) sub_name)) ∧
    (Spe10.default_config model1_filename sub_name
        = nested (Spe10.default_config model1_filename []) sub_name ∧
      ((Spe10.default_config model1_filename []).has_sub sub_name = false →
        Spe10.create model1_min_value model1_max_value model1_filename P fuel
            (Spe10.default_config model1_filename sub_name) sub_name
          = Spe10.create model1_min_value model1_max_value model1_filename P fuel
            (Spe10.default_config model1_filename []) sub_name)) ∧
    (Thermalblock.default_config checkerboard_defaultSettings constant_default_config
          constant_static_id sub_name
        = nested (Thermalblock.default_config checkerboard_defaultSettings
          constant_default_config constant_static_id []) sub_name ∧
      ((Thermalblock.default_config checkerboard_defaultSettings constant_default_config
          constant_static_id []).has_sub sub_name = false →
        Thermalblock.create (Thermalblock.default_config checkerboard_defaultSettings
            constant_default_config constant_static_id sub_name) sub_name
          = Thermalblock.create (Thermalblock.default_config checkerboard_defaultSettings
            constant_default_config constant_static_id []) sub_name)) := by
  refine ⟨⟨transport_nested _ _ _ _ _ hbase sub_name hne, fun h => ?_⟩,
    ⟨spe10_nested _ sub_name hne, fun h => ?_⟩,
    ⟨thermalblock_nested _ _ _ sub_name hne, fun h => ?_⟩⟩
  · apply transport_create_congr
    rw [transport_nested _ _ _ _ _ hbase sub_name hne,
      descend_nested _ _ (wellFormed_transport _ _ _ _ _ hbase).2, descend_absent _ _ h]
  · apply spe10_create_congr
    rw [spe10_nested _ sub_name hne, descend_nested _ _ (wellFormed_spe10 _).2,
      descend_absent _ _ h]
  · apply thermalblock_create_congr
    rw [thermalblock_nested _ _ _ sub_name hne,
      descend_nested _ _ (wellFormed_thermalblock _ _ _).2, descend_absent _ _ h]

/-- C29, amended, at a concrete input: the sub-tree name `problem`, which names no
sub-tree of the three default configurations. -/
theorem sub_name_round_trip_witness :
    WellFormed ([] : Configuration) ∧ (["problem"] : Key) ≠ [] ∧
    (Transport.default_config [] [] [] "function.affine" "hdd.hyperbolic.problem.transport"
      []).has_sub ["problem"] = false ∧
    (Spe10.default_config "perm_case1.dat" []).has_sub ["problem"] = false ∧
    (Thermalblock.default_config [] [] "stuff.function.constant" []).has_sub ["problem"]
      = false ∧
    Transport.create (Transport.default_config [] [] [] "function.affine"
        "hdd.hyperbolic.problem.transport" ["problem"]) ["problem"]
      = Transport.create (Transport.default_config [] [] [] "function.affine"
        "hdd.hyperbolic.problem.transport" []) ["problem"] ∧
    Spe10.create 0 1 "perm_case1.dat" zeroReader 34
        (Spe10.default_config "perm_case1.dat" ["problem"]) ["problem"]
      = Spe10.create 0 1 "perm_case1.dat" zeroReader 34
        (Spe10.default_config "perm_case1.dat" []) ["problem"] ∧
    Thermalblock.create (Thermalblock.default_config [] [] "stuff.function.constant"
        ["problem"]) ["problem"]
      = Thermalblock.create (Thermalblock.default_config [] [] "stuff.function.constant" [])
        ["problem"] :=
  ⟨wellFormed_nil, by simp, by decide, by decide, by decide,
    ((sub_name_round_trip [] [] [] "function.affine" "hdd.hyperbolic.problem.transport" 0 1
      "perm_case1.dat" zeroReader 34 [] [] "stuff.function.constant" ["problem"]
      wellFormed_nil (by simp)).1.2 (by decide)),
    ((sub_name_round_trip [] [] [] "function.affine" "hdd.hyperbolic.problem.transport" 0 1
      "perm_case1.dat" zeroReader 34 [] [] "stuff.function.constant" ["problem"]
      wellFormed_nil (by simp)).2.1.2 (by decide)),
    ((sub_name_round_trip [] [] [] "function.affine" "hdd.hyperbolic.problem.transport" 0 1
      "perm_case1.dat" zeroReader 34 [] [] "stuff.function.constant" ["problem"]
      wellFormed_nil (by simp)).2.2.2 (by decide))⟩

end DuneHDD
